import Mathlib

/-!
A verification development for the PiQL query language and engine
(crates/piql: parser, pretty printer, sugar/transform pass, evaluator,
tick-driven query engine).

The Rust sources are shallowly embedded: pure functions become Lean
functions, fallible code returns `Except`, and the columnar backend
(polars) -- an external dependency of the crate -- is modelled from its
interface contract as an explicit plan AST (`LF`, `PExpr`) with an
executable row-list semantics (`collectLF`) for the fragment the
theorems evaluate.  Rust `f64` literals are idealized as exact rationals
(`Rat`); no theorem below depends on floating-point rounding.
-/

namespace Piql

/-- Association-list lookup (first match), modelling `HashMap::get` /
`IndexMap::get`. -/
def alookup {α : Type} : List (String × α) → String → Option α
  | [], _ => none
  | (k, v) :: rest, key => if k = key then some v else alookup rest key

/-- Association-list insert modelling `HashMap::insert` / `IndexMap::insert`:
an existing key keeps its position and gets the new value, a new key is
appended.  (This is a deterministic refinement of `HashMap` iteration
order; `IndexMap` guarantees exactly this order.) -/
def ainsert {α : Type} : List (String × α) → String → α → List (String × α)
  | [], key, v => [(key, v)]
  | (k, w) :: rest, key, v =>
      if k = key then (k, v) :: rest else (k, w) :: ainsert rest key v

/-- Association-list remove, modelling `HashMap::remove`. -/
def aremove {α : Type} : List (String × α) → String → List (String × α)
  | [], _ => []
  | (k, w) :: rest, key => if k = key then rest else (k, w) :: aremove rest key

-- ===================== AST (src/ast/mod.rs, surface.rs, core.rs) ==========

/-- `Literal` from `ast/mod.rs`.  The `f64` payload of `Float` is idealized
as an exact rational. -/
inductive Lit where
  | str (s : String)
  | int (n : Int)
  | float (q : Rat)
  | bool (b : Bool)
  | null
deriving DecidableEq

/-- `BinOp` from `ast/mod.rs`. -/
inductive BinOp where
  | add | sub | mul | div | mod
  | eq | ne | lt | le | gt | ge
  | and | or
deriving DecidableEq

/-- `UnaryOp` from `ast/mod.rs`. -/
inductive UnaryOp where
  | neg | not
deriving DecidableEq

/-- `Arg<E>` from `ast/mod.rs`: positional or keyword argument. -/
inductive Arg (E : Type) where
  | positional (e : E)
  | keyword (name : String) (e : E)
deriving DecidableEq

/-- Surface AST (`ast/surface.rs`): what the parser produces, including
sugar nodes. -/
inductive SurfaceExpr where
  | ident (s : String)
  | literal (l : Lit)
  | list (items : List SurfaceExpr)
  | attr (base : SurfaceExpr) (name : String)
  | call (callee : SurfaceExpr) (args : List (Arg SurfaceExpr))
  | binaryOp (lhs : SurfaceExpr) (op : BinOp) (rhs : SurfaceExpr)
  | unaryOp (op : UnaryOp) (operand : SurfaceExpr)
  | colShorthand (name : String)
  | directive (name : String) (args : List (Arg SurfaceExpr))

abbrev SurfaceArg := Arg SurfaceExpr

/-- Core AST (`ast/core.rs`, crate `piql` version): desugared tree consumed
by the evaluator.  Includes the `Invalid` diagnostic node constructed by
`transform.rs` and consumed by `eval.rs`. -/
inductive CoreExpr where
  | ident (s : String)
  | literal (l : Lit)
  | list (items : List CoreExpr)
  | attr (base : CoreExpr) (name : String)
  | call (callee : CoreExpr) (args : List (Arg CoreExpr))
  | binaryOp (lhs : CoreExpr) (op : BinOp) (rhs : CoreExpr)
  | unaryOp (op : UnaryOp) (operand : CoreExpr)
  | whenThenOtherwise (branches : List (CoreExpr × CoreExpr)) (otherwise : CoreExpr)
  | invalid (message : String)

abbrev CoreArg := Arg CoreExpr

end Piql

namespace Piql

-- ===================== Parser (src/crates/piql/src/parse.rs) ==============

/-- `ParseError` from `parse.rs`. -/
structure ParseError where
  message : String
  offset : Nat
  line : Nat
  column : Nat
deriving DecidableEq

abbrev Inp := List Char

/-- `is_ascii_alphabetic(c) || c == '_'` (start of a raw identifier). -/
def isIdentStart (c : Char) : Bool := c.isAlpha || c = '_'

/-- `is_ascii_alphanumeric(c) || c == '_'` (continuation of a raw identifier). -/
def isIdentCont (c : Char) : Bool := c.isAlphanum || c = '_'

/-- `multispace0`: drop leading ASCII whitespace. -/
def wsDrop (s : Inp) : Inp := s.dropWhile Char.isWhitespace

/-- One raw identifier `[A-Za-z_][A-Za-z0-9_]*`. -/
def takeIdentRaw : Inp → Option (String × Inp)
  | [] => none
  | c :: rest =>
    if isIdentStart c then
      some (String.mk (c :: rest.takeWhile isIdentCont), rest.dropWhile isIdentCont)
    else none

/-- The `("::" raw)*` loop of `ident_str` (each iteration consumes at least
three characters, so fuel `input.length` always suffices). -/
def identSegsGo : Nat → String → Inp → String × Inp
  | 0, acc, s => (acc, s)
  | fuel+1, acc, s =>
    match s with
    | ':' :: ':' :: rest =>
      match takeIdentRaw rest with
      | some (seg, rem) => identSegsGo fuel (acc ++ "::" ++ seg) rem
      | none => (acc, s)
    | _ => (acc, s)

/-- `ident_str`: raw identifier with optional `::`-joined segments. -/
def identStrP (s : Inp) : Option (String × Inp) :=
  match takeIdentRaw s with
  | some (first, rest) => some (identSegsGo rest.length first rest)
  | none => none

/-- The character-consuming loop of `string_contents` (escape handling). -/
def strContentsGo : Nat → Char → List Char → Inp → Option (String × Inp)
  | 0, _, _, _ => none
  | fuel+1, quote, acc, s =>
    match s with
    | [] => none
    | c :: rest =>
      if c = quote then some (String.mk acc.reverse, s)
      else if c = '\\' then
        match rest with
        | [] => none
        | e :: rest2 =>
          let u := if e = 'n' then '\n'
            else if e = 't' then '\t'
            else if e = 'r' then '\r'
            else if e = '\\' then '\\'
            else if e = '"' then '"'
            else if e = '\'' then '\''
            else if e = '0' then '\x00'
            else e
          strContentsGo fuel quote (u :: acc) rest2
      else strContentsGo fuel quote (c :: acc) rest

/-- `string_lit`: double- or single-quoted string with escapes. -/
def stringLitP (s : Inp) : Option (Lit × Inp) :=
  match s with
  | '"' :: rest =>
    match strContentsGo (rest.length + 1) '"' [] rest with
    | some (content, rem) =>
      match rem with
      | '"' :: rem2 => some (.str content, rem2)
      | _ => none
    | none => none
  | '\'' :: rest =>
    match strContentsGo (rest.length + 1) '\'' [] rest with
    | some (content, rem) =>
      match rem with
      | '\'' :: rem2 => some (.str content, rem2)
      | _ => none
    | none => none
  | _ => none

def digitsToNat (ds : List Char) : Nat :=
  ds.foldl (fun a c => a * 10 + (c.toNat - 48)) 0

/-- `i64::MAX`, the bound of Rust `str::parse::<i64>` on `[0-9]+`. -/
def i64Max : Nat := 9223372036854775807

/-- `int_lit`: `digit1` parsed as `i64` (overflow backtracks). -/
def intLitP (s : Inp) : Option (Lit × Inp) :=
  let ds := s.takeWhile Char.isDigit
  if ds.isEmpty then none
  else
    let n := digitsToNat ds
    if n ≤ i64Max then some (.int (n : Int), s.dropWhile Char.isDigit) else none

/-- `float_lit`: `digit1 '.' digit1` parsed as `f64` (idealized as the exact
rational value; Rust rounds to the nearest binary64). -/
def floatLitP (s : Inp) : Option (Lit × Inp) :=
  let ds := s.takeWhile Char.isDigit
  if ds.isEmpty then none
  else
    match s.dropWhile Char.isDigit with
    | '.' :: rest =>
      let fs := rest.takeWhile Char.isDigit
      if fs.isEmpty then none
      else
        let q : Rat := (digitsToNat ds : Rat) + (digitsToNat fs : Rat) / ((10 : Rat) ^ fs.length)
        some (.float q, rest.dropWhile Char.isDigit)
    | _ => none

def tagP (t : List Char) (s : Inp) : Option Inp :=
  if t.isPrefixOf s then some (s.drop t.length) else none

/-- `literal`: `True | False | None | float | int | string` (alt order as in
the source). -/
def literalP (s : Inp) : Option (Lit × Inp) :=
  match tagP "True".toList s with
  | some rem => some (.bool true, rem)
  | none =>
  match tagP "False".toList s with
  | some rem => some (.bool false, rem)
  | none =>
  match tagP "None".toList s with
  | some rem => some (.null, rem)
  | none =>
  match floatLitP s with
  | some r => some r
  | none =>
  match intLitP s with
  | some r => some r
  | none => stringLitP s

/-- `cmp_op` (alt order as in the source: two-character operators first). -/
def cmpOpP (s : Inp) : Option (BinOp × Inp) :=
  match s with
  | '=' :: '=' :: r => some (.eq, r)
  | '!' :: '=' :: r => some (.ne, r)
  | '<' :: '=' :: r => some (.le, r)
  | '>' :: '=' :: r => some (.ge, r)
  | '<' :: r => some (.lt, r)
  | '>' :: r => some (.gt, r)
  | _ => none

/-- `$gold` → `ColShorthand("gold")`. -/
def colShorthandP (s : Inp) : Option (SurfaceExpr × Inp) :=
  match s with
  | '$' :: rest => (identStrP rest).map (fun (n, r) => (.colShorthand n, r))
  | _ => none

end Piql

namespace Piql

/- The mutually recursive expression grammar of `parse.rs`.  The `winnow`
combinators are modelled directly (`Option (result × remaining input)`,
failure = backtrack); a fuel parameter bounds the recursion, and the
top-level `parse` supplies fuel that is ample for any input of its length
(each unit of grammar structure consumes input). -/
mutual

/-- `expr := or`. -/
def exprP : Nat → Inp → Option (SurfaceExpr × Inp)
  | 0, _ => none
  | f+1, s => orExprP f s

/-- `or := and ('|' and)*`. -/
def orExprP : Nat → Inp → Option (SurfaceExpr × Inp)
  | 0, _ => none
  | f+1, s =>
    match andExprP f s with
    | none => none
    | some (first, rest) => orRestP f first rest

def orRestP : Nat → SurfaceExpr → Inp → Option (SurfaceExpr × Inp)
  | 0, _, _ => none
  | f+1, acc, s =>
    match wsDrop s with
    | '|' :: s2 =>
      match andExprP f (wsDrop s2) with
      | some (r, rest) => orRestP f (.binaryOp acc .or r) rest
      | none => some (acc, s)
    | _ => some (acc, s)

/-- `and := cmp ('&' cmp)*`. -/
def andExprP : Nat → Inp → Option (SurfaceExpr × Inp)
  | 0, _ => none
  | f+1, s =>
    match cmpExprP f s with
    | none => none
    | some (first, rest) => andRestP f first rest

def andRestP : Nat → SurfaceExpr → Inp → Option (SurfaceExpr × Inp)
  | 0, _, _ => none
  | f+1, acc, s =>
    match wsDrop s with
    | '&' :: s2 =>
      match cmpExprP f (wsDrop s2) with
      | some (r, rest) => andRestP f (.binaryOp acc .and r) rest
      | none => some (acc, s)
    | _ => some (acc, s)

/-- `cmp := add (cmp_op add)?` (non-associative). -/
def cmpExprP : Nat → Inp → Option (SurfaceExpr × Inp)
  | 0, _ => none
  | f+1, s =>
    match addExprP f s with
    | none => none
    | some (left, rest) =>
      match cmpOpP (wsDrop rest) with
      | some (op, s2) =>
        match addExprP f (wsDrop s2) with
        | some (right, rest2) => some (.binaryOp left op right, rest2)
        | none => some (left, rest)
      | none => some (left, rest)

/-- `add := mul (('+'|'-') mul)*`. -/
def addExprP : Nat → Inp → Option (SurfaceExpr × Inp)
  | 0, _ => none
  | f+1, s =>
    match mulExprP f s with
    | none => none
    | some (first, rest) => addRestP f first rest

def addRestP : Nat → SurfaceExpr → Inp → Option (SurfaceExpr × Inp)
  | 0, _, _ => none
  | f+1, acc, s =>
    match wsDrop s with
    | '+' :: s2 =>
      match mulExprP f (wsDrop s2) with
      | some (r, rest) => addRestP f (.binaryOp acc .add r) rest
      | none => some (acc, s)
    | '-' :: s2 =>
      match mulExprP f (wsDrop s2) with
      | some (r, rest) => addRestP f (.binaryOp acc .sub r) rest
      | none => some (acc, s)
    | _ => some (acc, s)

/-- `mul := unary (('*'|'/'|'%') unary)*`. -/
def mulExprP : Nat → Inp → Option (SurfaceExpr × Inp)
  | 0, _ => none
  | f+1, s =>
    match unaryExprP f s with
    | none => none
    | some (first, rest) => mulRestP f first rest

def mulRestP : Nat → SurfaceExpr → Inp → Option (SurfaceExpr × Inp)
  | 0, _, _ => none
  | f+1, acc, s =>
    match wsDrop s with
    | '*' :: s2 =>
      match unaryExprP f (wsDrop s2) with
      | some (r, rest) => mulRestP f (.binaryOp acc .mul r) rest
      | none => some (acc, s)
    | '/' :: s2 =>
      match unaryExprP f (wsDrop s2) with
      | some (r, rest) => mulRestP f (.binaryOp acc .div r) rest
      | none => some (acc, s)
    | '%' :: s2 =>
      match unaryExprP f (wsDrop s2) with
      | some (r, rest) => mulRestP f (.binaryOp acc .mod r) rest
      | none => some (acc, s)
    | _ => some (acc, s)

/-- `unary := ('-'|'~') unary | postfix`. -/
def unaryExprP : Nat → Inp → Option (SurfaceExpr × Inp)
  | 0, _ => none
  | f+1, s =>
    match s with
    | '-' :: rest =>
      match unaryExprP f (wsDrop rest) with
      | some (e, r) => some (.unaryOp .neg e, r)
      | none => postfixExprP f s
    | '~' :: rest =>
      match unaryExprP f (wsDrop rest) with
      | some (e, r) => some (.unaryOp .not e, r)
      | none => postfixExprP f s
    | _ => postfixExprP f s

/-- `postfix := primary ('.' ident | '(' args? ')')*`. -/
def postfixExprP : Nat → Inp → Option (SurfaceExpr × Inp)
  | 0, _ => none
  | f+1, s =>
    match primaryP f s with
    | none => none
    | some (base, rest) => postfixOpsP f base rest

def postfixOpsP : Nat → SurfaceExpr → Inp → Option (SurfaceExpr × Inp)
  | 0, _, _ => none
  | f+1, acc, s =>
    match wsDrop s with
    | '.' :: rest =>
      match identStrP rest with
      | some (name, rem) => postfixOpsP f (.attr acc name) rem
      | none => some (acc, s)
    | '(' :: rest =>
      match callArgsReqP f (wsDrop rest) with
      | some (args, rem) =>
        match wsDrop rem with
        | ')' :: rem2 => postfixOpsP f (.call acc args) rem2
        | _ => some (acc, s)
      | none =>
        match wsDrop (wsDrop rest) with
        | ')' :: rem2 => postfixOpsP f (.call acc []) rem2
        | _ => some (acc, s)
    | _ => some (acc, s)

/-- `args := arg (',' arg)* ','?` (at least one argument; fails otherwise). -/
def callArgsReqP : Nat → Inp → Option (List SurfaceArg × Inp)
  | 0, _ => none
  | f+1, s =>
    match callArgP f s with
    | none => none
    | some (a, rest) =>
      match argsRestP f [a] rest with
      | none => none
      | some (args, rest2) =>
        match wsDrop rest2 with
        | ',' :: rest3 => some (args, rest3)
        | _ => some (args, rest2)

def argsRestP : Nat → List SurfaceArg → Inp → Option (List SurfaceArg × Inp)
  | 0, _, _ => none
  | f+1, acc, s =>
    match wsDrop s with
    | ',' :: s2 =>
      match callArgP f (wsDrop s2) with
      | some (a, rest) => argsRestP f (acc ++ [a]) rest
      | none => some (acc, s)
    | _ => some (acc, s)

/-- `arg := ident '=' expr | expr`. -/
def callArgP : Nat → Inp → Option (SurfaceArg × Inp)
  | 0, _ => none
  | f+1, s =>
    let kw : Option (SurfaceArg × Inp) :=
      match identStrP s with
      | some (name, r1) =>
        match wsDrop r1 with
        | '=' :: r2 => (exprP f (wsDrop r2)).map (fun (e, r3) => (.keyword name e, r3))
        | _ => none
      | none => none
    match kw with
    | some r => some r
    | none => (exprP f s).map (fun (e, r) => (.positional e, r))

/-- `primary := '(' expr ')' | list | col_shorthand | directive | literal
| ident` (leading whitespace consumed here, alt order as in the source). -/
def primaryP : Nat → Inp → Option (SurfaceExpr × Inp)
  | 0, _ => none
  | f+1, s0 =>
    let s := wsDrop s0
    match parenExprP f s with
    | some r => some r
    | none =>
    match listExprP f s with
    | some r => some r
    | none =>
    match colShorthandP s with
    | some r => some r
    | none =>
    match directiveP f s with
    | some r => some r
    | none =>
    match literalP s with
    | some (l, r) => some (.literal l, r)
    | none => (identStrP s).map (fun (n, r) => (.ident n, r))

def parenExprP : Nat → Inp → Option (SurfaceExpr × Inp)
  | 0, _ => none
  | f+1, s =>
    match s with
    | '(' :: rest =>
      match exprP f (wsDrop rest) with
      | some (e, rem) =>
        match wsDrop rem with
        | ')' :: rem2 => some (e, rem2)
        | _ => none
      | none => none
    | _ => none

/-- `list := '[' (expr (',' expr)* ','?)? ']'`. -/
def listExprP : Nat → Inp → Option (SurfaceExpr × Inp)
  | 0, _ => none
  | f+1, s =>
    match s with
    | '[' :: rest =>
      match listItemsReqP f (wsDrop rest) with
      | some (items, rem) =>
        match wsDrop rem with
        | ']' :: rem2 => some (.list items, rem2)
        | _ => none
      | none =>
        match wsDrop (wsDrop rest) with
        | ']' :: rem2 => some (.list [], rem2)
        | _ => none
    | _ => none

def listItemsReqP : Nat → Inp → Option (List SurfaceExpr × Inp)
  | 0, _ => none
  | f+1, s =>
    match exprP f s with
    | none => none
    | some (e, rest) =>
      match itemsRestP f [e] rest with
      | none => none
      | some (items, rest2) =>
        match wsDrop rest2 with
        | ',' :: rest3 => some (items, rest3)
        | _ => some (items, rest2)

def itemsRestP : Nat → List SurfaceExpr → Inp → Option (List SurfaceExpr × Inp)
  | 0, _, _ => none
  | f+1, acc, s =>
    match wsDrop s with
    | ',' :: s2 =>
      match exprP f (wsDrop s2) with
      | some (e, rest) => itemsRestP f (acc ++ [e]) rest
      | none => some (acc, s)
    | _ => some (acc, s)

/-- `directive := '@' ident ('(' args? ')')?` (the argument list must follow
the name immediately and requires at least one argument; otherwise the
directive has no arguments and the parentheses are left to the postfix
parser). -/
def directiveP : Nat → Inp → Option (SurfaceExpr × Inp)
  | 0, _ => none
  | f+1, s =>
    match s with
    | '@' :: rest =>
      match identStrP rest with
      | some (name, r1) =>
        match r1 with
        | '(' :: r2 =>
          match callArgsReqP f (wsDrop r2) with
          | some (args, rem) =>
            match wsDrop rem with
            | ')' :: rem2 => some (.directive name args, rem2)
            | _ => some (.directive name [], r1)
          | none => some (.directive name [], r1)
        | _ => some (.directive name [], r1)
      | none => none
    | _ => none

end

end Piql

namespace Piql

/-- `offset_to_line_column` from `parse.rs`. -/
def offsetToLineColumn (input : String) (offset : Nat) : Nat × Nat :=
  let bounded := min offset input.length
  (input.toList.take bounded).foldl
    (fun (lc : Nat × Nat) ch => if ch = '\n' then (lc.1 + 1, 1) else (lc.1, lc.2 + 1))
    (1, 1)

/-- `build_parse_error` from `parse.rs`. -/
def buildParseError (message : String) (input : String) (offset : Nat) : ParseError :=
  let lc := offsetToLineColumn input offset
  { message := message, offset := offset, line := lc.1, column := lc.2 }

/-- `trailing_input_offset` from `parse.rs`. -/
def trailingInputOffset (input : String) (trailing : Inp) : Nat :=
  let base := input.length - trailing.length
  let nonWs :=
    match trailing.findIdx? (fun ch => ¬ ch.isWhitespace) with
    | some idx => idx
    | none => 0
  base + nonWs

/-- Fuel supplied to the grammar: generous for any input of this length
(the call depth per consumed character is bounded by the height of the
precedence tower). -/
def parseFuel (s : String) : Nat := 32 * (s.length + 1) + 32

/-- `str::trim` (drop unicode whitespace at both ends), written over the
character list so that it is kernel-reducible. -/
def strTrim (s : String) : String :=
  ⟨((s.toList.dropWhile Char.isWhitespace).reverse.dropWhile Char.isWhitespace).reverse⟩

/-- `parse` from `parse.rs`: trim, run `expr`, demand only whitespace
remains.  The `winnow` debug rendering of an inner parse failure is not
modelled (no claim depends on the failure message); the failure offset of
the winnow stream is likewise abstracted to `0`. -/
def parse (input : String) : Except ParseError SurfaceExpr :=
  let inp := strTrim input
  match exprP (parseFuel inp) inp.toList with
  | some (parsed, stream) =>
    if (wsDrop stream).isEmpty then .ok parsed
    else .error (buildParseError "unexpected trailing input" inp (trailingInputOffset inp stream))
  | none => .error (buildParseError "parse error" inp 0)

end Piql

namespace Piql

-- ===================== Pretty printer (src/crates/piql/src/pretty.rs) =====

/-- `escape_string` from `pretty.rs`. -/
def escapeString (s : String) : String :=
  s.toList.foldl
    (fun out c =>
      if c = '"' then out ++ "\\\""
      else if c = '\\' then out ++ "\\\\"
      else if c = '\n' then out ++ "\\n"
      else if c = '\t' then out ++ "\\t"
      else if c = '\r' then out ++ "\\r"
      else out.push c)
    ""

/-- Smallest exponent `k` with `den ∣ 10 ^ k` (parser-produced rationals
always have such a `k`); used for the decimal rendering of floats. -/
def pow10Exp (den : Nat) : Nat :=
  ((List.range 64).find? (fun k => (10 ^ k) % den = 0)).getD 64

/-- `Display for Literal`.  Integral finite floats print as `n.0` (the
`{n:.1}` branch); other floats print their decimal expansion,
approximating Rust `f64` `Display` (no claim below depends on float
rendering). -/
def renderLit : Lit → String
  | .str s => "\"" ++ escapeString s ++ "\""
  | .int n => toString n
  | .float q =>
    if q.den = 1 then toString q.num ++ ".0"
    else
      let k := pow10Exp q.den
      let scaled : Int := q.num * ((10 : Int) ^ k) / (q.den : Int)
      let digits := toString scaled.natAbs
      let sign := if q.num < 0 then "-" else ""
      let intPart := if digits.length ≤ k then "0" else digits.take (digits.length - k)
      let fracPart :=
        if digits.length ≤ k then
          String.mk (List.replicate (k - digits.length) '0') ++ digits
        else digits.drop (digits.length - k)
      sign ++ intPart ++ "." ++ fracPart
  | .bool b => if b then "True" else "False"
  | .null => "None"

/-- `Display for BinOp`. -/
def renderBinOp : BinOp → String
  | BinOp.add => "+"
  | BinOp.sub => "-"
  | BinOp.mul => "*"
  | BinOp.div => "/"
  | BinOp.mod => "%"
  | BinOp.eq => "=="
  | BinOp.ne => "!="
  | BinOp.lt => "<"
  | BinOp.le => "<="
  | BinOp.gt => ">"
  | BinOp.ge => ">="
  | BinOp.and => "&"
  | BinOp.or => "|"

/-- `Display for UnaryOp`. -/
def renderUnaryOp : UnaryOp → String
  | .neg => "-"
  | .not => "~"

mutual

/-- `Display for Expr` (single-line rendering). -/
def renderExpr : SurfaceExpr → String
  | .ident name => name
  | .literal l => renderLit l
  | .list items => "[" ++ renderItems items ++ "]"
  | .attr base name =>
    match base with
    | .binaryOp l op r => "(" ++ renderExpr (.binaryOp l op r) ++ ")." ++ name
    | .unaryOp op e => "(" ++ renderExpr (.unaryOp op e) ++ ")." ++ name
    | b => renderExpr b ++ "." ++ name
  | .call callee args => renderExpr callee ++ "(" ++ renderArgs args ++ ")"
  | .binaryOp lhs op rhs =>
    let ls :=
      match lhs with
      | .binaryOp a o b => "(" ++ renderExpr (.binaryOp a o b) ++ ")"
      | l => renderExpr l
    let rs :=
      match rhs with
      | .binaryOp a o b => "(" ++ renderExpr (.binaryOp a o b) ++ ")"
      | r => renderExpr r
    ls ++ " " ++ renderBinOp op ++ " " ++ rs
  | .unaryOp op operand =>
    match operand with
    | .binaryOp a o b => renderUnaryOp op ++ "(" ++ renderExpr (.binaryOp a o b) ++ ")"
    | e => renderUnaryOp op ++ renderExpr e
  | .colShorthand name => "$" ++ name
  | .directive name args =>
    if args.isEmpty then "@" ++ name
    else "@" ++ name ++ "(" ++ renderArgs args ++ ")"

/-- `write_args` / `Display for Arg` (comma-separated). -/
def renderArgs : List SurfaceArg → String
  | [] => ""
  | [a] => renderArg a
  | a :: rest => renderArg a ++ ", " ++ renderArgs rest

def renderArg : SurfaceArg → String
  | .positional e => renderExpr e
  | .keyword name e => name ++ "=" ++ renderExpr e

def renderItems : List SurfaceExpr → String
  | [] => ""
  | [e] => renderExpr e
  | e :: rest => renderExpr e ++ ", " ++ renderItems rest

end

end Piql

namespace Piql

/-- `ChainSegment` from `pretty.rs`. -/
inductive ChainSegment where
  | base (e : SurfaceExpr)
  | attrSeg (name : String)
  | callSeg (name : String) (args : List SurfaceArg)

/-- `collect_chain` from `pretty.rs`. -/
def collectChain : SurfaceExpr → List ChainSegment
  | .call callee args =>
    match callee with
    | .attr base name => collectChain base ++ [.callSeg name args]
    | c => [.base (.call c args)]
  | .attr base name => collectChain base ++ [.attrSeg name]
  | e => [.base e]

/-- `flatten_chain` from `pretty.rs`. -/
def flattenChain (e : SurfaceExpr) : List ChainSegment := collectChain e

/-- `format_args` from `pretty.rs`. -/
def formatArgs (args : List SurfaceArg) : String :=
  String.intercalate ", " (args.map renderArg)

/-- `pretty` from `pretty.rs`, with a fuel parameter standing in for the
Rust recursion (the recursion only descends into subterms, so fuel
`sizeOf e` is always ample; the zero-fuel fallback is unreachable). -/
def prettyF : Nat → SurfaceExpr → Nat → String
  | 0, e, _ => renderExpr e
  | fuel+1, e, width =>
    let oneLine := renderExpr e
    if oneLine.length ≤ width then oneLine
    else
      let segments := flattenChain e
      if segments.length ≤ 1 then oneLine
      else
        (segments.enum.map (fun (i, seg) =>
          match seg with
          | .base b => prettyF fuel b width
          | .attrSeg name =>
            (if i > 1 then "\n    " else "") ++ "." ++ name
          | .callSeg name args =>
            let firstPart := if i > 1 then "\n    " else ""
            let argsStr := formatArgs args
            let callLine := "." ++ name ++ "(" ++ argsStr ++ ")"
            if callLine.length > width - 4 ∧ args.length > 1 then
              firstPart ++ "." ++ name ++ "(\n        " ++
                String.intercalate ",\n        "
                  (args.map (fun a =>
                    match a with
                    | .positional e2 => prettyF fuel e2 (width - 8)
                    | .keyword k e2 => k ++ "=" ++ prettyF fuel e2 (width - (8 + k.length + 1)))) ++
                "\n    )"
            else firstPart ++ callLine)).foldl (· ++ ·) ""

/- Computable size of a surface tree (fuel bound for `prettyF`). -/
mutual

def sizeSE : SurfaceExpr → Nat
  | .ident _ => 1
  | .literal _ => 1
  | .list items => 1 + sizeItemsSE items
  | .attr base _ => 1 + sizeSE base
  | .call callee args => 1 + sizeSE callee + sizeArgsSE args
  | .binaryOp lhs _ rhs => 1 + sizeSE lhs + sizeSE rhs
  | .unaryOp _ operand => 1 + sizeSE operand
  | .colShorthand _ => 1
  | .directive _ args => 1 + sizeArgsSE args

def sizeArgsSE : List SurfaceArg → Nat
  | [] => 0
  | .positional e :: rest => 1 + sizeSE e + sizeArgsSE rest
  | .keyword _ e :: rest => 1 + sizeSE e + sizeArgsSE rest

def sizeItemsSE : List SurfaceExpr → Nat
  | [] => 0
  | e :: rest => 1 + sizeSE e + sizeItemsSE rest

end

/-- `Expr::pretty` / the public `pretty` entry point. -/
def pretty (e : SurfaceExpr) (width : Nat) : String :=
  prettyF (sizeSE e) e width

end Piql

namespace Piql

-- ===================== Sugar system (src/src/sugar.rs) ====================

/-- `SugarContext` from `sugar.rs`. -/
structure SugarContext where
  tick : Option Int := none
  partitionKey : Option String := none

def SugarContext.new : SugarContext := {}

/-- `DirectiveHandler`: pure function from arguments and context to a core
node. -/
abbrev DirectiveHandler := List CoreArg → SugarContext → CoreExpr

/-- `ColMethodHandler`: pure function from the expanded column expression,
arguments and context to a core node. -/
abbrev ColMethodHandler := CoreExpr → List CoreArg → SugarContext → CoreExpr

/-- `SugarRegistry` from `sugar.rs` (handler maps modelled as association
lists with `HashMap` insert semantics). -/
structure SugarRegistry where
  directives : List (String × DirectiveHandler) := []
  colMethods : List (String × ColMethodHandler) := []

namespace sugarHelpers

/-- `helpers::lit_str`. -/
def litStr (s : String) : CoreExpr := .literal (.str s)

/-- `helpers::lit_int`. -/
def litInt (n : Int) : CoreExpr := .literal (.int n)

/-- `helpers::pl_col`: `pl.col("name")`. -/
def plCol (name : String) : CoreExpr :=
  .call (.attr (.ident "pl") "col") [.positional (litStr name)]

/-- `helpers::binop`. -/
def binop (l : CoreExpr) (op : BinOp) (r : CoreExpr) : CoreExpr :=
  .binaryOp l op r

/-- `helpers::method_call`: `base.method(args)`. -/
def methodCall (base : CoreExpr) (method : String) (args : List CoreArg) : CoreExpr :=
  .call (.attr base method) args

/-- `helpers::get_int_arg` (note the source quirk: the positional index only
counts positional integer-literal arguments). -/
def getIntArg : List CoreArg → Nat → Option Int :=
  fun args idx =>
    let rec go : List CoreArg → Nat → Option Int
      | [], _ => none
      | .positional (.literal (.int n)) :: rest, posIdx =>
        if posIdx = idx then some n else go rest (posIdx + 1)
      | _ :: rest, posIdx => go rest posIdx
    go args 0

end sugarHelpers

/-- The `"delta"` builtin handler from `register_builtin_col_methods`. -/
def deltaHandler : ColMethodHandler := fun colExpr args ctx =>
  let partition := ctx.partitionKey.getD "entity_id"
  if args.isEmpty then
    sugarHelpers.methodCall
      (sugarHelpers.methodCall colExpr "diff" [])
      "over" [.positional (sugarHelpers.litStr partition)]
  else
    let shifted :=
      sugarHelpers.methodCall
        (sugarHelpers.methodCall colExpr "shift" args)
        "over" [.positional (sugarHelpers.litStr partition)]
    sugarHelpers.binop colExpr .sub shifted

/-- The `"pct"` builtin handler from `register_builtin_col_methods`. -/
def pctHandler : ColMethodHandler := fun colExpr args ctx =>
  let partition := ctx.partitionKey.getD "entity_id"
  let shifted :=
    sugarHelpers.methodCall
      (sugarHelpers.methodCall colExpr "shift" args)
      "over" [.positional (sugarHelpers.litStr partition)]
  let diff := sugarHelpers.binop colExpr .sub shifted
  sugarHelpers.binop diff .div shifted

namespace SugarRegistry

/-- `SugarRegistry::register_directive`. -/
def registerDirective (r : SugarRegistry) (name : String) (h : DirectiveHandler) : SugarRegistry :=
  { r with directives := ainsert r.directives name h }

/-- `SugarRegistry::register_col_method`. -/
def registerColMethod (r : SugarRegistry) (name : String) (h : ColMethodHandler) : SugarRegistry :=
  { r with colMethods := ainsert r.colMethods name h }

/-- `SugarRegistry::new`: default registry plus the builtin column methods
(`delta`, `pct`). -/
def new : SugarRegistry :=
  (({} : SugarRegistry).registerColMethod "delta" deltaHandler).registerColMethod "pct" pctHandler

/-- `SugarRegistry::expand_directive`. -/
def expandDirective (r : SugarRegistry) (name : String) (args : List CoreArg)
    (ctx : SugarContext) : Option CoreExpr :=
  (alookup r.directives name).map (fun h => h args ctx)

/-- `SugarRegistry::expand_col_method`. -/
def expandColMethod (r : SugarRegistry) (colExpr : CoreExpr) (method : String)
    (args : List CoreArg) (ctx : SugarContext) : Option CoreExpr :=
  (alookup r.colMethods method).map (fun h => h colExpr args ctx)

/-- `SugarRegistry::has_col_method`. -/
def hasColMethod (r : SugarRegistry) (name : String) : Bool :=
  (alookup r.colMethods name).isSome

end SugarRegistry

end Piql

namespace Piql

-- ===================== Transform (src/crates/piql/src/transform.rs) =======

/-- `is_pl_ident`. -/
def isPlIdent : SurfaceExpr → Bool
  | .ident s => s = "pl"
  | _ => false

/-- `get_single_positional_arg`: exactly one argument, and it is
positional. -/
def getSinglePositionalArg : List SurfaceArg → Option SurfaceExpr
  | [.positional e] => some e
  | _ => none

/-- `build_pl_col`: `pl.col("name")` as a core node. -/
def buildPlCol (name : String) : CoreExpr :=
  .call (.attr (.ident "pl") "col") [.positional (.literal (.str name))]

/-- `try_extract_when_chain`: walk back from the expression preceding
`.otherwise(...)` through alternating `.then`/`.when` calls until the
receiver is the identifier `pl`; collected pairs are in source order. -/
def tryExtractWhenChain : SurfaceExpr → Option (List (SurfaceExpr × SurfaceExpr))
  | .call (.attr whenExpr thenMethod) thenArgs =>
    if thenMethod = "then" then
      match getSinglePositionalArg thenArgs with
      | none => none
      | some thenValue =>
        match whenExpr with
        | .call (.attr inner whenMethod) whenArgs =>
          if whenMethod = "when" then
            match getSinglePositionalArg whenArgs with
            | none => none
            | some condition =>
              if isPlIdent inner then some [(condition, thenValue)]
              else (tryExtractWhenChain inner).map (· ++ [(condition, thenValue)])
          else none
        | _ => none
    else none
  | _ => none

/-- The first positional argument, modelling the `find_map` in
`build_when_then_otherwise`. -/
def findPositionalArg : List SurfaceArg → Option SurfaceExpr
  | [] => none
  | .positional e :: _ => some e
  | .keyword _ _ :: rest => findPositionalArg rest

/-- Recognition of the `.otherwise(...)` pattern on a call's callee. -/
def whenChainOf : SurfaceExpr → Option (SurfaceExpr × List (SurfaceExpr × SurfaceExpr))
  | .attr base method =>
    if method = "otherwise" then (tryExtractWhenChain base).map (fun c => (base, c))
    else none
  | _ => none


theorem sizeSE_pos (e : SurfaceExpr) : 0 < sizeSE e := by
  cases e <;> simp [sizeSE]

theorem sizeArgsSE_of_mem_positional {e : SurfaceExpr} {args : List SurfaceArg}
    (h : Arg.positional e ∈ args) : sizeSE e < sizeArgsSE args := by
  induction args with
  | nil => cases h
  | cons a rest ih =>
    cases h with
    | head => simp [sizeArgsSE]; omega
    | tail _ hmem =>
      have := ih hmem
      cases a <;> simp [sizeArgsSE] <;> omega

theorem sizeArgsSE_of_mem_keyword {n : String} {e : SurfaceExpr} {args : List SurfaceArg}
    (h : Arg.keyword n e ∈ args) : sizeSE e < sizeArgsSE args := by
  induction args with
  | nil => cases h
  | cons a rest ih =>
    cases h with
    | head => simp [sizeArgsSE]; omega
    | tail _ hmem =>
      have := ih hmem
      cases a <;> simp [sizeArgsSE] <;> omega

theorem sizeItemsSE_of_mem {e : SurfaceExpr} {items : List SurfaceExpr}
    (h : e ∈ items) : sizeSE e < sizeItemsSE items := by
  induction items with
  | nil => cases h
  | cons a rest ih =>
    cases h with
    | head => simp [sizeItemsSE]; omega
    | tail _ hmem =>
      have := ih hmem
      simp [sizeItemsSE]; omega

theorem getSinglePositionalArg_size {args : List SurfaceArg} {e : SurfaceExpr}
    (h : getSinglePositionalArg args = some e) : sizeSE e < sizeArgsSE args := by
  match args with
  | [] => simp [getSinglePositionalArg] at h
  | [Arg.positional e0] =>
    simp [getSinglePositionalArg] at h
    subst h
    simp [sizeArgsSE]
  | [Arg.keyword n e0] => simp [getSinglePositionalArg] at h
  | a :: b :: rest => simp [getSinglePositionalArg] at h

theorem findPositionalArg_size {args : List SurfaceArg} {e : SurfaceExpr}
    (h : findPositionalArg args = some e) : sizeSE e < sizeArgsSE args := by
  induction args with
  | nil => simp [findPositionalArg] at h
  | cons a rest ih =>
    cases a with
    | positional e0 =>
      simp [findPositionalArg] at h
      subst h
      simp [sizeArgsSE]
      omega
    | keyword n e0 =>
      simp [findPositionalArg] at h
      have := ih h
      simp [sizeArgsSE]
      omega

theorem tryExtractWhenChain_size_aux :
    ∀ (n : Nat) (e : SurfaceExpr) (pairs : List (SurfaceExpr × SurfaceExpr)),
      sizeSE e ≤ n → tryExtractWhenChain e = some pairs →
      ∀ p ∈ pairs, sizeSE p.1 < sizeSE e ∧ sizeSE p.2 < sizeSE e := by
  intro n
  induction n with
  | zero =>
    intro e pairs hle
    have := sizeSE_pos e
    omega
  | succ n ih =>
    intro e pairs hle h p hp
    match e, h with
    | .call (.attr whenExpr thenMethod) thenArgs, h =>
      rw [tryExtractWhenChain] at h
      by_cases hthen : thenMethod = "then"
      case neg => simp [hthen] at h
      case pos =>
        simp only [hthen, if_true, if_pos] at h
        cases hsingle : getSinglePositionalArg thenArgs with
        | none => rw [hsingle] at h; cases h
        | some thenValue =>
          rw [hsingle] at h
          match whenExpr, h with
          | .call (.attr inner whenMethod) whenArgs, h =>
            by_cases hwhen : whenMethod = "when"
            case neg => simp [hwhen] at h
            case pos =>
              simp only [hwhen, if_true, if_pos] at h
              cases hwsingle : getSinglePositionalArg whenArgs with
              | none => rw [hwsingle] at h; cases h
              | some condition =>
                rw [hwsingle] at h
                have hcondsz := getSinglePositionalArg_size hwsingle
                have hthensz := getSinglePositionalArg_size hsingle
                by_cases hpl : isPlIdent inner
                case pos =>
                  simp only [hpl, if_true, if_pos] at h
                  cases h
                  cases hp with
                  | head =>
                    constructor <;> simp [sizeSE] <;> omega
                  | tail _ hmem => cases hmem
                case neg =>
                  simp only [hpl, Bool.false_eq_true, if_false, if_neg, Option.map_eq_some'] at h
                  obtain ⟨prev, hprev, hpairs⟩ := h
                  subst hpairs
                  have hinner : sizeSE inner < sizeSE
                      (SurfaceExpr.call (.attr (.call (.attr inner whenMethod) whenArgs) thenMethod) thenArgs) := by
                    simp [sizeSE]; omega
                  rcases List.mem_append.mp hp with hmem | hmem
                  · have hlesz : sizeSE inner ≤ n := by
                      simp [sizeSE] at hle
                      omega
                    have := ih inner prev hlesz hprev p hmem
                    constructor <;> [skip; skip] <;> simp [sizeSE] at this ⊢ <;> omega
                  · cases hmem with
                    | head =>
                      constructor <;> simp [sizeSE] <;> omega
                    | tail _ hmem2 => cases hmem2

theorem tryExtractWhenChain_size {e : SurfaceExpr} {pairs : List (SurfaceExpr × SurfaceExpr)}
    (h : tryExtractWhenChain e = some pairs) :
    ∀ p ∈ pairs, sizeSE p.1 < sizeSE e ∧ sizeSE p.2 < sizeSE e :=
  tryExtractWhenChain_size_aux (sizeSE e) e pairs (Nat.le_refl _) h

theorem whenChainOf_size {callee base : SurfaceExpr} {chain : List (SurfaceExpr × SurfaceExpr)}
    (h : whenChainOf callee = some (base, chain)) :
    ∀ p ∈ chain, sizeSE p.1 < sizeSE callee ∧ sizeSE p.2 < sizeSE callee := by
  match callee, h with
  | .attr b method, h =>
    rw [whenChainOf] at h
    by_cases hm : method = "otherwise"
    case neg => simp [hm] at h
    case pos =>
      simp only [hm, if_true, if_pos, Option.map_eq_some'] at h
      obtain ⟨c, hc, hbc⟩ := h
      cases hbc
      intro p hp
      have := tryExtractWhenChain_size hc p hp
      constructor <;> simp [sizeSE] <;> omega

/-- `transform_expr` from `transform.rs` (the registry and sugar context are
the extra parameters of `transform_with_sugar`). -/
def transformExpr (registry : SugarRegistry) (ctx : SugarContext) : SurfaceExpr → CoreExpr
  | .ident s => .ident s
  | .literal l => .literal l
  | .list items =>
    .list (items.attach.map (fun x => transformExpr registry ctx x.1))
  | .attr base name =>
    match base with
    | .colShorthand colName =>
      match registry.expandColMethod (buildPlCol colName) name [] ctx with
      | some expanded => expanded
      | none => .attr (buildPlCol colName) name
    | .ident s => .attr (transformExpr registry ctx (.ident s)) name
    | .literal l => .attr (transformExpr registry ctx (.literal l)) name
    | .list items => .attr (transformExpr registry ctx (.list items)) name
    | .attr b n2 => .attr (transformExpr registry ctx (.attr b n2)) name
    | .call c a => .attr (transformExpr registry ctx (.call c a)) name
    | .binaryOp l op r => .attr (transformExpr registry ctx (.binaryOp l op r)) name
    | .unaryOp op e => .attr (transformExpr registry ctx (.unaryOp op e)) name
    | .directive n2 a => .attr (transformExpr registry ctx (.directive n2 a)) name
  | .binaryOp lhs op rhs =>
    .binaryOp (transformExpr registry ctx lhs) op (transformExpr registry ctx rhs)
  | .unaryOp op operand => .unaryOp op (transformExpr registry ctx operand)
  | .colShorthand name => buildPlCol name
  | .directive name args =>
    let coreArgs : List CoreArg := args.attach.map (fun x =>
      match x with
      | ⟨.positional e, _⟩ => .positional (transformExpr registry ctx e)
      | ⟨.keyword n e, _⟩ => .keyword n (transformExpr registry ctx e))
    match registry.expandDirective name coreArgs ctx with
    | some expanded => expanded
    | none => .invalid ("Unknown directive: @" ++ name)
  | .call callee args =>
    match hchain : whenChainOf callee with
    | some (_, chain) =>
      -- `build_when_then_otherwise`
      match hfind : findPositionalArg args with
      | none => .invalid "otherwise() requires an argument"
      | some otherwiseValue =>
        .whenThenOtherwise
          (chain.attach.map (fun x =>
            (transformExpr registry ctx x.1.1, transformExpr registry ctx x.1.2)))
          (transformExpr registry ctx otherwiseValue)
    | none =>
      let coreArgs : List CoreArg := args.attach.map (fun x =>
        match x with
        | ⟨.positional e, _⟩ => .positional (transformExpr registry ctx e)
        | ⟨.keyword n e, _⟩ => .keyword n (transformExpr registry ctx e))
      match callee with
      | .attr base method =>
        match base with
        | .colShorthand colName =>
          match registry.expandColMethod (buildPlCol colName) method coreArgs ctx with
          | some expanded => expanded
          | none => .call (.attr (buildPlCol colName) method) coreArgs
        | b => .call (.attr (transformExpr registry ctx b) method) coreArgs
      | c => .call (transformExpr registry ctx c) coreArgs
  termination_by e => sizeSE e
  decreasing_by
  all_goals simp_wf
  all_goals first
    | (simp [sizeSE] <;> omega)
    | (have hsz := sizeItemsSE_of_mem x.2; simp [sizeSE] <;> omega)
    | (have hsz := whenChainOf_size hchain x.1 x.2; simp [sizeSE] <;> omega)
    | (have hsz := findPositionalArg_size hfind; simp [sizeSE] <;> omega)
    | (have hsz := sizeArgsSE_of_mem_positional (by assumption); simp [sizeSE] <;> omega)
    | (have hsz := sizeArgsSE_of_mem_keyword (by assumption); simp [sizeSE] <;> omega)

/-- `transform_with_sugar` from `transform.rs`. -/
def transformWithSugar (e : SurfaceExpr) (registry : SugarRegistry) (ctx : SugarContext) : CoreExpr :=
  transformExpr registry ctx e

/-- `transform` from `transform.rs`: transform without a caller-supplied
registry (fresh registry, empty sugar context). -/
def transform (e : SurfaceExpr) : CoreExpr :=
  transformWithSugar e SugarRegistry.new SugarContext.new

end Piql

namespace Piql

-- ===================== Columnar backend model (spec §6 contract) ==========
-- The columnar backend (polars) is an external dependency of the crate;
-- it is modelled from the interface contract in spec §6: lazy plans are an
-- explicit AST, expressions are an explicit AST, `collect` has an
-- executable row-list semantics on the fragment the claims evaluate
-- (sources, order-preserving vertical concat, and row-wise filters);
-- plan nodes outside that fragment collect to a model-boundary error.

/-- Backend cell value. -/
inductive PVal where
  | int (n : Int)
  | float (q : Rat)
  | str (s : String)
  | bool (b : Bool)
  | null
deriving DecidableEq

/-- Backend column dtype (the dtypes the evaluator mentions). -/
inductive PDType where
  | int64
  | float64
  | string
  | boolean
deriving DecidableEq

/-- A row: column name to cell value. -/
abbrev Row := List (String × PVal)

/-- A materialized `DataFrame`: schema plus rows. -/
structure DF where
  schema : List (String × PDType)
  rows : List Row
deriving DecidableEq

/-- Polars binary operators (`Expr::BinaryExpr`). -/
inductive POp where
  | add | sub | mul | div | rem
  | eq | neq | lt | ltEq | gt | gtEq
  | andB | orB
deriving DecidableEq

/-- Aggregation kinds produced by the expression methods. -/
inductive AggKind where
  | sum | mean | minA | maxA | count | first | last | nUnique | lenA | nullCount
deriving DecidableEq

/-- String-namespace operations produced by `eval_str_method`. -/
inductive StrOp where
  | startsWith | endsWith | toLowercase | toUppercase | lenChars
  | contains | replace | slice
deriving DecidableEq

/-- Datetime-namespace operations produced by `eval_dt_method`. -/
inductive DtOp where
  | year | month | day | hour | minute | second
deriving DecidableEq

/-- `JoinType` (the variants the evaluator constructs). -/
inductive JoinType where
  | inner | left | right | full | cross
deriving DecidableEq

/-- Backend column expression AST (the constructors the evaluator uses). -/
inductive PExpr where
  | colE (name : String)
  | selectorByName (names : List String) (strict : Bool)
  | litE (v : PVal)
  | lenE
  | binE (l : PExpr) (op : POp) (r : PExpr)
  | notE (e : PExpr)
  | isBetweenE (e lo hi : PExpr)
  | aliasE (e : PExpr) (name : String)
  | overE (e : PExpr) (partitionBy : List PExpr)
  | diffE (e n : PExpr) (nullIgnore : Bool)
  | shiftE (e n : PExpr)
  | aggE (k : AggKind) (e : PExpr)
  | stdE (e : PExpr) (ddof : Nat)
  | castE (e : PExpr) (dtype : PDType)
  | fillNullE (e v : PExpr)
  | isNullE (e : PExpr)
  | isNotNullE (e : PExpr)
  | uniqueE (e : PExpr)
  | absE (e : PExpr)
  | roundE (e : PExpr) (decimals : Nat)
  | cumSumE (e : PExpr) (reverse : Bool)
  | cumMaxE (e : PExpr) (reverse : Bool)
  | cumMinE (e : PExpr) (reverse : Bool)
  | rankE (e : PExpr)
  | clipE (e lo hi : PExpr)
  | reverseE (e : PExpr)
  | whenChainE (branches : List (PExpr × PExpr)) (otherwise : PExpr)
  | strE (op : StrOp) (e : PExpr) (args : List PExpr) (flag : Bool)
  | dtE (op : DtOp) (e : PExpr)

namespace PExpr

/-- `col(name)`. -/
def colF (name : String) : PExpr := .colE name

/-- `lit(value)` for an integer (the form the scope methods build). -/
def litInt (n : Int) : PExpr := .litE (.int n)

/-- `l.eq(r)` etc. — the comparison/boolean/arithmetic combinators. -/
def eqF (l r : PExpr) : PExpr := .binE l .eq r

def neqF (l r : PExpr) : PExpr := .binE l .neq r

def ltF (l r : PExpr) : PExpr := .binE l .lt r

def ltEqF (l r : PExpr) : PExpr := .binE l .ltEq r

def gtF (l r : PExpr) : PExpr := .binE l .gt r

def gtEqF (l r : PExpr) : PExpr := .binE l .gtEq r

def andF (l r : PExpr) : PExpr := .binE l .andB r

def orF (l r : PExpr) : PExpr := .binE l .orB r

/-- `e.is_between(lo, hi, ClosedInterval::Both)`. -/
def isBetweenF (e lo hi : PExpr) : PExpr := .isBetweenE e lo hi

end PExpr

/-- The polars `when`/`then` builder states (`When`, `Then`, `ChainedWhen`,
`ChainedThen`); `otherwise` closes the chain into a single expression that
keeps the branches in construction order. -/
structure PWhen where
  cond : PExpr

structure PThen where
  cond : PExpr
  val : PExpr

structure PChainedWhen where
  branches : List (PExpr × PExpr)
  cond : PExpr

structure PChainedThen where
  branches : List (PExpr × PExpr)

/-- `when(cond)`. -/
def pwhen (cond : PExpr) : PWhen := { cond := cond }

def PWhen.thenF (w : PWhen) (v : PExpr) : PThen := { cond := w.cond, val := v }

def PThen.whenF (t : PThen) (c : PExpr) : PChainedWhen :=
  { branches := [(t.cond, t.val)], cond := c }

def PChainedWhen.thenF (w : PChainedWhen) (v : PExpr) : PChainedThen :=
  { branches := w.branches ++ [(w.cond, v)] }

def PChainedThen.whenF (t : PChainedThen) (c : PExpr) : PChainedWhen :=
  { branches := t.branches, cond := c }

def PThen.otherwiseF (t : PThen) (o : PExpr) : PExpr :=
  .whenChainE [(t.cond, t.val)] o

def PChainedThen.otherwiseF (t : PChainedThen) (o : PExpr) : PExpr :=
  .whenChainE t.branches o

/-- Backend lazy plan AST (the operations the evaluator uses). -/
inductive LF where
  | source (df : DF)
  | filterL (l : LF) (pred : PExpr)
  | selectL (l : LF) (exprs : List PExpr)
  | withColumnsL (l : LF) (exprs : List PExpr)
  | withColumnL (l : LF) (e : PExpr)
  | limitL (l : LF) (n : Nat)
  | tailL (l : LF) (n : Nat)
  | sortL (l : LF) (cols : List String) (descending : Bool)
  | dropL (l : LF) (names : List String) (strict : Bool)
  | explodeL (l : LF) (names : List String) (strict : Bool)
  | dropNullsL (l : LF)
  | reverseL (l : LF)
  | uniqueL (l : LF) (subset : Option (List String))
  | renameL (l : LF) (oldNames newNames : List String) (strict : Bool)
  | joinL (l : LF) (other : LF) (leftOn rightOn : List PExpr) (how : JoinType)
  | concatL (ls : List LF)
  | groupAggL (l : LF) (keys : List PExpr) (aggs : List PExpr)

/-- `LazyGroupBy` (post `group_by`, pre `agg`). -/
structure LGB where
  lf : LF
  keys : List PExpr

/-- `DataFrame::lazy()`. -/
def DF.lazy (df : DF) : LF := .source df

end Piql

namespace Piql

-- ===================== Evaluator data (src/crates/piql/src/eval.rs) =======

/-- `EvalError` from `eval.rs` (`Polars` carries the backend message). -/
inductive EvalError where
  | unknownIdent (name : String)
  | unknownMethod (target method : String)
  | typeError (expected got : String)
  | argError (msg : String)
  | polars (msg : String)
  | other (msg : String)
deriving DecidableEq

-- ===================== Backend semantics (spec §6 contract) ===============

/-- Row-wise comparison of cell values (`null` compares to nothing). -/
def compareVals : PVal → PVal → Option Ordering
  | .null, _ => none
  | _, .null => none
  | .int a, .int b => some (compare a b)
  | .int a, .float b => some (compare (a : Rat) b)
  | .float a, .int b => some (compare a (b : Rat))
  | .float a, .float b => some (compare a b)
  | .str a, .str b => some (compare a b)
  | .bool a, .bool b => some (compare a b)
  | _, _ => none

/-- Row-wise evaluation of the backend expressions that are row-local
(column reference, literal, comparison/boolean/arithmetic combinators,
`is_between` with both ends closed, `not`, `alias`).  Column-wise
operations (windows, shifts, aggregations, ...) are outside the modelled
fragment and evaluate to a boundary error; no claim collects such a plan. -/
def evalCell : Row → PExpr → Except EvalError PVal
  | row, .colE name =>
    match alookup row name with
    | some v => .ok v
    | none => .error (.polars ("column not found: " ++ name))
  | _, .litE v => .ok v
  | row, .binE l op r => do
    let a ← evalCell row l
    let b ← evalCell row r
    match op with
    | .eq => pure (match compareVals a b with
        | some o => .bool (o = Ordering.eq)
        | none => .null)
    | .neq => pure (match compareVals a b with
        | some o => .bool (o ≠ Ordering.eq)
        | none => .null)
    | .lt => pure (match compareVals a b with
        | some o => .bool (o = Ordering.lt)
        | none => .null)
    | .ltEq => pure (match compareVals a b with
        | some o => .bool (o ≠ Ordering.gt)
        | none => .null)
    | .gt => pure (match compareVals a b with
        | some o => .bool (o = Ordering.gt)
        | none => .null)
    | .gtEq => pure (match compareVals a b with
        | some o => .bool (o ≠ Ordering.lt)
        | none => .null)
    | .andB =>
      match a, b with
      | .bool x, .bool y => pure (.bool (x && y))
      | .bool false, .null => pure (.bool false)
      | .null, .bool false => pure (.bool false)
      | .null, .bool true => pure .null
      | .bool true, .null => pure .null
      | .null, .null => pure .null
      | _, _ => .error (.polars "boolean operation on non-boolean")
    | .orB =>
      match a, b with
      | .bool x, .bool y => pure (.bool (x || y))
      | .bool true, .null => pure (.bool true)
      | .null, .bool true => pure (.bool true)
      | .null, .bool false => pure .null
      | .bool false, .null => pure .null
      | .null, .null => pure .null
      | _, _ => .error (.polars "boolean operation on non-boolean")
    | .add =>
      match a, b with
      | .null, _ => pure .null
      | _, .null => pure .null
      | .int x, .int y => pure (.int (x + y))
      | .float x, .float y => pure (.float (x + y))
      | .int x, .float y => pure (.float ((x : Rat) + y))
      | .float x, .int y => pure (.float (x + (y : Rat)))
      | .str x, .str y => pure (.str (x ++ y))
      | _, _ => .error (.polars "arithmetic on incompatible types")
    | .sub =>
      match a, b with
      | .null, _ => pure .null
      | _, .null => pure .null
      | .int x, .int y => pure (.int (x - y))
      | .float x, .float y => pure (.float (x - y))
      | .int x, .float y => pure (.float ((x : Rat) - y))
      | .float x, .int y => pure (.float (x - (y : Rat)))
      | _, _ => .error (.polars "arithmetic on incompatible types")
    | .mul =>
      match a, b with
      | .null, _ => pure .null
      | _, .null => pure .null
      | .int x, .int y => pure (.int (x * y))
      | .float x, .float y => pure (.float (x * y))
      | .int x, .float y => pure (.float ((x : Rat) * y))
      | .float x, .int y => pure (.float (x * (y : Rat)))
      | _, _ => .error (.polars "arithmetic on incompatible types")
    | .div =>
      match a, b with
      | .null, _ => pure .null
      | _, .null => pure .null
      | .int x, .int y =>
        if y = 0 then .error (.polars "division by zero outside modelled fragment")
        else pure (.float ((x : Rat) / (y : Rat)))
      | .float x, .float y =>
        if y = 0 then .error (.polars "division by zero outside modelled fragment")
        else pure (.float (x / y))
      | .int x, .float y =>
        if y = 0 then .error (.polars "division by zero outside modelled fragment")
        else pure (.float ((x : Rat) / y))
      | .float x, .int y =>
        if y = 0 then .error (.polars "division by zero outside modelled fragment")
        else pure (.float (x / (y : Rat)))
      | _, _ => .error (.polars "arithmetic on incompatible types")
    | .rem =>
      match a, b with
      | .null, _ => pure .null
      | _, .null => pure .null
      | .int x, .int y =>
        if y = 0 then .error (.polars "modulo by zero outside modelled fragment")
        else pure (.int (x % y))
      | _, _ => .error (.polars "arithmetic on incompatible types")
  | row, .notE e => do
    let v ← evalCell row e
    match v with
    | .bool b => pure (.bool (!b))
    | .null => pure .null
    | _ => .error (.polars "boolean operation on non-boolean")
  | row, .isBetweenE e lo hi => do
    let v ← evalCell row e
    let a ← evalCell row lo
    let b ← evalCell row hi
    match compareVals v a, compareVals v b with
    | some oLo, some oHi => pure (.bool (oLo ≠ Ordering.lt ∧ oHi ≠ Ordering.gt))
    | _, _ => pure .null
  | row, .aliasE e _ => evalCell row e
  | _, _ => .error (.polars "column-wise expression outside modelled fragment")

/-- Row filtering per the backend `filter` contract: keep rows whose
predicate is `true`; `false` and `null` drop the row; a non-boolean
predicate is an error. -/
def filterRows : List Row → PExpr → Except EvalError (List Row)
  | [], _ => .ok []
  | row :: rest, pred => do
    let v ← evalCell row pred
    let keep ← match v with
      | .bool b => pure b
      | .null => pure false
      | _ => .error (.polars "filter predicate must be boolean")
    let tail ← filterRows rest pred
    pure (if keep then row :: tail else tail)

mutual

/-- `LazyFrame::collect` on the modelled fragment: sources, vertical
concat (order-preserving, schemas must agree), and filters. -/
def collectLF : LF → Except EvalError DF
  | .source df => .ok df
  | .filterL l pred => do
    let df ← collectLF l
    let rows ← filterRows df.rows pred
    pure { df with rows := rows }
  | .concatL ls => do
    match ls with
    | [] => .error (.polars "cannot concat empty list")
    | first :: rest => do
      let d0 ← collectLF first
      let ds ← collectList rest
      if ds.all (fun d => d.schema = d0.schema) then
        pure { schema := d0.schema, rows := d0.rows ++ (ds.map DF.rows).flatten }
      else .error (.polars "concat schema mismatch")
  | _ => .error (.polars "plan node outside modelled fragment")

def collectList : List LF → Except EvalError (List DF)
  | [] => .ok []
  | l :: rest => do
    let d ← collectLF l
    let ds ← collectList rest
    pure (d :: ds)

end

/-- `collect_schema` on the modelled fragment (filters and concat keep the
schema of their input). -/
def collectSchemaLF : LF → Except EvalError (List (String × PDType))
  | .source df => .ok df.schema
  | .filterL l _ => collectSchemaLF l
  | .concatL ls =>
    match ls with
    | [] => .error (.polars "cannot concat empty list")
    | first :: _ => collectSchemaLF first
  | _ => .error (.polars "schema inference outside modelled fragment")

/-- `polars::prelude::concat(ls, UnionArgs::default())`: build the vertical
concat plan (an empty list is a backend error). -/
def concatP (ls : List LF) : Except EvalError LF :=
  match ls with
  | [] => .error (.polars "cannot concat empty list")
  | _ => .ok (.concatL ls)

end Piql

namespace Piql

/-- `ScalarValue` from `eval.rs`. -/
inductive ScalarValue where
  | str (s : String)
  | int (n : Int)
  | float (q : Rat)
  | bool (b : Bool)
  | null
deriving DecidableEq

/-- `DataFrameLineage` from `eval.rs`. -/
inductive DataFrameLineage where
  | table (name : String)
  | derivedFrom (name : String)
  | ambiguous
  | unknown
deriving DecidableEq

namespace DataFrameLineage

/-- `DataFrameLineage::derived`. -/
def derived : DataFrameLineage → DataFrameLineage
  | .table name => .derivedFrom name
  | .derivedFrom name => .derivedFrom name
  | .ambiguous => .ambiguous
  | .unknown => .unknown

/-- `DataFrameLineage::source_name`. -/
def sourceName : DataFrameLineage → Option String
  | .table name => some name
  | .derivedFrom name => some name
  | .ambiguous => none
  | .unknown => none

end DataFrameLineage

/-- `Value` from `eval.rs`. -/
inductive Value where
  | dataFrame (lf : LF) (lineage : DataFrameLineage)
  | groupBy (gb : LGB) (lineage : DataFrameLineage)
  | expr (e : PExpr)
  | scalar (s : ScalarValue)
  | plNamespace

/-- `TimeSeriesConfig` from `eval.rs`. -/
structure TimeSeriesConfig where
  tickColumn : String
  partitionKey : String
deriving DecidableEq

/-- `DataFrameEntry` from `eval.rs`. -/
structure DataFrameEntry where
  df : DF
  timeSeries : Option TimeSeriesConfig
deriving DecidableEq

/-- `BaseTableEntry` from `eval.rs`. -/
structure BaseTableEntry where
  all : Option LF
  now : Option LF
  config : TimeSeriesConfig

/-- `EvalContext` from `eval.rs`. -/
structure EvalContext where
  dataframes : List (String × DataFrameEntry) := []
  baseTables : List (String × BaseTableEntry) := []
  tick : Option Int := none
  defaultTickColumn : Option String := none
  defaultPartitionKey : Option String := none
  sugar : SugarRegistry := SugarRegistry.new

namespace EvalContext

/-- `EvalContext::new`. -/
def new : EvalContext := {}

/-- `EvalContext::with_df` (collects immediately; the Rust `.expect` panic
on a failing collect is modelled as the error case). -/
def withDf (ctx : EvalContext) (name : String) (df : LF) : Except EvalError EvalContext := do
  let collected ← collectLF df
  pure { ctx with dataframes := ainsert ctx.dataframes name ⟨collected, none⟩ }

/-- `EvalContext::with_materialized_df`. -/
def withMaterializedDf (ctx : EvalContext) (name : String) (df : DF) : EvalContext :=
  { ctx with dataframes := ainsert ctx.dataframes name ⟨df, none⟩ }

/-- `EvalContext::with_time_series_df` (collects immediately). -/
def withTimeSeriesDf (ctx : EvalContext) (name : String) (df : LF)
    (config : TimeSeriesConfig) : Except EvalError EvalContext := do
  let collected ← collectLF df
  pure { ctx with dataframes := ainsert ctx.dataframes name ⟨collected, some config⟩ }

/-- `EvalContext::with_tick`. -/
def withTick (ctx : EvalContext) (tick : Int) : EvalContext := { ctx with tick := some tick }

/-- `EvalContext::with_default_tick_column`. -/
def withDefaultTickColumn (ctx : EvalContext) (c : String) : EvalContext :=
  { ctx with defaultTickColumn := some c }

/-- `EvalContext::with_default_partition_key`. -/
def withDefaultPartitionKey (ctx : EvalContext) (k : String) : EvalContext :=
  { ctx with defaultPartitionKey := some k }

/-- `EvalContext::get_time_series_config`. -/
def getTimeSeriesConfig (ctx : EvalContext) (name : String) : Option TimeSeriesConfig :=
  (alookup ctx.dataframes name).bind (fun e => e.timeSeries)

/-- `EvalContext::sugar_context`. -/
def sugarContext (ctx : EvalContext) (dfName : Option String) : SugarContext :=
  let partitionKey :=
    (dfName.bind (fun name => ctx.getTimeSeriesConfig name)).map
        (fun ts => ts.partitionKey)
      |>.orElse (fun _ => ctx.defaultPartitionKey)
  { tick := ctx.tick, partitionKey := partitionKey }

/-- `EvalContext::register_base_table`. -/
def registerBaseTable (ctx : EvalContext) (name : String) (config : TimeSeriesConfig) : EvalContext :=
  { ctx with baseTables := ainsert ctx.baseTables name ⟨none, none, config⟩ }

/-- `EvalContext::update_base_table_ptrs` (the `.expect` panic on a failing
collect of `all` is modelled as the error case). -/
def updateBaseTablePtrs (ctx : EvalContext) (name : String) (all now : LF) :
    Except EvalError EvalContext :=
  match alookup ctx.baseTables name with
  | none => .ok ctx
  | some entry =>
    match collectLF all with
    | .error e => .error e
    | .ok collected =>
      .ok { ctx with
        baseTables := ainsert ctx.baseTables name ⟨some all, some now, entry.config⟩,
        dataframes := ainsert ctx.dataframes name ⟨collected, some entry.config⟩ }

/-- `EvalContext::is_base_table`. -/
def isBaseTable (ctx : EvalContext) (name : String) : Bool :=
  (alookup ctx.baseTables name).isSome

/-- `EvalContext::get_base_now`. -/
def getBaseNow (ctx : EvalContext) (name : String) : Option LF :=
  (alookup ctx.baseTables name).bind (fun e => e.now)

/-- `EvalContext::get_base_all`. -/
def getBaseAll (ctx : EvalContext) (name : String) : Option LF :=
  (alookup ctx.baseTables name).bind (fun e => e.all)

end EvalContext

end Piql

namespace Piql

/- Computable size of a core tree (termination measure for `eval`). -/
mutual

def sizeCE : CoreExpr → Nat
  | .ident _ => 1
  | .literal _ => 1
  | .list items => 1 + sizeItemsCE items
  | .attr base _ => 1 + sizeCE base
  | .call callee args => 1 + sizeCE callee + sizeArgsCE args
  | .binaryOp lhs _ rhs => 1 + sizeCE lhs + sizeCE rhs
  | .unaryOp _ operand => 1 + sizeCE operand
  | .whenThenOtherwise branches otherwise => 1 + sizeBranchesCE branches + sizeCE otherwise
  | .invalid _ => 1

def sizeArgsCE : List CoreArg → Nat
  | [] => 0
  | .positional e :: rest => 1 + sizeCE e + sizeArgsCE rest
  | .keyword _ e :: rest => 1 + sizeCE e + sizeArgsCE rest

def sizeItemsCE : List CoreExpr → Nat
  | [] => 0
  | e :: rest => 1 + sizeCE e + sizeItemsCE rest

def sizeBranchesCE : List (CoreExpr × CoreExpr) → Nat
  | [] => 0
  | (c, v) :: rest => 1 + sizeCE c + sizeCE v + sizeBranchesCE rest

end

theorem sizeCE_pos (e : CoreExpr) : 0 < sizeCE e := by
  cases e <;> simp [sizeCE]

theorem sizeArgsCE_of_mem_positional {e : CoreExpr} {args : List CoreArg}
    (h : Arg.positional e ∈ args) : sizeCE e < sizeArgsCE args := by
  induction args with
  | nil => cases h
  | cons a rest ih =>
    cases h with
    | head => simp [sizeArgsCE]; omega
    | tail _ hmem =>
      have := ih hmem
      cases a <;> simp [sizeArgsCE] <;> omega

theorem sizeArgsCE_of_mem_keyword {n : String} {e : CoreExpr} {args : List CoreArg}
    (h : Arg.keyword n e ∈ args) : sizeCE e < sizeArgsCE args := by
  induction args with
  | nil => cases h
  | cons a rest ih =>
    cases h with
    | head => simp [sizeArgsCE]; omega
    | tail _ hmem =>
      have := ih hmem
      cases a <;> simp [sizeArgsCE] <;> omega

theorem sizeItemsCE_of_mem {e : CoreExpr} {items : List CoreExpr}
    (h : e ∈ items) : sizeCE e < sizeItemsCE items := by
  induction items with
  | nil => cases h
  | cons a rest ih =>
    cases h with
    | head => simp [sizeItemsCE]; omega
    | tail _ hmem =>
      have := ih hmem
      simp [sizeItemsCE]; omega

-- ===================== Argument helpers (src/crates/piql/src/eval.rs) =====

/-- The scan inside `get_positional_arg` (the `idx`-th positional
argument). -/
def getPositionalArgGo : List CoreArg → Nat → Option CoreExpr
  | [], _ => none
  | .positional e :: rest, idx =>
    if idx = 0 then some e else getPositionalArgGo rest (idx - 1)
  | .keyword _ _ :: rest, idx => getPositionalArgGo rest idx

/-- `get_positional_arg` from `eval.rs`. -/
def getPositionalArg (args : List CoreArg) (idx : Nat) (fnName : String) :
    Except EvalError CoreExpr :=
  match getPositionalArgGo args idx with
  | some e => .ok e
  | none =>
    .error (.argError (fnName ++ "() missing required positional argument " ++ toString idx))

theorem getPositionalArgGo_mem {args : List CoreArg} {idx : Nat} {e : CoreExpr}
    (h : getPositionalArgGo args idx = some e) : Arg.positional e ∈ args := by
  induction args generalizing idx with
  | nil => simp [getPositionalArgGo] at h
  | cons a rest ih =>
    cases a with
    | positional e0 =>
      rw [getPositionalArgGo] at h
      by_cases hz : idx = 0
      · simp [hz] at h
        subst h
        exact List.mem_cons_self _ _
      · simp [hz] at h
        exact List.mem_cons_of_mem _ (ih h)
    | keyword n e0 =>
      rw [getPositionalArgGo] at h
      exact List.mem_cons_of_mem _ (ih h)

theorem getPositionalArg_mem {args : List CoreArg} {idx : Nat} {fn : String} {e : CoreExpr}
    (h : getPositionalArg args idx fn = .ok e) : Arg.positional e ∈ args := by
  rw [getPositionalArg] at h
  cases hgo : getPositionalArgGo args idx with
  | none => rw [hgo] at h; cases h
  | some e0 =>
    rw [hgo] at h
    cases h
    exact getPositionalArgGo_mem hgo

theorem getPositionalArg_size {args : List CoreArg} {idx : Nat} {fn : String} {e : CoreExpr}
    (h : getPositionalArg args idx fn = .ok e) : sizeCE e < sizeArgsCE args :=
  sizeArgsCE_of_mem_positional (getPositionalArg_mem h)

/-- `try_extract_col_name` from `eval.rs`: string literal or
`pl.col("name")`. -/
def tryExtractColName : CoreExpr → Option String
  | .literal (.str s) => some s
  | .call (.attr (.ident "pl") "col") [.positional (.literal (.str name))] => some name
  | _ => none

/-- `get_string_arg` from `eval.rs`. -/
def getStringArg (args : List CoreArg) (idx : Nat) (fnName : String) :
    Except EvalError String := do
  let e ← getPositionalArg args idx fnName
  match tryExtractColName e with
  | some s => pure s
  | none =>
    .error (.argError (fnName ++ "() argument " ++ toString idx ++ " must be a string"))

/-- `get_strings_arg` from `eval.rs`: a single column name or a list of
column names. -/
def getStringsArg (args : List CoreArg) (idx : Nat) (fnName : String) :
    Except EvalError (List String) := do
  let e ← getPositionalArg args idx fnName
  match tryExtractColName e with
  | some s => pure [s]
  | none =>
    match e with
    | .list items =>
      match items.mapM tryExtractColName with
      | some names => pure names
      | none =>
        .error (.argError (fnName ++ "() argument " ++ toString idx ++
          " must be a column name or list of column names"))
    | _ =>
      .error (.argError (fnName ++ "() argument " ++ toString idx ++
        " must be a column name or list of column names"))

/-- `get_int_arg` from `eval.rs` (handles `-n` as unary neg over an int
literal). -/
def getIntArg (args : List CoreArg) (idx : Nat) (fnName : String) :
    Except EvalError Int := do
  let e ← getPositionalArg args idx fnName
  match e with
  | .literal (.int n) => pure n
  | .unaryOp .neg (.literal (.int n)) => pure (-n)
  | .unaryOp .neg _ =>
    .error (.argError (fnName ++ "() argument " ++ toString idx ++ " must be an integer"))
  | _ =>
    .error (.argError (fnName ++ "() argument " ++ toString idx ++ " must be an integer"))

/-- `get_kwarg_bool` from `eval.rs`. -/
def getKwargBool : List CoreArg → String → Option Bool
  | [], _ => none
  | .keyword k (.literal (.bool b)) :: rest, name =>
    if k = name then some b else getKwargBool rest name
  | _ :: rest, name => getKwargBool rest name

/-- `get_kwarg_string` from `eval.rs` (first matching keyword wins, then
string extraction). -/
def getKwargString : List CoreArg → String → Option String
  | [], _ => none
  | .keyword k v :: rest, name =>
    if k = name then tryExtractColName v else getKwargString rest name
  | .positional _ :: rest, name => getKwargString rest name

/-- `get_kwarg_strings` from `eval.rs`. -/
def getKwargStrings : List CoreArg → String → Option (List String)
  | [], _ => none
  | .keyword k v :: rest, name =>
    if k = name then
      match tryExtractColName v with
      | some s => some [s]
      | none =>
        match v with
        | .list items => items.mapM tryExtractColName
        | _ => none
    else getKwargStrings rest name
  | .positional _ :: rest, name => getKwargStrings rest name

/-- `collect_string_args` from `eval.rs`: positional column names, lists
flattened. -/
def collectStringArgs : List CoreArg → Except EvalError (List String)
  | [] => .ok []
  | .keyword _ _ :: rest => collectStringArgs rest
  | .positional e :: rest => do
    let names ←
      match e with
      | .list items =>
        match items.mapM tryExtractColName with
        | some names => pure names
        | none =>
          .error (.argError "Expected column name or pl.col() expression in list")
      | _ =>
        match tryExtractColName e with
        | some name => pure [name]
        | none => .error (.argError "Expected column name or pl.col() expression")
    let tail ← collectStringArgs rest
    pure (names ++ tail)

end Piql

namespace Piql

/-- `literal_to_scalar` from `eval.rs`. -/
def literalToScalar : Lit → ScalarValue
  | .str s => .str s
  | .int n => .int n
  | .float q => .float q
  | .bool b => .bool b
  | .null => .null

/-- `scalar_to_lit` from `eval.rs`. -/
def scalarToLit : ScalarValue → PExpr
  | .str v => .litE (.str v)
  | .int v => .litE (.int v)
  | .float v => .litE (.float v)
  | .bool v => .litE (.bool v)
  | .null => .litE .null

/-- `df_value` from `eval.rs`: wrap a plan with demoted lineage. -/
def dfValue (df : LF) (lineage : DataFrameLineage) : Value :=
  .dataFrame df lineage.derived

/-- Rust `as u32` on an `i64` (two's-complement wrap). -/
def intToU32 (n : Int) : Nat := (n % 4294967296).toNat

/-- Rust `as u64` on an `i64` (two's-complement wrap). -/
def intToU64 (n : Int) : Nat := (n % 18446744073709551616).toNat

/-- `scope_target_df` from `eval.rs`: a scope method invoked directly on a
base-table identifier targets the `all` snapshot; otherwise the current
plan. -/
def scopeTargetDf (df : LF) (lineage : DataFrameLineage) (ctx : EvalContext)
    (baseIsDirectIdent : Bool) : LF :=
  if baseIsDirectIdent then
    match lineage.sourceName with
    | some name =>
      match alookup ctx.baseTables name with
      | some entry =>
        match entry.all with
        | some allDf => allDf
        | none => df
      | none => df
    | none => df
  else df

/-- `resolve_scope_tick_column` from `eval.rs`. -/
def resolveScopeTickColumn (lineage : DataFrameLineage) (ctx : EvalContext)
    (method : String) : Except EvalError String :=
  if lineage = .ambiguous then
    .error (.other ("." ++ method ++
      "() has ambiguous lineage; call .at/.since/.window before joins or configure an explicit tick column"))
  else
    match lineage.sourceName with
    | some name =>
      match alookup ctx.baseTables name with
      | some entry => .ok entry.config.tickColumn
      | none =>
        match ctx.getTimeSeriesConfig name with
        | some cfg => .ok cfg.tickColumn
        | none =>
          match ctx.defaultTickColumn with
          | some d => .ok d
          | none =>
            .error (.other ("." ++ method ++
              "() requires tick column configuration; register a time-series dataframe or set EvalContext::with_default_tick_column(...)"))
    | none =>
      match ctx.defaultTickColumn with
      | some d => .ok d
      | none =>
        .error (.other ("." ++ method ++
          "() requires tick column configuration; register a time-series dataframe or set EvalContext::with_default_tick_column(...)"))

/-- `eval_str_method` from `eval.rs` (string namespace). -/
def evalStrMethod (e : PExpr) (method : String) (args : List CoreArg) :
    Except EvalError Value :=
  match method with
  | "starts_with" => do
    let prefixS ← getStringArg args 0 "starts_with"
    pure (.expr (.strE .startsWith e [.litE (.str prefixS)] false))
  | "ends_with" => do
    let suffix ← getStringArg args 0 "ends_with"
    pure (.expr (.strE .endsWith e [.litE (.str suffix)] false))
  | "to_lowercase" => pure (.expr (.strE .toLowercase e [] false))
  | "to_uppercase" => pure (.expr (.strE .toUppercase e [] false))
  | "len_chars" => pure (.expr (.strE .lenChars e [] false))
  | "contains" => do
    let pattern ← getStringArg args 0 "contains"
    pure (.expr (.strE .contains e [.litE (.str pattern)] false))
  | "replace" => do
    let pattern ← getStringArg args 0 "replace"
    let replacement ← getStringArg args 1 "replace"
    pure (.expr (.strE .replace e [.litE (.str pattern), .litE (.str replacement)] false))
  | "slice" => do
    let offset ← getIntArg args 0 "slice"
    let length ← getIntArg args 1 "slice"
    pure (.expr (.strE .slice e [.litE (.int offset), .litE (.int (intToU64 length))] false))
  | _ => .error (.unknownMethod "str" method)

/-- `eval_dt_method` from `eval.rs` (datetime namespace). -/
def evalDtMethod (e : PExpr) (method : String) : Except EvalError Value :=
  match method with
  | "year" => pure (.expr (.dtE .year e))
  | "month" => pure (.expr (.dtE .month e))
  | "day" => pure (.expr (.dtE .day e))
  | "hour" => pure (.expr (.dtE .hour e))
  | "minute" => pure (.expr (.dtE .minute e))
  | "second" => pure (.expr (.dtE .second e))
  | _ => .error (.unknownMethod "dt" method)

end Piql

namespace Piql

/-- `eval_ident` from `eval.rs`: `pl`, then base tables (`now` plan), then
the catalog, else `UnknownIdent`. -/
def evalIdent (name : String) (ctx : EvalContext) : Except EvalError Value :=
  if name = "pl" then .ok .plNamespace
  else
    match ctx.getBaseNow name with
    | some nowDf => .ok (.dataFrame nowDf (.table name))
    | none =>
      match alookup ctx.dataframes name with
      | some entry => .ok (.dataFrame entry.df.lazy (.table name))
      | none => .error (.unknownIdent name)

/-- The `describe()` per-statistic column expression (the `match stat`
inside `eval_df_method`; the catch-all is `unreachable!` in the source). -/
def describeStatExpr (stat : String) (c : String) : PExpr :=
  if stat = "count" then .aliasE (.castE (.aggE .count (.colE c)) .float64) c
  else if stat = "null_count" then .aliasE (.castE (.aggE .nullCount (.colE c)) .float64) c
  else if stat = "mean" then .aliasE (.aggE .mean (.colE c)) c
  else if stat = "std" then .aliasE (.stdE (.colE c) 1) c
  else if stat = "min" then .aliasE (.castE (.aggE .minA (.colE c)) .float64) c
  else if stat = "max" then .aliasE (.castE (.aggE .maxA (.colE c)) .float64) c
  else .aliasE (.colE c) c

/-- Decompose an attribute node (the `if let Expr::Attr(inner_base,
namespace)` test of `eval_method_call`). -/
def attrParts : CoreExpr → Option (CoreExpr × String)
  | .attr base name => some (base, name)
  | _ => none

theorem attrParts_size {e : CoreExpr} {p : CoreExpr × String}
    (h : attrParts e = some p) : sizeCE p.1 < sizeCE e := by
  match e, h with
  | .attr base name, h =>
    rw [attrParts] at h
    cases h
    simp [sizeCE]

/-- The `base_is_direct_ident` flag of `eval_method_call`: whether the
receiver expression is a bare identifier. -/
def isDirectIdent : CoreExpr → Bool
  | .ident _ => true
  | _ => false

set_option maxHeartbeats 2000000 in
mutual

/-- `eval` from `eval.rs`. -/
def eval (e : CoreExpr) (ctx : EvalContext) : Except EvalError Value :=
  match e with
  | .ident name => evalIdent name ctx
  | .literal lit => .ok (.scalar (literalToScalar lit))
  | .list items => evalList items ctx
  | .attr base attr => evalAttr base attr ctx
  | .call callee args => evalCall callee args ctx
  | .binaryOp lhs op rhs => evalBinop lhs op rhs ctx
  | .unaryOp op operand => evalUnaryop op operand ctx
  | .whenThenOtherwise branches otherwise => evalWhenThenOtherwise branches otherwise ctx
  | .invalid message => .error (.other message)
  termination_by 8 * sizeCE e
  decreasing_by
  all_goals simp_wf
  all_goals
    first
    | (simp only [sizeCE, sizeArgsCE, sizeItemsCE, sizeBranchesCE]
       omega)
    | (have hsz := getPositionalArg_size (by assumption)
       omega)
    | omega

/-- `eval_list` from `eval.rs`: evaluates only the head (lists are handled
specially at call sites); the empty list is an error. -/
def evalList (items : List CoreExpr) (ctx : EvalContext) : Except EvalError Value :=
  match items with
  | [] => .error (.other "Empty list")
  | first :: _ => eval first ctx
  termination_by 8 * sizeItemsCE items + 2
  decreasing_by
  all_goals simp_wf
  all_goals
    first
    | (simp only [sizeCE, sizeArgsCE, sizeItemsCE, sizeBranchesCE]
       omega)
    | (have hsz := getPositionalArg_size (by assumption)
       omega)
    | omega

/-- `eval_attr` from `eval.rs`. -/
def evalAttr (base : CoreExpr) (attr : String) (ctx : EvalContext) :
    Except EvalError Value :=
  match eval base ctx with
  | .error e => .error e
  | .ok baseVal =>
    match baseVal with
    | .plNamespace => .error (.other ("pl." ++ attr ++ " must be called as a function"))
    | .expr e =>
      if attr = "str" ∨ attr = "dt" ∨ attr = "list" then .ok (.expr e)
      else .error (.unknownMethod "Expr" attr)
    | .dataFrame _ _ => .error (.unknownMethod "DataFrame" attr)
    | .groupBy _ _ => .error (.unknownMethod "GroupBy" attr)
    | .scalar _ => .error (.typeError "Expr or DataFrame" "Scalar")
  termination_by 8 * sizeCE base + 2
  decreasing_by
  all_goals simp_wf
  all_goals
    first
    | (simp only [sizeCE, sizeArgsCE, sizeItemsCE, sizeBranchesCE]
       omega)
    | (have hsz := getPositionalArg_size (by assumption)
       omega)
    | omega

/-- `eval_call` from `eval.rs`. -/
def evalCall (callee : CoreExpr) (args : List CoreArg) (ctx : EvalContext) :
    Except EvalError Value :=
  match h : attrParts callee with
  | some p => evalMethodCall p.1 p.2 args ctx
  | none => .error (.other "Direct function calls not yet supported")
  termination_by 8 * (sizeCE callee + sizeArgsCE args) + 5
  decreasing_by
  all_goals simp_wf
  all_goals
    first
    | (have hsz := attrParts_size (by assumption)
       omega)
    | omega

/-- `eval_method_call` from `eval.rs` (the `if let Expr::Attr(..)` test is
factored through `attrParts`). -/
def evalMethodCall (base : CoreExpr) (method : String) (args : List CoreArg)
    (ctx : EvalContext) : Except EvalError Value :=
  match h : attrParts base with
  | some p =>
    if p.2 = "str" then evalStrBranch p.1 method args ctx
    else if p.2 = "dt" then evalDtBranch p.1 method ctx
    else evalMethodCallDispatch base method args ctx
  | none => evalMethodCallDispatch base method args ctx
  termination_by 8 * (sizeCE base + sizeArgsCE args) + 4
  decreasing_by
  all_goals simp_wf
  all_goals
    first
    | (simp only [sizeCE, sizeArgsCE, sizeItemsCE, sizeBranchesCE]
       omega)
    | (have hsz := attrParts_size (by assumption)
       omega)
    | omega

/-- The `str` namespace branch of `eval_method_call` (evaluate the inner
receiver to a column expression, then dispatch the string method). -/
def evalStrBranch (innerBase : CoreExpr) (method : String) (args : List CoreArg)
    (ctx : EvalContext) : Except EvalError Value :=
  match evalToExpr innerBase ctx with
  | .error e => .error e
  | .ok e => evalStrMethod e method args
  termination_by 8 * sizeCE innerBase + 3
  decreasing_by
  all_goals simp_wf
  all_goals omega

/-- The `dt` namespace branch of `eval_method_call`. -/
def evalDtBranch (innerBase : CoreExpr) (method : String)
    (ctx : EvalContext) : Except EvalError Value :=
  match evalToExpr innerBase ctx with
  | .error e => .error e
  | .ok e => evalDtMethod e method
  termination_by 8 * sizeCE innerBase + 3
  decreasing_by
  all_goals simp_wf
  all_goals omega

/-- The dispatch on the evaluated receiver inside `eval_method_call`. -/
def evalMethodCallDispatch (base : CoreExpr) (method : String) (args : List CoreArg)
    (ctx : EvalContext) : Except EvalError Value :=
  match eval base ctx with
  | .error e => .error e
  | .ok baseVal =>
    match baseVal with
    | .plNamespace => evalPlFunction method args ctx
    | .dataFrame df lineage => evalDfMethod df lineage method args ctx (isDirectIdent base)
    | .groupBy gb lineage => evalGroupbyMethod gb lineage method args ctx
    | .expr e => evalExprMethod e method args ctx
    | .scalar _ => .error (.typeError "Expr or DataFrame" "Scalar")
  termination_by 8 * (sizeCE base + sizeArgsCE args) + 3
  decreasing_by
  all_goals simp_wf
  all_goals
    first
    | (simp only [sizeCE, sizeArgsCE, sizeItemsCE, sizeBranchesCE]
       omega)
    | (have hsz := getPositionalArg_size (by assumption)
       omega)
    | omega

/-- `eval_pl_function` from `eval.rs`: `pl.col`, `pl.lit`, `pl.len`. -/
def evalPlFunction (name : String) (args : List CoreArg) (ctx : EvalContext) :
    Except EvalError Value :=
  if name = "col" then
    match collectStringArgs args with
    | .error e => .error e
    | .ok colNames =>
      match colNames with
      | [single] => .ok (.expr (.colE single))
      | _ => .ok (.expr (.selectorByName colNames true))
  else if name = "lit" then
    match h : getPositionalArg args 0 "lit" with
    | .error e => .error e
    | .ok val =>
      match eval val ctx with
      | .error e => .error e
      | .ok (.scalar s) => .ok (.expr (scalarToLit s))
      | .ok _ => .error (.argError "lit() expects a literal value")
  else if name = "len" then .ok (.expr .lenE)
  else .error (.unknownMethod "pl" name)
  termination_by 8 * sizeArgsCE args + 2
  decreasing_by
  all_goals simp_wf
  all_goals
    first
    | (simp only [sizeCE, sizeArgsCE, sizeItemsCE, sizeBranchesCE]
       omega)
    | (have hsz := getPositionalArg_size (by assumption)
       omega)
    | omega

/-- `eval_df_method` from `eval.rs`: table methods, scope methods, `top`,
`describe`, `join`. -/
def evalDfMethod (df : LF) (lineage : DataFrameLineage) (method : String)
    (args : List CoreArg) (ctx : EvalContext) (baseIsDirectIdent : Bool) :
    Except EvalError Value :=
  if method = "filter" then
    match h : getPositionalArg args 0 "filter" with
    | .error e => .error e
    | .ok pred =>
      match evalToExpr pred ctx with
      | .error e => .error e
      | .ok predExpr => .ok (dfValue (.filterL df predExpr) lineage)
  else if method = "select" then
    match collectExprArgs args ctx with
    | .error e => .error e
    | .ok exprs => .ok (dfValue (.selectL df exprs) lineage)
  else if method = "with_columns" then
    match collectExprArgs args ctx with
    | .error e => .error e
    | .ok exprs => .ok (dfValue (.withColumnsL df exprs) lineage)
  else if method = "head" then
    let n := ((getIntArg args 0 "head").toOption.getD 10)
    .ok (dfValue (.limitL df (intToU32 n)) lineage)
  else if method = "sort" then
    match getStringsArg args 0 "sort" with
    | .error e => .error e
    | .ok colNames =>
      let descending := (getKwargBool args "descending").getD false
      .ok (dfValue (.sortL df colNames descending) lineage)
  else if method = "tail" then
    let n := ((getIntArg args 0 "tail").toOption.getD 10)
    .ok (dfValue (.tailL df (intToU32 n)) lineage)
  else if method = "drop" then
    match collectStringArgs args with
    | .error e => .error e
    | .ok colNames => .ok (dfValue (.dropL df colNames true) lineage)
  else if method = "explode" then
    match collectStringArgs args with
    | .error e => .error e
    | .ok colNames => .ok (dfValue (.explodeL df colNames true) lineage)
  else if method = "drop_nulls" then .ok (dfValue (.dropNullsL df) lineage)
  else if method = "reverse" then .ok (dfValue (.reverseL df) lineage)
  else if method = "unique" then
    if args.isEmpty then .ok (dfValue (.uniqueL df none) lineage)
    else
      match getStringsArg args 0 "unique" with
      | .error e => .error e
      | .ok colNames => .ok (dfValue (.uniqueL df (some colNames)) lineage)
  else if method = "count" then
    match collectSchemaLF df with
    | .error e => .error e
    | .ok schema =>
      let countExprs := schema.map (fun nd => PExpr.aliasE (.aggE .count (.colE nd.1)) nd.1)
      .ok (dfValue (.selectL df countExprs) lineage)
  else if method = "height" then
    .ok (dfValue (.selectL df [.aliasE .lenE "height"]) lineage)
  else if method = "group_by" then
    match collectStringArgs args with
    | .error e => .error e
    | .ok colNames =>
      .ok (.groupBy ⟨df, colNames.map PExpr.colE⟩ lineage.derived)
  else if method = "rename" then
    let renames : List (String × String) := args.filterMap (fun a =>
      match a with
      | .keyword old (.literal (.str new)) => some (old, new)
      | _ => none)
    if renames.isEmpty then
      match getStringArg args 0 "rename" with
      | .error e => .error e
      | .ok old =>
        match getStringArg args 1 "rename" with
        | .error e => .error e
        | .ok new => .ok (dfValue (.renameL df [old] [new] false) lineage)
    else
      .ok (dfValue (.renameL df (renames.map Prod.fst) (renames.map Prod.snd) false) lineage)
  else if method = "all" then
    if baseIsDirectIdent then
      match lineage.sourceName with
      | some name =>
        match ctx.getBaseAll name with
        | some allDf => .ok (dfValue allDf lineage)
        | none => .ok (dfValue df lineage)
      | none => .ok (dfValue df lineage)
    else .ok (dfValue df lineage)
  else if method = "window" then
    match getIntArg args 0 "window" with
    | .error e => .error e
    | .ok a =>
      match getIntArg args 1 "window" with
      | .error e => .error e
      | .ok b =>
        match ctx.tick with
        | none => .error (.other ".window() requires tick in context")
        | some tick =>
          match resolveScopeTickColumn lineage ctx "window" with
          | .error e => .error e
          | .ok tickCol =>
            let targetDf := scopeTargetDf df lineage ctx baseIsDirectIdent
            let filtered := LF.filterL targetDf
              (PExpr.isBetweenF (.colE tickCol) (.litE (.int (tick + a))) (.litE (.int (tick + b))))
            .ok (dfValue filtered lineage)
  else if method = "since" then
    match getIntArg args 0 "since" with
    | .error e => .error e
    | .ok n =>
      match resolveScopeTickColumn lineage ctx "since" with
      | .error e => .error e
      | .ok tickCol =>
        let targetDf := scopeTargetDf df lineage ctx baseIsDirectIdent
        let filtered := LF.filterL targetDf (PExpr.gtEqF (.colE tickCol) (.litE (.int n)))
        .ok (dfValue filtered lineage)
  else if method = "at" then
    match getIntArg args 0 "at" with
    | .error e => .error e
    | .ok n =>
      match resolveScopeTickColumn lineage ctx "at" with
      | .error e => .error e
      | .ok tickCol =>
        let targetDf := scopeTargetDf df lineage ctx baseIsDirectIdent
        let filtered := LF.filterL targetDf (PExpr.eqF (.colE tickCol) (.litE (.int n)))
        .ok (dfValue filtered lineage)
  else if method = "top" then
    match getIntArg args 0 "top" with
    | .error e => .error e
    | .ok n =>
      match getStringArg args 1 "top" with
      | .error e => .error e
      | .ok sortCol =>
        .ok (dfValue (.limitL (.sortL df [sortCol] true) (intToU32 n)) lineage)
  else if method = "describe" then
    match collectSchemaLF df with
    | .error e => .error e
    | .ok schema =>
      let numericCols := (schema.filter (fun nd =>
        match nd.2 with
        | .int64 => true
        | .float64 => true
        | _ => false)).map Prod.fst
      if numericCols.isEmpty then
        .error (.other "describe() requires at least one numeric column")
      else
        let stats := ["count", "null_count", "mean", "std", "min", "max"]
        let rows := stats.map (fun stat =>
          LF.withColumnL (.selectL df (numericCols.map (describeStatExpr stat)))
            (.aliasE (.litE (.str stat)) "statistic"))
        match concatP rows with
        | .error e => .error e
        | .ok result =>
          let colOrder := PExpr.colE "statistic" :: numericCols.map PExpr.colE
          .ok (dfValue (.selectL result colOrder) lineage)
  else if method = "join" then
    match h : getPositionalArg args 0 "join" with
    | .error e => .error e
    | .ok otherExpr =>
      match eval otherExpr ctx with
      | .error e => .error e
      | .ok otherVal =>
        match otherVal with
        | .dataFrame other _ =>
          let how := (getKwargString args "how").getD "inner"
          let joinType : Except EvalError JoinType :=
            if how = "inner" then .ok .inner
            else if how = "left" then .ok .left
            else if how = "right" then .ok .right
            else if how = "outer" ∨ how = "full" then .ok .full
            else if how = "cross" then .ok .cross
            else .error (.argError ("Unknown join type: " ++ how))
          match joinType with
          | .error e => .error e
          | .ok jt =>
            match getKwargStrings args "on" with
            | some onCols =>
              let onExprs := onCols.map PExpr.colE
              .ok (.dataFrame (.joinL df other onExprs onExprs jt) .ambiguous)
            | none =>
              match getKwargStrings args "left_on" with
              | none =>
                -- source message: join() requires 'on' or 'left_on'/'right_on' kwargs
                .error (.argError "join() requires on or left_on/right_on kwargs")
              | some leftCols =>
                match getKwargStrings args "right_on" with
                | none =>
                  -- source message: join() requires 'right_on' when 'left_on' is specified
                  .error (.argError "join() requires right_on when left_on is specified")
                | some rightCols =>
                  .ok (.dataFrame
                    (.joinL df other (leftCols.map PExpr.colE) (rightCols.map PExpr.colE) jt)
                    .ambiguous)
        | _ => .error (.argError "join() first argument must be a DataFrame")
  else .error (.unknownMethod "DataFrame" method)
  termination_by 8 * sizeArgsCE args + 2
  decreasing_by
  all_goals simp_wf
  all_goals
    first
    | (simp only [sizeCE, sizeArgsCE, sizeItemsCE, sizeBranchesCE]
       omega)
    | (have hsz := getPositionalArg_size (by assumption)
       omega)
    | omega

/-- `eval_groupby_method` from `eval.rs`: only `agg`. -/
def evalGroupbyMethod (gb : LGB) (lineage : DataFrameLineage) (method : String)
    (args : List CoreArg) (ctx : EvalContext) : Except EvalError Value :=
  if method = "agg" then
    match collectExprArgs args ctx with
    | .error e => .error e
    | .ok exprs => .ok (.dataFrame (.groupAggL gb.lf gb.keys exprs) lineage.derived)
  else .error (.unknownMethod "GroupBy" method)
  termination_by 8 * sizeArgsCE args + 2
  decreasing_by
  all_goals simp_wf
  all_goals
    first
    | (simp only [sizeCE, sizeArgsCE, sizeItemsCE, sizeBranchesCE]
       omega)
    | (have hsz := getPositionalArg_size (by assumption)
       omega)
    | omega

/-- `eval_expr_method` from `eval.rs`: expression methods. -/
def evalExprMethod (e : PExpr) (method : String) (args : List CoreArg)
    (ctx : EvalContext) : Except EvalError Value :=
  if method = "alias" then
    match getStringArg args 0 "alias" with
    | .error err => .error err
    | .ok name => .ok (.expr (.aliasE e name))
  else if method = "over" then
    match getStringsArg args 0 "over" with
    | .error err => .error err
    | .ok partitionCols => .ok (.expr (.overE e (partitionCols.map PExpr.colE)))
  else if method = "is_between" then
    match h1 : getPositionalArg args 0 "is_between" with
    | .error err => .error err
    | .ok loE =>
      match evalToExpr loE ctx with
      | .error err => .error err
      | .ok lo =>
        match h2 : getPositionalArg args 1 "is_between" with
        | .error err => .error err
        | .ok hiE =>
          match evalToExpr hiE ctx with
          | .error err => .error err
          | .ok hi => .ok (.expr (.isBetweenE e lo hi))
  else if method = "diff" then .ok (.expr (.diffE e (.litE (.int 1)) true))
  else if method = "shift" then
    match getIntArg args 0 "shift" with
    | .error err => .error err
    | .ok n => .ok (.expr (.shiftE e (.litE (.int n))))
  else if method = "sum" then .ok (.expr (.aggE .sum e))
  else if method = "mean" then .ok (.expr (.aggE .mean e))
  else if method = "min" then .ok (.expr (.aggE .minA e))
  else if method = "max" then .ok (.expr (.aggE .maxA e))
  else if method = "count" then .ok (.expr (.aggE .count e))
  else if method = "first" then .ok (.expr (.aggE .first e))
  else if method = "last" then .ok (.expr (.aggE .last e))
  else if method = "cast" then
    match getStringArg args 0 "cast" with
    | .error err => .error err
    | .ok typeName =>
      if typeName = "int" ∨ typeName = "i64" then .ok (.expr (.castE e .int64))
      else if typeName = "float" ∨ typeName = "f64" then .ok (.expr (.castE e .float64))
      else if typeName = "str" ∨ typeName = "string" then .ok (.expr (.castE e .string))
      else if typeName = "bool" then .ok (.expr (.castE e .boolean))
      else .error (.argError ("Unknown type for cast: " ++ typeName))
  else if method = "fill_null" then
    match h : getPositionalArg args 0 "fill_null" with
    | .error err => .error err
    | .ok fillE =>
      match evalToExpr fillE ctx with
      | .error err => .error err
      | .ok fillVal => .ok (.expr (.fillNullE e fillVal))
  else if method = "is_null" then .ok (.expr (.isNullE e))
  else if method = "is_not_null" then .ok (.expr (.isNotNullE e))
  else if method = "unique" then .ok (.expr (.uniqueE e))
  else if method = "abs" then .ok (.expr (.absE e))
  else if method = "round" then
    match getIntArg args 0 "round" with
    | .error err => .error err
    | .ok decimals => .ok (.expr (.roundE e (intToU32 decimals)))
  else if method = "len" then .ok (.expr (.aggE .lenA e))
  else if method = "n_unique" then .ok (.expr (.aggE .nUnique e))
  else if method = "cum_sum" then .ok (.expr (.cumSumE e false))
  else if method = "cum_max" then .ok (.expr (.cumMaxE e false))
  else if method = "cum_min" then .ok (.expr (.cumMinE e false))
  else if method = "rank" then .ok (.expr (.rankE e))
  else if method = "clip" then
    match h1 : getPositionalArg args 0 "clip" with
    | .error err => .error err
    | .ok loE =>
      match evalToExpr loE ctx with
      | .error err => .error err
      | .ok minVal =>
        match h2 : getPositionalArg args 1 "clip" with
        | .error err => .error err
        | .ok hiE =>
          match evalToExpr hiE ctx with
          | .error err => .error err
          | .ok maxVal => .ok (.expr (.clipE e minVal maxVal))
  else if method = "reverse" then .ok (.expr (.reverseE e))
  else .error (.unknownMethod "Expr" method)
  termination_by 8 * sizeArgsCE args + 2
  decreasing_by
  all_goals simp_wf
  all_goals
    first
    | (simp only [sizeCE, sizeArgsCE, sizeItemsCE, sizeBranchesCE]
       omega)
    | (have hsz := getPositionalArg_size (by assumption)
       omega)
    | omega

/-- `eval_binop` from `eval.rs`. -/
def evalBinop (lhs : CoreExpr) (op : BinOp) (rhs : CoreExpr) (ctx : EvalContext) :
    Except EvalError Value :=
  match evalToExpr lhs ctx with
  | .error e => .error e
  | .ok l =>
    match evalToExpr rhs ctx with
    | .error e => .error e
    | .ok r =>
      let result :=
        match op with
        | .add => PExpr.binE l .add r
        | .sub => PExpr.binE l .sub r
        | .mul => PExpr.binE l .mul r
        | .div => PExpr.binE l .div r
        | .mod => PExpr.binE l .rem r
        | .eq => PExpr.eqF l r
        | .ne => PExpr.neqF l r
        | .lt => PExpr.ltF l r
        | .le => PExpr.ltEqF l r
        | .gt => PExpr.gtF l r
        | .ge => PExpr.gtEqF l r
        | .and => PExpr.andF l r
        | .or => PExpr.orF l r
      .ok (.expr result)
  termination_by 8 * (sizeCE lhs + sizeCE rhs) + 2
  decreasing_by
  all_goals simp_wf
  all_goals
    first
    | (simp only [sizeCE, sizeArgsCE, sizeItemsCE, sizeBranchesCE]
       omega)
    | (have hsz := getPositionalArg_size (by assumption)
       omega)
    | omega

/-- `eval_unaryop` from `eval.rs` (`-e` is `lit(0) - e`). -/
def evalUnaryop (op : UnaryOp) (operand : CoreExpr) (ctx : EvalContext) :
    Except EvalError Value :=
  match evalToExpr operand ctx with
  | .error e => .error e
  | .ok e =>
    match op with
    | .neg => .ok (.expr (.binE (.litE (.int 0)) .sub e))
    | .not => .ok (.expr (.notE e))
  termination_by 8 * sizeCE operand + 2
  decreasing_by
  all_goals simp_wf
  all_goals
    first
    | (simp only [sizeCE, sizeArgsCE, sizeItemsCE, sizeBranchesCE]
       omega)
    | (have hsz := getPositionalArg_size (by assumption)
       omega)
    | omega

/-- `eval_when_then_otherwise` from `eval.rs`: lower the conditional chain
through the backend when/then builders (single-branch `Then` vs
multi-branch `ChainedThen`). -/
def evalWhenThenOtherwise (branches : List (CoreExpr × CoreExpr)) (otherwise : CoreExpr)
    (ctx : EvalContext) : Except EvalError Value :=
  match branches with
  | [] => .error (.other "when/then/otherwise requires at least one branch")
  | [(cond, val)] =>
    match evalToExpr otherwise ctx with
    | .error e => .error e
    | .ok otherwiseExpr =>
      match evalToExpr cond ctx with
      | .error e => .error e
      | .ok condExpr =>
        match evalToExpr val ctx with
        | .error e => .error e
        | .ok thenExpr =>
          .ok (.expr (((pwhen condExpr).thenF thenExpr).otherwiseF otherwiseExpr))
  | (cond1, val1) :: (cond2, val2) :: rest =>
    match evalToExpr otherwise ctx with
    | .error e => .error e
    | .ok otherwiseExpr =>
      match evalToExpr cond1 ctx with
      | .error e => .error e
      | .ok condExpr1 =>
        match evalToExpr val1 ctx with
        | .error e => .error e
        | .ok thenExpr1 =>
          let firstThen := (pwhen condExpr1).thenF thenExpr1
          match evalToExpr cond2 ctx with
          | .error e => .error e
          | .ok condExpr2 =>
            match evalToExpr val2 ctx with
            | .error e => .error e
            | .ok thenExpr2 =>
              let chain := (firstThen.whenF condExpr2).thenF thenExpr2
              match evalWtoChain rest chain ctx with
              | .error e => .error e
              | .ok chainF => .ok (.expr (chainF.otherwiseF otherwiseExpr))
  termination_by 8 * (sizeBranchesCE branches + sizeCE otherwise) + 2
  decreasing_by
  all_goals simp_wf
  all_goals
    first
    | (simp only [sizeCE, sizeArgsCE, sizeItemsCE, sizeBranchesCE]
       omega)
    | (have hsz := getPositionalArg_size (by assumption)
       omega)
    | omega

/-- The `for (cond, val) in &branches[2..]` loop of
`eval_when_then_otherwise`. -/
def evalWtoChain (rest : List (CoreExpr × CoreExpr)) (chain : PChainedThen)
    (ctx : EvalContext) : Except EvalError PChainedThen :=
  match rest with
  | [] => .ok chain
  | (cond, val) :: rs =>
    match evalToExpr cond ctx with
    | .error e => .error e
    | .ok condExpr =>
      match evalToExpr val ctx with
      | .error e => .error e
      | .ok thenExpr => evalWtoChain rs ((chain.whenF condExpr).thenF thenExpr) ctx
  termination_by 8 * sizeBranchesCE rest + 2
  decreasing_by
  all_goals simp_wf
  all_goals
    first
    | (simp only [sizeCE, sizeArgsCE, sizeItemsCE, sizeBranchesCE]
       omega)
    | (have hsz := getPositionalArg_size (by assumption)
       omega)
    | omega

/-- `eval_to_expr` from `eval.rs`. -/
def evalToExpr (e : CoreExpr) (ctx : EvalContext) : Except EvalError PExpr :=
  match eval e ctx with
  | .error err => .error err
  | .ok (.expr pe) => .ok pe
  | .ok (.scalar s) => .ok (scalarToLit s)
  | .ok (.dataFrame _ _) => .error (.typeError "Expr" "DataFrame")
  | .ok (.groupBy _ _) => .error (.typeError "Expr" "GroupBy")
  | .ok .plNamespace => .error (.typeError "Expr" "pl namespace")
  termination_by 8 * sizeCE e + 1
  decreasing_by
  all_goals simp_wf
  all_goals
    first
    | (simp only [sizeCE, sizeArgsCE, sizeItemsCE, sizeBranchesCE]
       omega)
    | (have hsz := getPositionalArg_size (by assumption)
       omega)
    | omega

/-- `collect_expr_args` from `eval.rs`: positional arguments evaluated to
expressions, lists flattened element-wise, keywords skipped. -/
def collectExprArgs (args : List CoreArg) (ctx : EvalContext) :
    Except EvalError (List PExpr) :=
  match args with
  | [] => .ok []
  | .positional e :: rest =>
    match e with
    | .list items =>
      match evalItemsToExprs items ctx with
      | .error err => .error err
      | .ok xs =>
        match collectExprArgs rest ctx with
        | .error err => .error err
        | .ok ys => .ok (xs ++ ys)
    | e2 =>
      match evalToExpr e2 ctx with
      | .error err => .error err
      | .ok x =>
        match collectExprArgs rest ctx with
        | .error err => .error err
        | .ok ys => .ok (x :: ys)
  | .keyword _ _ :: rest => collectExprArgs rest ctx
  termination_by 8 * sizeArgsCE args + 1
  decreasing_by
  all_goals simp_wf
  all_goals
    first
    | (simp only [sizeCE, sizeArgsCE, sizeItemsCE, sizeBranchesCE]
       omega)
    | (have hsz := getPositionalArg_size (by assumption)
       omega)
    | omega

/-- The element-wise evaluation of a list argument inside
`collect_expr_args`. -/
def evalItemsToExprs (items : List CoreExpr) (ctx : EvalContext) :
    Except EvalError (List PExpr) :=
  match items with
  | [] => .ok []
  | item :: rest =>
    match evalToExpr item ctx with
    | .error err => .error err
    | .ok x =>
      match evalItemsToExprs rest ctx with
      | .error err => .error err
      | .ok ys => .ok (x :: ys)
  termination_by 8 * sizeItemsCE items + 1
  decreasing_by
  all_goals simp_wf
  all_goals
    first
    | (simp only [sizeCE, sizeArgsCE, sizeItemsCE, sizeBranchesCE]
       omega)
    | (have hsz := getPositionalArg_size (by assumption)
       omega)
    | omega

end

end Piql

namespace Piql

-- ===================== Library entry (src/crates/piql/src/lib.rs) =========

/-- `PiqlError` from `lib.rs`. -/
inductive PiqlError where
  | parseE (e : ParseError)
  | evalE (e : EvalError)
deriving DecidableEq

mutual

/-- `infer_root_dataframe_name` from `lib.rs`: leftmost non-`pl`
identifier in the chain spine. -/
def inferRootDataframeName : SurfaceExpr → Option String
  | .ident name => if name ≠ "pl" then some name else none
  | .attr base _ => inferRootDataframeName base
  | .call callee _ => inferRootDataframeName callee
  | .binaryOp lhs _ rhs =>
    (inferRootDataframeName lhs).orElse (fun _ => inferRootDataframeName rhs)
  | .unaryOp _ inner => inferRootDataframeName inner
  | .list items => inferRootList items
  | .literal _ => none
  | .colShorthand _ => none
  | .directive _ _ => none

/-- The `find_map` over list items in `infer_root_dataframe_name`. -/
def inferRootList : List SurfaceExpr → Option String
  | [] => none
  | e :: rest =>
    match inferRootDataframeName e with
    | some n => some n
    | none => inferRootList rest

end

/-- `run` from `lib.rs`: parse, infer root table, transform with sugar,
evaluate. -/
def run (query : String) (ctx : EvalContext) : Except PiqlError Value :=
  match parse query with
  | .error e => .error (.parseE e)
  | .ok surface =>
    let rootDf := inferRootDataframeName surface
    let sugarCtx := ctx.sugarContext rootDf
    let core := transformWithSugar surface ctx.sugar sugarCtx
    match eval core ctx with
    | .error e => .error (.evalE e)
    | .ok result => .ok result

-- ===================== QueryEngine (src/crates/piql/src/engine.rs) ========

/-- `BaseTableState` from `engine.rs`. -/
structure BaseTableState where
  all : Option LF
  now : Option LF

/-- `QueryEngine` from `engine.rs`.  `materialized` is an `IndexMap`
(insertion order is evaluation order); `subscriptions` is a `HashMap`
(modelled as an association list; its iteration order is not observable in
the returned mapping). -/
structure QueryEngine where
  ctx : EvalContext
  baseTables : List (String × BaseTableState)
  materialized : List (String × String)
  subscriptions : List (String × String)

namespace QueryEngine

/-- `QueryEngine::new`. -/
def new : QueryEngine :=
  { ctx := EvalContext.new, baseTables := [], materialized := [], subscriptions := [] }

/-- `QueryEngine::add_base_df` (collects immediately; the `.expect` panic is
modelled as the error case). -/
def addBaseDf (eng : QueryEngine) (name : String) (df : LF) :
    Except EvalError QueryEngine :=
  match collectLF df with
  | .error e => .error e
  | .ok collected =>
    .ok { eng with
      ctx := { eng.ctx with
        dataframes := ainsert eng.ctx.dataframes name ⟨collected, none⟩ } }

/-- `QueryEngine::add_time_series_df` (collects immediately). -/
def addTimeSeriesDf (eng : QueryEngine) (name : String) (df : LF)
    (config : TimeSeriesConfig) : Except EvalError QueryEngine :=
  match collectLF df with
  | .error e => .error e
  | .ok collected =>
    .ok { eng with
      ctx := { eng.ctx with
        dataframes := ainsert eng.ctx.dataframes name ⟨collected, some config⟩ } }

/-- `QueryEngine::update_df` (no-op when the name is unknown). -/
def updateDf (eng : QueryEngine) (name : String) (df : LF) :
    Except EvalError QueryEngine :=
  match alookup eng.ctx.dataframes name with
  | none => .ok eng
  | some entry =>
    match collectLF df with
    | .error e => .error e
    | .ok collected =>
      .ok { eng with
        ctx := { eng.ctx with
          dataframes := ainsert eng.ctx.dataframes name ⟨collected, entry.timeSeries⟩ } }

/-- `QueryEngine::register_base`. -/
def registerBase (eng : QueryEngine) (name : String) (config : TimeSeriesConfig) :
    QueryEngine :=
  { eng with
    ctx := eng.ctx.registerBaseTable name config,
    baseTables := ainsert eng.baseTables name ⟨none, none⟩ }

/-- `QueryEngine::append_tick`: concat into `all`, replace `now`, refresh
the catalog entry (via `update_base_table_ptrs`); unknown base tables are
an error. -/
def appendTick (eng : QueryEngine) (name : String) (rows : LF) :
    Except PiqlError QueryEngine :=
  match alookup eng.baseTables name with
  | none => .error (.evalE (.unknownIdent name))
  | some state =>
    match (match state.all with
           | some existing => concatP [existing, rows]
           | none => .ok rows) with
    | .error e => .error (.evalE e)
    | .ok newAll =>
      match eng.ctx.updateBaseTablePtrs name newAll rows with
      | .error e => .error (.evalE e)
      | .ok ctx2 =>
        .ok { eng with
          baseTables := ainsert eng.baseTables name ⟨some newAll, some rows⟩,
          ctx := ctx2 }

/-- `QueryEngine::materialize`: evaluate immediately, store a table result
in the catalog, and remember `(name, query)` in insertion order. -/
def materialize (eng : QueryEngine) (name query : String) :
    Except PiqlError QueryEngine :=
  match run query eng.ctx with
  | .error e => .error e
  | .ok (.dataFrame lf _) =>
    match collectLF lf with
    | .error e => .error (.evalE e)
    | .ok collected =>
      .ok { eng with
        ctx := { eng.ctx with
          dataframes := ainsert eng.ctx.dataframes name ⟨collected, none⟩ },
        materialized := ainsert eng.materialized name query }
  | .ok _ => .ok { eng with materialized := ainsert eng.materialized name query }

/-- `QueryEngine::subscribe`. -/
def subscribe (eng : QueryEngine) (name query : String) : QueryEngine :=
  { eng with subscriptions := ainsert eng.subscriptions name query }

/-- `QueryEngine::unsubscribe`. -/
def unsubscribe (eng : QueryEngine) (name : String) : QueryEngine :=
  { eng with subscriptions := aremove eng.subscriptions name }

/-- The materialized-view loop of `on_tick` (step 1): re-evaluate each view
in order, overwriting its catalog entry (table results only) before the
next view runs; the first failure aborts. -/
def runViews (ctx : EvalContext) : List (String × String) → Except PiqlError EvalContext
  | [] => .ok ctx
  | (name, query) :: rest =>
    match run query ctx with
    | .error e => .error e
    | .ok (.dataFrame lf _) =>
      match collectLF lf with
      | .error e => .error (.evalE e)
      | .ok collected =>
        runViews { ctx with dataframes := ainsert ctx.dataframes name ⟨collected, none⟩ } rest
    | .ok _ => runViews ctx rest

/-- The subscription loop of `on_tick` (step 2): evaluate every
subscription against the final catalog, collecting table results into the
result mapping; the first failure aborts. -/
def runSubs (ctx : EvalContext) : List (String × String) →
    Except PiqlError (List (String × DF))
  | [] => .ok []
  | (name, query) :: rest =>
    match run query ctx with
    | .error e => .error e
    | .ok (.dataFrame lf _) =>
      match collectLF lf with
      | .error e => .error (.evalE e)
      | .ok collected =>
        match runSubs ctx rest with
        | .error e => .error e
        | .ok rest2 => .ok (ainsert rest2 name collected)
    | .ok _ => runSubs ctx rest

/-- `QueryEngine::on_tick`: set the context tick, re-evaluate materialized
views in insertion order, then evaluate subscriptions and return their
table results.  (Rust mutates `self` in place; the model returns the
updated engine on success.) -/
def onTick (eng : QueryEngine) (tick : Int) :
    Except PiqlError (QueryEngine × List (String × DF)) :=
  let ctx0 := { eng.ctx with tick := some tick }
  match runViews ctx0 eng.materialized with
  | .error e => .error e
  | .ok ctx1 =>
    match runSubs ctx1 eng.subscriptions with
    | .error e => .error e
    | .ok results => .ok ({ eng with ctx := ctx1 }, results)

/-- `QueryEngine::query`. -/
def query (eng : QueryEngine) (q : String) : Except PiqlError Value :=
  run q eng.ctx

/-- `QueryEngine::tick`. -/
def tick (eng : QueryEngine) : Option Int := eng.ctx.tick

/-- `QueryEngine::set_tick`. -/
def setTick (eng : QueryEngine) (t : Int) : QueryEngine :=
  { eng with ctx := { eng.ctx with tick := some t } }

/-- `QueryEngine::set_default_tick_column`. -/
def setDefaultTickColumn (eng : QueryEngine) (c : String) : QueryEngine :=
  { eng with ctx := { eng.ctx with defaultTickColumn := some c } }

/-- `QueryEngine::set_default_partition_key`. -/
def setDefaultPartitionKey (eng : QueryEngine) (k : String) : QueryEngine :=
  { eng with ctx := { eng.ctx with defaultPartitionKey := some k } }

/-- `QueryEngine::dataframe_names`. -/
def dataframeNames (eng : QueryEngine) : List String :=
  eng.ctx.dataframes.map Prod.fst

end QueryEngine

end Piql

namespace Piql

-- ===================== Claims =============================================

/-- C10: when `eval` is applied directly to a core `List` node, a
non-empty list evaluates to the value of its first element only (all
remaining elements are ignored), and the empty list fails with an error. -/
theorem claim_eval_list_head_only :
    (∀ ctx : EvalContext, eval (.list []) ctx = .error (.other "Empty list")) ∧
    (∀ (x : CoreExpr) (xs : List CoreExpr) (ctx : EvalContext),
      eval (.list (x :: xs)) ctx = eval x ctx) := by
  constructor
  · intro ctx
    rw [eval, evalList]
  · intro x xs ctx
    rw [eval, evalList]

/-- C7: the transform is a total function into `CoreExpr` (it cannot
return an error); a directive whose name is not registered becomes an
`Invalid` node carrying exactly `"Unknown directive: @name"`, and that
error surfaces at evaluation time: `eval` of an `Invalid` node is a
runtime error carrying the embedded message. -/
theorem claim_unknown_directive_invalid :
    (∀ (registry : SugarRegistry) (ctx : SugarContext) (name : String)
        (args : List SurfaceArg),
      alookup registry.directives name = none →
      transformExpr registry ctx (.directive name args) =
        .invalid ("Unknown directive: @" ++ name)) ∧
    (∀ (msg : String) (ectx : EvalContext),
      eval (.invalid msg) ectx = .error (.other msg)) := by
  constructor
  · intro registry ctx name args hnone
    rw [transformExpr]
    simp [SugarRegistry.expandDirective, hnone]
  · intro msg ectx
    rw [eval]

/-- Witness for C7 at a concrete input: the fresh registry has no
directives, so `@merchant` becomes the Invalid node and evaluates to the
error. -/
theorem claim_unknown_directive_invalid_witness :
    alookup SugarRegistry.new.directives "merchant" = none ∧
    transformExpr SugarRegistry.new SugarContext.new (.directive "merchant" []) =
      .invalid ("Unknown directive: @" ++ "merchant") ∧
    eval (.invalid "Unknown directive: @merchant") EvalContext.new =
      .error (.other "Unknown directive: @merchant") :=
  ⟨rfl,
   claim_unknown_directive_invalid.1 SugarRegistry.new SugarContext.new "merchant" [] rfl,
   claim_unknown_directive_invalid.2 "Unknown directive: @merchant" EvalContext.new⟩

/-- C9: the built-in column-method sugar: `$c.delta` (no arguments, as
attribute or empty call) expands to `pl.col("c").diff().over(partition)`;
`$c.delta(n)` expands to `pl.col("c") - pl.col("c").shift(n).over(partition)`;
`$c.pct(n)` expands to
`(pl.col("c") - pl.col("c").shift(n).over(partition)) / pl.col("c").shift(n).over(partition)`;
`partition` is the context partition key with fallback literal
`"entity_id"`. -/
theorem claim_builtin_col_method_expansion (ctx : SugarContext) (c : String) :
    (transformExpr SugarRegistry.new ctx (.attr (.colShorthand c) "delta") =
      .call (.attr (.call (.attr (buildPlCol c) "diff") []) "over")
        [.positional (.literal (.str (ctx.partitionKey.getD "entity_id")))]) ∧
    (transformExpr SugarRegistry.new ctx (.call (.attr (.colShorthand c) "delta") []) =
      .call (.attr (.call (.attr (buildPlCol c) "diff") []) "over")
        [.positional (.literal (.str (ctx.partitionKey.getD "entity_id")))]) ∧
    (∀ nE : SurfaceExpr,
      transformExpr SugarRegistry.new ctx
          (.call (.attr (.colShorthand c) "delta") [.positional nE]) =
        .binaryOp (buildPlCol c) .sub
          (.call (.attr (.call (.attr (buildPlCol c) "shift")
              [.positional (transformExpr SugarRegistry.new ctx nE)]) "over")
            [.positional (.literal (.str (ctx.partitionKey.getD "entity_id")))])) ∧
    (∀ nE : SurfaceExpr,
      transformExpr SugarRegistry.new ctx
          (.call (.attr (.colShorthand c) "pct") [.positional nE]) =
        .binaryOp
          (.binaryOp (buildPlCol c) .sub
            (.call (.attr (.call (.attr (buildPlCol c) "shift")
                [.positional (transformExpr SugarRegistry.new ctx nE)]) "over")
              [.positional (.literal (.str (ctx.partitionKey.getD "entity_id")))]))
          .div
          (.call (.attr (.call (.attr (buildPlCol c) "shift")
              [.positional (transformExpr SugarRegistry.new ctx nE)]) "over")
            [.positional (.literal (.str (ctx.partitionKey.getD "entity_id")))])) := by
  refine ⟨?_, ?_, ?_, ?_⟩
  · rw [transformExpr]
    simp [SugarRegistry.expandColMethod, SugarRegistry.new,
      SugarRegistry.registerColMethod, ainsert, alookup, deltaHandler,
      sugarHelpers.methodCall, sugarHelpers.litStr]
  · rw [transformExpr]
    simp [whenChainOf, SugarRegistry.expandColMethod, SugarRegistry.new,
      SugarRegistry.registerColMethod, ainsert, alookup, deltaHandler,
      sugarHelpers.methodCall, sugarHelpers.litStr]
  · intro nE
    rw [transformExpr]
    simp [whenChainOf, SugarRegistry.expandColMethod, SugarRegistry.new,
      SugarRegistry.registerColMethod, ainsert, alookup, deltaHandler,
      sugarHelpers.methodCall, sugarHelpers.binop, sugarHelpers.litStr]
  · intro nE
    rw [transformExpr]
    simp [whenChainOf, SugarRegistry.expandColMethod, SugarRegistry.new,
      SugarRegistry.registerColMethod, ainsert, alookup, pctHandler,
      sugarHelpers.methodCall, sugarHelpers.binop, sugarHelpers.litStr]

end Piql

namespace Piql

/-- Counterexample context for C5: `t` is registered as a base table but
has no appended data (`now` is `None`) and no catalog entry. -/
def c5ctx : EvalContext :=
  EvalContext.new.registerBaseTable "t" ⟨"tick", "entity_id"⟩

/-- C5 counterexample: `t` is registered as a base table, yet evaluating
the identifier does not return a Table backed by a `now` plan — it fails
with `UnknownIdent` (the base-table branch requires appended data, and the
claim as stated is false for a registered-but-empty base table). -/
theorem claim_ident_resolution_counterexample :
    c5ctx.isBaseTable "t" = true ∧
    eval (.ident "t") c5ctx = .error (.unknownIdent "t") := by
  constructor
  · rfl
  · rw [eval]
    rfl

/-- C5 (amended): identifier evaluation: `pl` yields the namespace value;
any other name resolves through the base-table map first — a base table
**with appended data** yields a Table backed by its `now` plan with
lineage `Table(name)`; otherwise the catalog yields a Table over the
materialized snapshot; otherwise `UnknownIdent`. -/
theorem claim_ident_resolution (ctx : EvalContext) (name : String) :
    (eval (.ident "pl") ctx = .ok .plNamespace) ∧
    (∀ p, name ≠ "pl" → ctx.getBaseNow name = some p →
      eval (.ident name) ctx = .ok (.dataFrame p (.table name))) ∧
    (∀ entry, name ≠ "pl" → ctx.getBaseNow name = none →
      alookup ctx.dataframes name = some entry →
      eval (.ident name) ctx = .ok (.dataFrame entry.df.lazy (.table name))) ∧
    (name ≠ "pl" → ctx.getBaseNow name = none →
      alookup ctx.dataframes name = none →
      eval (.ident name) ctx = .error (.unknownIdent name)) := by
  refine ⟨?_, ?_, ?_, ?_⟩
  · rw [eval]
    rfl
  · intro p hpl hnow
    rw [eval, evalIdent]
    simp [hpl, hnow]
  · intro entry hpl hnow hdf
    rw [eval, evalIdent]
    simp [hpl, hnow, hdf]
  · intro hpl hnow hdf
    rw [eval, evalIdent]
    simp [hpl, hnow, hdf]

/-- Witness context for C5: a base table `b` with data, a catalog table
`d`, and an unknown name `z`. -/
def c5wctx : EvalContext :=
  { EvalContext.new with
    baseTables := [("b", ⟨some (.source ⟨[("tick", .int64)], []⟩),
                         some (.source ⟨[("tick", .int64)], []⟩),
                         ⟨"tick", "entity_id"⟩⟩)],
    dataframes := [("d", ⟨⟨[("x", .int64)], []⟩, none⟩)] }

/-- Witness for C5 at concrete inputs. -/
theorem claim_ident_resolution_witness :
    eval (.ident "pl") c5wctx = .ok .plNamespace ∧
    eval (.ident "b") c5wctx =
      .ok (.dataFrame (.source ⟨[("tick", .int64)], []⟩) (.table "b")) ∧
    eval (.ident "d") c5wctx =
      .ok (.dataFrame (DF.lazy ⟨[("x", .int64)], []⟩) (.table "d")) ∧
    eval (.ident "z") c5wctx = .error (.unknownIdent "z") :=
  ⟨(claim_ident_resolution c5wctx "b").1,
   (claim_ident_resolution c5wctx "b").2.1 _ (by simp) rfl,
   (claim_ident_resolution c5wctx "d").2.2.1 _ (by simp) rfl rfl,
   (claim_ident_resolution c5wctx "z").2.2.2 (by simp) rfl rfl⟩

end Piql

namespace Piql

/-- Every success of the `join` table method carries `Ambiguous` lineage
(helper for C4). -/
theorem evalDfMethod_join_ambiguous {df : LF} {lin : DataFrameLineage}
    {args : List CoreArg} {ctx : EvalContext} {b : Bool} {v : Value}
    (h : evalDfMethod df lin "join" args ctx b = .ok v) :
    ∃ lf, v = .dataFrame lf .ambiguous := by
  rw [evalDfMethod] at h
  simp only [String.reduceEq, reduceIte] at h
  split at h
  · cases h
  · rename_i otherExpr heq
    split at h
    · cases h
    · rename_i otherVal heval
      split at h
      · rename_i other lin2
        split at h
        · cases h
        · rename_i jt hjt
          split at h
          · rename_i onCols hon
            cases h
            exact ⟨_, rfl⟩
          · split at h
            · cases h
            · rename_i leftCols hleft
              split at h
              · cases h
              · cases h
                exact ⟨_, rfl⟩
      · cases h

/-- The concrete scope-method error message on ambiguous lineage (helper
for C4). -/
theorem resolveScopeTickColumn_ambiguous (ctx : EvalContext) (m : String) :
    resolveScopeTickColumn .ambiguous ctx m =
      .error (.other ("." ++ m ++
        "() has ambiguous lineage; call .at/.since/.window before joins or configure an explicit tick column")) := by
  rw [resolveScopeTickColumn]
  simp

/-- "the message contains the word ambiguous" (helper for C4). -/
theorem ambiguous_mem_scope_message (m : String) :
    "ambiguous".toList <:+: ("." ++ m ++
      "() has ambiguous lineage; call .at/.since/.window before joins or configure an explicit tick column").toList := by
  refine ⟨("." ++ m ++ "() has ").toList,
    " lineage; call .at/.since/.window before joins or configure an explicit tick column".toList, ?_⟩
  simp [String.toList, String.data_append]

end Piql

namespace Piql

/-- Dispatch-level helper for C4: any successful `.join(...)` method call
produces `Ambiguous` lineage, whatever the receiver evaluates to. -/
theorem evalMethodCallDispatch_join_ambiguous {base : CoreExpr} {args : List CoreArg}
    {ctx : EvalContext} {v : Value}
    (h : evalMethodCallDispatch base "join" args ctx = .ok v) :
    ∃ lf, v = .dataFrame lf .ambiguous := by
  rw [evalMethodCallDispatch] at h
  split at h
  · cases h
  · split at h
    · rw [evalPlFunction.eq_def] at h
      rw [if_neg (by decide), if_neg (by decide), if_neg (by decide)] at h
      cases h
    · exact evalDfMethod_join_ambiguous h
    · rw [evalGroupbyMethod.eq_def] at h
      rw [if_neg (by decide)] at h
      cases h
    · rw [evalExprMethod.eq_def] at h
      simp only [String.reduceEq, reduceIte] at h
      cases h
    · cases h

/-- C4: `join` always yields a table with `Ambiguous` lineage; a scope
method (`at`, `since`, `window`) dispatched on a table value with
`Ambiguous` lineage fails with an error whose message contains the word
"ambiguous"; and applying the scope method before the join
(`X.at(n).join(Y, on=...)`) succeeds, producing the join plan (again with
`Ambiguous` lineage). -/
theorem claim_join_ambiguous_scope_guard :
    (∀ (recv : CoreExpr) (args : List CoreArg) (ctx : EvalContext) (v : Value),
      eval (.call (.attr recv "join") args) ctx = .ok v →
      ∃ lf, v = .dataFrame lf .ambiguous) ∧
    (∀ (df : LF) (args : List CoreArg) (ctx : EvalContext) (b : Bool) (n : Int)
        (m : String), (m = "at" ∨ m = "since") →
      getIntArg args 0 m = .ok n →
      ∃ msg, evalDfMethod df .ambiguous m args ctx b = .error (.other msg) ∧
        "ambiguous".toList <:+: msg.toList) ∧
    (∀ (df : LF) (args : List CoreArg) (ctx : EvalContext) (b : Bool) (a bb t : Int),
      getIntArg args 0 "window" = .ok a →
      getIntArg args 1 "window" = .ok bb →
      ctx.tick = some t →
      ∃ msg, evalDfMethod df .ambiguous "window" args ctx b = .error (.other msg) ∧
        "ambiguous".toList <:+: msg.toList) ∧
    (∀ (ctx : EvalContext) (X Y : CoreExpr) (n : Int) (onCol : String) (d other : LF)
        (lin lin2 : DataFrameLineage),
      eval (.call (.attr X "at") [.positional (.literal (.int n))]) ctx =
        .ok (.dataFrame d lin) →
      eval Y ctx = .ok (.dataFrame other lin2) →
      eval (.call (.attr (.call (.attr X "at") [.positional (.literal (.int n))]) "join")
          [.positional Y, .keyword "on" (.literal (.str onCol))]) ctx =
        .ok (.dataFrame (.joinL d other [.colE onCol] [.colE onCol] .inner) .ambiguous)) := by
  refine ⟨?_, ?_, ?_, ?_⟩
  · intro recv args ctx v h
    rw [eval, evalCall] at h
    simp only [attrParts] at h
    rw [evalMethodCall.eq_def] at h
    split at h
    · rename_i p hp
      split at h
      · rw [evalStrBranch] at h
        split at h
        · cases h
        · simp [evalStrMethod] at h
      · split at h
        · rw [evalDtBranch] at h
          split at h
          · cases h
          · simp [evalDtMethod] at h
        · exact evalMethodCallDispatch_join_ambiguous h
    · exact evalMethodCallDispatch_join_ambiguous h
  · intro df args ctx b n m hm hn
    rcases hm with hm | hm <;> subst hm
    · refine ⟨_, ?_, ambiguous_mem_scope_message "at"⟩
      rw [evalDfMethod.eq_def]
      simp only [String.reduceEq, reduceIte]
      rw [hn]
      simp [resolveScopeTickColumn_ambiguous]
    · refine ⟨_, ?_, ambiguous_mem_scope_message "since"⟩
      rw [evalDfMethod.eq_def]
      simp only [String.reduceEq, reduceIte]
      rw [hn]
      simp [resolveScopeTickColumn_ambiguous]
  · intro df args ctx b a bb t ha hb ht
    refine ⟨_, ?_, ambiguous_mem_scope_message "window"⟩
    rw [evalDfMethod.eq_def]
    simp only [String.reduceEq, reduceIte]
    rw [ha, hb, ht]
    simp [resolveScopeTickColumn_ambiguous]
  · intro ctx X Y n onCol d other lin lin2 hat hy
    rw [eval, evalCall]
    simp only [attrParts]
    rw [evalMethodCall.eq_def]
    simp only [attrParts]
    rw [evalMethodCallDispatch, hat]
    show evalDfMethod d lin "join"
        [Arg.positional Y, Arg.keyword "on" (CoreExpr.literal (.str onCol))] ctx
        (isDirectIdent ((CoreExpr.attr X "at").call
          [Arg.positional (CoreExpr.literal (.int n))])) = _
    rw [evalDfMethod.eq_def]
    simp only [String.reduceEq, reduceIte]
    have hpos : getPositionalArg
        [Arg.positional Y, Arg.keyword "on" (CoreExpr.literal (.str onCol))]
        0 "join" = .ok Y := rfl
    split
    · rename_i heq
      rw [hpos] at heq
      cases heq
    · rename_i otherExpr heq
      rw [hpos] at heq
      cases heq
      split
      · rename_i heq2
        rw [hy] at heq2
        cases heq2
      · rename_i otherVal heq2
        rw [hy] at heq2
        cases heq2
        rfl

end Piql

namespace Piql

/-- Witness base plan for the `t` table in the C4 witness context. -/
def c4SrcT : LF := .source ⟨[("tick", .int64), ("k", .int64)], []⟩

/-- Witness base plan for the `u` table in the C4 witness context. -/
def c4SrcU : LF := .source ⟨[("k", .int64), ("v", .int64)], []⟩

/-- Witness context for C4: base tables `t` and `u` with data and a
current tick. -/
def c4wctx : EvalContext :=
  { EvalContext.new with
    baseTables := [("t", ⟨some c4SrcT, some c4SrcT, ⟨"tick", "entity_id"⟩⟩),
                   ("u", ⟨some c4SrcU, some c4SrcU, ⟨"tick", "entity_id"⟩⟩)],
    tick := some 3 }

/-- The plan produced by `t.at(1)` in the C4 witness context. -/
def c4AtPlan : LF := .filterL c4SrcT (.eqF (.colE "tick") (.litE (.int 1)))

/-- Concrete evaluation of `u` in the C4 witness context. -/
theorem c4_u_eval : eval (.ident "u") c4wctx = .ok (.dataFrame c4SrcU (.table "u")) := by
  rw [eval]
  rfl

/-- Concrete evaluation of `t.at(1)` in the C4 witness context. -/
theorem c4_at_eval :
    eval (.call (.attr (.ident "t") "at") [.positional (.literal (.int 1))]) c4wctx =
      .ok (.dataFrame c4AtPlan (.derivedFrom "t")) := by
  have hident : eval (.ident "t") c4wctx = .ok (.dataFrame c4SrcT (.table "t")) := by
    rw [eval]
    rfl
  rw [eval, evalCall]
  simp only [attrParts]
  rw [evalMethodCall.eq_def]
  simp only [attrParts]
  rw [evalMethodCallDispatch, hident]
  show evalDfMethod c4SrcT (.table "t") "at"
      [Arg.positional (CoreExpr.literal (.int 1))] c4wctx
      (isDirectIdent (CoreExpr.ident "t")) = _
  rw [evalDfMethod.eq_def]
  rfl

/-- Witness for C4 at concrete inputs. -/
theorem claim_join_ambiguous_scope_guard_witness :
    (∃ lf, (Value.dataFrame (LF.joinL c4AtPlan c4SrcU [.colE "k"] [.colE "k"] .inner)
      .ambiguous) = Value.dataFrame lf .ambiguous) ∧
    (∃ msg, evalDfMethod c4SrcT .ambiguous "at" [.positional (.literal (.int 1))]
        c4wctx true = .error (.other msg) ∧ "ambiguous".toList <:+: msg.toList) ∧
    (∃ msg, evalDfMethod c4SrcT .ambiguous "window"
        [.positional (.literal (.int 1)), .positional (.literal (.int 2))]
        c4wctx true = .error (.other msg) ∧ "ambiguous".toList <:+: msg.toList) ∧
    eval (.call (.attr (.call (.attr (.ident "t") "at") [.positional (.literal (.int 1))])
        "join") [.positional (.ident "u"), .keyword "on" (.literal (.str "k"))]) c4wctx =
      .ok (.dataFrame (.joinL c4AtPlan c4SrcU [.colE "k"] [.colE "k"] .inner) .ambiguous) := by
  have h4 := claim_join_ambiguous_scope_guard.2.2.2 c4wctx (.ident "t") (.ident "u") 1 "k"
    c4AtPlan c4SrcU (.derivedFrom "t") (.table "u") c4_at_eval c4_u_eval
  exact ⟨claim_join_ambiguous_scope_guard.1 _ _ _ _ h4,
    claim_join_ambiguous_scope_guard.2.1 c4SrcT [.positional (.literal (.int 1))]
      c4wctx true 1 "at" (Or.inl rfl) rfl,
    claim_join_ambiguous_scope_guard.2.2.1 c4SrcT
      [.positional (.literal (.int 1)), .positional (.literal (.int 2))]
      c4wctx true 1 2 3 rfl rfl rfl,
    h4⟩

end Piql

namespace Piql

/-- The integer entry of a row in a given column, if present. -/
def rowTickInt (tc : String) (r : Row) : Option Int :=
  match alookup r tc with
  | some (.int k) => some k
  | _ => none

/-- `filter` semantics for a row-local predicate that is boolean on every
row with an integer entry in column `tc`. -/
theorem filterRows_rowTick (tc : String) (pred : PExpr) (p : Int → Bool)
    (hcell : ∀ (r : Row) (k : Int), alookup r tc = some (.int k) →
      evalCell r pred = .ok (.bool (p k))) :
    ∀ rows : List Row, (∀ r ∈ rows, (rowTickInt tc r).isSome) →
      filterRows rows pred = .ok (rows.filter (fun r =>
        match rowTickInt tc r with
        | some k => p k
        | none => false)) := by
  intro rows
  induction rows with
  | nil => intro _; rfl
  | cons r rest ih =>
    intro hall
    have hr := hall r (by simp)
    match hk : rowTickInt tc r with
    | some k =>
      have hlook : alookup r tc = some (.int k) := by
        rw [rowTickInt] at hk
        split at hk
        · cases hk; assumption
        · cases hk
      rw [filterRows, hcell r k hlook, ih (fun x hx => hall x (by simp [hx]))]
      cases hp : p k <;> simp [Bind.bind, Except.bind, Pure.pure, Except.pure, hk, hp,
        List.filter_cons]
    | none =>
      rw [hk] at hr
      cases hr

/-- Row-wise value of the equality predicate the `at` method builds. -/
theorem c3cell_at (tc : String) (n : Int) :
    ∀ (r : Row) (k : Int), alookup r tc = some (.int k) →
      evalCell r (PExpr.eqF (.colE tc) (.litE (.int n))) = .ok (.bool (decide (k = n))) := by
  intro r k hk
  simp [PExpr.eqF, evalCell, hk, compareVals, Bind.bind, Except.bind, Pure.pure, Except.pure,
    compare_eq_iff_eq]

/-- Row-wise value of the `>=` predicate the `since` method builds. -/
theorem c3cell_since (tc : String) (n : Int) :
    ∀ (r : Row) (k : Int), alookup r tc = some (.int k) →
      evalCell r (PExpr.gtEqF (.colE tc) (.litE (.int n))) = .ok (.bool (decide (n ≤ k))) := by
  intro r k hk
  simp [PExpr.gtEqF, evalCell, hk, compareVals, Bind.bind, Except.bind, Pure.pure, Except.pure,
    compare_lt_iff_lt, not_lt]

/-- Row-wise value of the closed-interval predicate the `window` method
builds. -/
theorem c3cell_window (tc : String) (lo hi : Int) :
    ∀ (r : Row) (k : Int), alookup r tc = some (.int k) →
      evalCell r (PExpr.isBetweenF (.colE tc) (.litE (.int lo)) (.litE (.int hi))) =
        .ok (.bool (decide (lo ≤ k ∧ k ≤ hi))) := by
  intro r k hk
  simp [PExpr.isBetweenF, evalCell, hk, compareVals, Bind.bind, Except.bind, Pure.pure,
    Except.pure, compare_lt_iff_lt, compare_gt_iff_gt, not_lt]

/-- C3: on a table whose lineage resolves a tick column, `.at(n)` filters
the scope target on tick-column equality with `n`, `.since(n)` on
tick-column `>= n`, and `.window(a, b)` (given a current tick `t`) on the
closed interval `[t+a, t+b]`; on a materialized source every such filter
keeps exactly the rows whose tick column satisfies the comparison; and
when the receiver is a bare identifier naming a registered base table
with data the scope target is that table's `all` snapshot, while a
non-identifier receiver keeps its own plan. -/
theorem claim_scope_methods :
    (∀ (df : LF) (lin : DataFrameLineage) (args : List CoreArg) (ctx : EvalContext)
        (b : Bool) (n : Int) (tc : String),
      getIntArg args 0 "at" = .ok n →
      resolveScopeTickColumn lin ctx "at" = .ok tc →
      evalDfMethod df lin "at" args ctx b =
        .ok (.dataFrame (.filterL (scopeTargetDf df lin ctx b)
          (PExpr.eqF (.colE tc) (.litE (.int n)))) lin.derived)) ∧
    (∀ (df : LF) (lin : DataFrameLineage) (args : List CoreArg) (ctx : EvalContext)
        (b : Bool) (n : Int) (tc : String),
      getIntArg args 0 "since" = .ok n →
      resolveScopeTickColumn lin ctx "since" = .ok tc →
      evalDfMethod df lin "since" args ctx b =
        .ok (.dataFrame (.filterL (scopeTargetDf df lin ctx b)
          (PExpr.gtEqF (.colE tc) (.litE (.int n)))) lin.derived)) ∧
    (∀ (df : LF) (lin : DataFrameLineage) (args : List CoreArg) (ctx : EvalContext)
        (b : Bool) (a bb t : Int) (tc : String),
      getIntArg args 0 "window" = .ok a →
      getIntArg args 1 "window" = .ok bb →
      ctx.tick = some t →
      resolveScopeTickColumn lin ctx "window" = .ok tc →
      evalDfMethod df lin "window" args ctx b =
        .ok (.dataFrame (.filterL (scopeTargetDf df lin ctx b)
          (PExpr.isBetweenF (.colE tc) (.litE (.int (t + a))) (.litE (.int (t + bb)))))
          lin.derived)) ∧
    (∀ (d : DF) (tc : String) (n : Int),
      (∀ r ∈ d.rows, (rowTickInt tc r).isSome) →
      collectLF (.filterL (.source d) (PExpr.eqF (.colE tc) (.litE (.int n)))) =
        .ok { d with rows := d.rows.filter (fun r =>
          match rowTickInt tc r with
          | some k => decide (k = n)
          | none => false) }) ∧
    (∀ (d : DF) (tc : String) (n : Int),
      (∀ r ∈ d.rows, (rowTickInt tc r).isSome) →
      collectLF (.filterL (.source d) (PExpr.gtEqF (.colE tc) (.litE (.int n)))) =
        .ok { d with rows := d.rows.filter (fun r =>
          match rowTickInt tc r with
          | some k => decide (n ≤ k)
          | none => false) }) ∧
    (∀ (d : DF) (tc : String) (lo hi : Int),
      (∀ r ∈ d.rows, (rowTickInt tc r).isSome) →
      collectLF (.filterL (.source d)
          (PExpr.isBetweenF (.colE tc) (.litE (.int lo)) (.litE (.int hi)))) =
        .ok { d with rows := d.rows.filter (fun r =>
          match rowTickInt tc r with
          | some k => decide (lo ≤ k ∧ k ≤ hi)
          | none => false) }) ∧
    (∀ (df : LF) (name : String) (ctx : EvalContext) (entry : BaseTableEntry) (allDf : LF),
      alookup ctx.baseTables name = some entry →
      entry.all = some allDf →
      scopeTargetDf df (.table name) ctx (isDirectIdent (.ident name)) = allDf) ∧
    (∀ (df : LF) (lin : DataFrameLineage) (ctx : EvalContext),
      scopeTargetDf df lin ctx false = df) := by
  refine ⟨?_, ?_, ?_, ?_, ?_, ?_, ?_, ?_⟩
  · intro df lin args ctx b n tc hn htc
    rw [evalDfMethod.eq_def]
    simp only [String.reduceEq, reduceIte]
    rw [hn, htc]
    rfl
  · intro df lin args ctx b n tc hn htc
    rw [evalDfMethod.eq_def]
    simp only [String.reduceEq, reduceIte]
    rw [hn, htc]
    rfl
  · intro df lin args ctx b a bb t tc ha hb ht htc
    rw [evalDfMethod.eq_def]
    simp only [String.reduceEq, reduceIte]
    rw [ha, hb, ht, htc]
    rfl
  · intro d tc n hall
    have hfr := filterRows_rowTick tc _ (fun k => decide (k = n)) (c3cell_at tc n) d.rows hall
    simp [collectLF, hfr, Bind.bind, Except.bind, Pure.pure, Except.pure]
  · intro d tc n hall
    have hfr := filterRows_rowTick tc _ (fun k => decide (n ≤ k)) (c3cell_since tc n) d.rows hall
    simp [collectLF, hfr, Bind.bind, Except.bind, Pure.pure, Except.pure]
  · intro d tc lo hi hall
    have hfr := filterRows_rowTick tc _ (fun k => decide (lo ≤ k ∧ k ≤ hi))
      (c3cell_window tc lo hi) d.rows hall
    simp [collectLF, hfr, Bind.bind, Except.bind, Pure.pure, Except.pure]
  · intro df name ctx entry allDf he ha
    simp [scopeTargetDf, isDirectIdent, DataFrameLineage.sourceName, he, ha]
  · intro df lin ctx
    simp [scopeTargetDf]

end Piql

namespace Piql

/-- Witness `now` plan for the C3 context. -/
def c3Src : LF := .source ⟨[("tick", .int64)], [[("tick", .int 1)]]⟩

/-- Witness `all` plan for the C3 context. -/
def c3All : LF := .source ⟨[("tick", .int64)], [[("tick", .int 1)], [("tick", .int 2)]]⟩

/-- Witness base-table entry for C3. -/
def c3Entry : BaseTableEntry := ⟨some c3All, some c3Src, ⟨"tick", "entity_id"⟩⟩

/-- Witness context for C3: base table `t` with data and a current tick. -/
def c3wctx : EvalContext :=
  { EvalContext.new with baseTables := [("t", c3Entry)], tick := some 3 }

/-- Witness materialized frame for the C3 semantics clauses. -/
def c3D : DF := ⟨[("tick", .int64)], [[("tick", .int 1)], [("tick", .int 2)], [("tick", .int 3)]]⟩

/-- Witness for C3 at concrete inputs. -/
theorem claim_scope_methods_witness :
    (evalDfMethod c3Src (.table "t") "at" [.positional (.literal (.int 1))] c3wctx true =
      .ok (.dataFrame (.filterL (scopeTargetDf c3Src (.table "t") c3wctx true)
        (PExpr.eqF (.colE "tick") (.litE (.int 1)))) (DataFrameLineage.table "t").derived)) ∧
    (evalDfMethod c3Src (.table "t") "since" [.positional (.literal (.int 2))] c3wctx true =
      .ok (.dataFrame (.filterL (scopeTargetDf c3Src (.table "t") c3wctx true)
        (PExpr.gtEqF (.colE "tick") (.litE (.int 2)))) (DataFrameLineage.table "t").derived)) ∧
    (evalDfMethod c3Src (.table "t") "window"
        [.positional (.literal (.int (-1))), .positional (.literal (.int 0))] c3wctx true =
      .ok (.dataFrame (.filterL (scopeTargetDf c3Src (.table "t") c3wctx true)
        (PExpr.isBetweenF (.colE "tick") (.litE (.int (3 + (-1)))) (.litE (.int (3 + 0)))))
        (DataFrameLineage.table "t").derived)) ∧
    (collectLF (.filterL (.source c3D) (PExpr.eqF (.colE "tick") (.litE (.int 2)))) =
      .ok { c3D with rows := c3D.rows.filter (fun r =>
        match rowTickInt "tick" r with
        | some k => decide (k = 2)
        | none => false) }) ∧
    (collectLF (.filterL (.source c3D) (PExpr.gtEqF (.colE "tick") (.litE (.int 2)))) =
      .ok { c3D with rows := c3D.rows.filter (fun r =>
        match rowTickInt "tick" r with
        | some k => decide ((2 : Int) ≤ k)
        | none => false) }) ∧
    (collectLF (.filterL (.source c3D)
        (PExpr.isBetweenF (.colE "tick") (.litE (.int 2)) (.litE (.int 3)))) =
      .ok { c3D with rows := c3D.rows.filter (fun r =>
        match rowTickInt "tick" r with
        | some k => decide ((2 : Int) ≤ k ∧ k ≤ 3)
        | none => false) }) ∧
    scopeTargetDf c3Src (.table "t") c3wctx (isDirectIdent (.ident "t")) = c3All ∧
    scopeTargetDf c3Src (.table "t") c3wctx false = c3Src :=
  ⟨claim_scope_methods.1 c3Src (.table "t") [.positional (.literal (.int 1))] c3wctx true
      1 "tick" rfl rfl,
   claim_scope_methods.2.1 c3Src (.table "t") [.positional (.literal (.int 2))] c3wctx true
      2 "tick" rfl rfl,
   claim_scope_methods.2.2.1 c3Src (.table "t")
      [.positional (.literal (.int (-1))), .positional (.literal (.int 0))] c3wctx true
      (-1) 0 3 "tick" rfl rfl rfl rfl,
   claim_scope_methods.2.2.2.1 c3D "tick" 2 (by decide),
   claim_scope_methods.2.2.2.2.1 c3D "tick" 2 (by decide),
   claim_scope_methods.2.2.2.2.2.1 c3D "tick" 2 3 (by decide),
   claim_scope_methods.2.2.2.2.2.2.1 c3Src "t" c3wctx c3Entry c3All rfl rfl,
   claim_scope_methods.2.2.2.2.2.2.2 c3Src (.table "t") c3wctx⟩

end Piql

namespace Piql

set_option maxRecDepth 8000 in
set_option maxHeartbeats 2000000 in
/-- C8: the parse/pretty round-trip law fails. `@f (1)` parses as a call
whose callee is the zero-argument directive `@f`; pretty-printing that
tree yields `@f(1)`, which re-parses as the one-argument directive — a
different tree. -/
theorem claim_parse_pretty_roundtrip :
    parse "@f (1)" = .ok (.call (.directive "f" []) [.positional (.literal (.int 1))]) ∧
    pretty (.call (.directive "f" []) [.positional (.literal (.int 1))]) 80 = "@f(1)" ∧
    parse "@f(1)" = .ok (.directive "f" [.positional (.literal (.int 1))]) ∧
    (SurfaceExpr.call (.directive "f" []) [.positional (.literal (.int 1))]) ≠
      (SurfaceExpr.directive "f" [.positional (.literal (.int 1))]) := by
  refine ⟨?_, ?_, ?_, ?_⟩
  · rfl
  · rfl
  · rfl
  · exact fun h => SurfaceExpr.noConfusion h

end Piql

namespace Piql

/-- One `.when(c).then(v)` step wrapped around an existing chain callee. -/
def stepS (acc : SurfaceExpr) (b : SurfaceExpr × SurfaceExpr) : SurfaceExpr :=
  .call (.attr (.call (.attr acc "when") [.positional b.1]) "then") [.positional b.2]

/-- The surface chain `pl.when(f.1).then(f.2).when(..).then(..)...` with
branches `f :: rest` in source order. -/
def whenThenChainS (f : SurfaceExpr × SurfaceExpr)
    (rest : List (SurfaceExpr × SurfaceExpr)) : SurfaceExpr :=
  rest.foldl stepS (stepS (.ident "pl") f)

theorem tryExtractWhenChain_call {e : SurfaceExpr} {l : List (SurfaceExpr × SurfaceExpr)}
    (h : tryExtractWhenChain e = some l) : ∃ f a, e = .call f a := by
  cases e <;> first
    | exact ⟨_, _, rfl⟩
    | simp [tryExtractWhenChain] at h

theorem tryExtractWhenChain_base (c v : SurfaceExpr) :
    tryExtractWhenChain (stepS (.ident "pl") (c, v)) = some [(c, v)] := by
  rw [stepS, tryExtractWhenChain]
  simp [getSinglePositionalArg, isPlIdent]

theorem tryExtractWhenChain_snoc {w : SurfaceExpr} {l : List (SurfaceExpr × SurfaceExpr)}
    (hw : tryExtractWhenChain w = some l) (c v : SurfaceExpr) :
    tryExtractWhenChain (stepS w (c, v)) = some (l ++ [(c, v)]) := by
  obtain ⟨f, a, rfl⟩ := tryExtractWhenChain_call hw
  rw [stepS, tryExtractWhenChain]
  simp [getSinglePositionalArg, isPlIdent, hw]

theorem tryExtractWhenChain_foldl :
    ∀ (rest : List (SurfaceExpr × SurfaceExpr)) (acc : SurfaceExpr)
      (l : List (SurfaceExpr × SurfaceExpr)), tryExtractWhenChain acc = some l →
      tryExtractWhenChain (rest.foldl stepS acc) = some (l ++ rest) := by
  intro rest
  induction rest with
  | nil => intro acc l h; simpa using h
  | cons b rs ih =>
    intro acc l h
    have := ih (stepS acc b) (l ++ [b]) (by
      obtain ⟨c, v⟩ := b
      exact tryExtractWhenChain_snoc h c v)
    simpa using this

theorem whenThenChainS_extract (f : SurfaceExpr × SurfaceExpr)
    (rest : List (SurfaceExpr × SurfaceExpr)) :
    tryExtractWhenChain (whenThenChainS f rest) = some (f :: rest) := by
  obtain ⟨c, v⟩ := f
  have := tryExtractWhenChain_foldl rest (stepS (.ident "pl") (c, v)) [(c, v)]
    (tryExtractWhenChain_base c v)
  simpa [whenThenChainS] using this

end Piql

namespace Piql

set_option maxRecDepth 4000 in
theorem c6A (reg : SugarRegistry) (ctx : SugarContext) (f : SurfaceExpr × SurfaceExpr)
    (rest : List (SurfaceExpr × SurfaceExpr)) (e : SurfaceExpr) :
    transformExpr reg ctx (.call (.attr (whenThenChainS f rest) "otherwise")
        [.positional e]) =
      .whenThenOtherwise ((f :: rest).map (fun b =>
        (transformExpr reg ctx b.1, transformExpr reg ctx b.2)))
        (transformExpr reg ctx e) := by
  have hwc : whenChainOf (.attr (whenThenChainS f rest) "otherwise") =
      some (whenThenChainS f rest, f :: rest) := by
    simp [whenChainOf, whenThenChainS_extract]
  rw [transformExpr]
  split
  · rename_i fst chain heq
    rw [hwc] at heq
    cases heq
    split
    · rename_i heq2
      rw [show findPositionalArg [Arg.positional e] = some e from rfl] at heq2
      cases heq2
    · rename_i ov heq2
      rw [show findPositionalArg [Arg.positional e] = some e from rfl] at heq2
      cases heq2
      rw [List.attach_map_coe (f :: rest)
        (fun b => (transformExpr reg ctx b.1, transformExpr reg ctx b.2))]
  · rename_i heq
    rw [hwc] at heq
    cases heq

set_option maxRecDepth 4000 in
theorem c6C (reg : SugarRegistry) (ctx : SugarContext) (w : SurfaceExpr)
    (chain : List (SurfaceExpr × SurfaceExpr)) (args : List SurfaceArg)
    (hw : tryExtractWhenChain w = some chain) (hf : findPositionalArg args = none) :
    transformExpr reg ctx (.call (.attr w "otherwise") args) =
      .invalid "otherwise() requires an argument" := by
  have hwc : whenChainOf (.attr w "otherwise") = some (w, chain) := by
    simp [whenChainOf, hw]
  rw [transformExpr]
  split
  · rename_i fst chain2 heq
    rw [hwc] at heq
    cases heq
    split
    · rfl
    · rename_i ov heq2
      rw [hf] at heq2
      cases heq2
  · rename_i heq
    rw [hwc] at heq
    cases heq

end Piql

namespace Piql

/-- Pointwise evaluation of when/then branches to backend expression
pairs, in order. -/
def evalBranchesC6 (branches : List (CoreExpr × CoreExpr)) (ctx : EvalContext) :
    Except EvalError (List (PExpr × PExpr)) :=
  match branches with
  | [] => .ok []
  | (c, v) :: rest => do
    let ce ← evalToExpr c ctx
    let ve ← evalToExpr v ctx
    let rs ← evalBranchesC6 rest ctx
    pure ((ce, ve) :: rs)

theorem evalWtoChain_ok :
    ∀ (rest : List (CoreExpr × CoreExpr)) (ctx : EvalContext)
      (rs : List (PExpr × PExpr)) (chain : PChainedThen),
      evalBranchesC6 rest ctx = .ok rs →
      evalWtoChain rest chain ctx = .ok ⟨chain.branches ++ rs⟩ := by
  intro rest
  induction rest with
  | nil =>
    intro ctx rs chain h
    rw [evalBranchesC6] at h
    cases h
    rw [evalWtoChain]
    simp
  | cons b rs2 ih =>
    intro ctx rs chain h
    obtain ⟨c, v⟩ := b
    rw [evalBranchesC6] at h
    match hc : evalToExpr c ctx, h with
    | .ok ce, h =>
      match hv : evalToExpr v ctx, h with
      | .ok ve, h =>
        match hrs : evalBranchesC6 rs2 ctx, h with
        | .ok rs3, h =>
          simp only [Bind.bind, Except.bind, Pure.pure, Except.pure] at h
          cases h
          rw [evalWtoChain, hc, hv]
          show evalWtoChain rs2 ((chain.whenF ce).thenF ve) ctx = _
          rw [ih ctx rs3 _ hrs]
          simp [PChainedThen.whenF, PChainedWhen.thenF]
        | .error e2, h => simp [Bind.bind, Except.bind] at h
      | .error e2, h => simp [Bind.bind, Except.bind] at h
    | .error e2, h => simp [Bind.bind, Except.bind] at h

end Piql

namespace Piql

theorem c6B (branches : List (CoreExpr × CoreExpr)) (otherwise : CoreExpr)
    (ctx : EvalContext) (bs : List (PExpr × PExpr)) (oe : PExpr)
    (hne : branches ≠ [])
    (hb : evalBranchesC6 branches ctx = .ok bs)
    (ho : evalToExpr otherwise ctx = .ok oe) :
    evalWhenThenOtherwise branches otherwise ctx = .ok (.expr (.whenChainE bs oe)) := by
  match branches, hne with
  | [(c, v)], _ =>
    rw [evalBranchesC6] at hb
    match hc : evalToExpr c ctx, hb with
    | .ok ce, hb =>
      match hv : evalToExpr v ctx, hb with
      | .ok ve, hb =>
        rw [evalBranchesC6] at hb
        simp only [Bind.bind, Except.bind, Pure.pure, Except.pure] at hb
        cases hb
        rw [evalWhenThenOtherwise, ho, hc, hv]
        rfl
      | .error e2, hb => simp [Bind.bind, Except.bind] at hb
    | .error e2, hb => simp [Bind.bind, Except.bind] at hb
  | (c1, v1) :: (c2, v2) :: rest, _ =>
    rw [evalBranchesC6] at hb
    match hc1 : evalToExpr c1 ctx, hb with
    | .ok ce1, hb =>
      match hv1 : evalToExpr v1 ctx, hb with
      | .ok ve1, hb =>
        rw [evalBranchesC6] at hb
        match hc2 : evalToExpr c2 ctx, hb with
        | .ok ce2, hb =>
          match hv2 : evalToExpr v2 ctx, hb with
          | .ok ve2, hb =>
            match hrs : evalBranchesC6 rest ctx, hb with
            | .ok rs3, hb =>
              simp only [Bind.bind, Except.bind, Pure.pure, Except.pure] at hb
              cases hb
              rw [evalWhenThenOtherwise, ho, hc1, hv1, hc2, hv2]
              show (match evalWtoChain rest
                  (((pwhen ce1).thenF ve1).whenF ce2 |>.thenF ve2) ctx with
                | Except.error e => Except.error e
                | Except.ok chainF => Except.ok (Value.expr (chainF.otherwiseF oe))) = _
              rw [evalWtoChain_ok rest ctx rs3 _ hrs]
              simp [PChainedThen.otherwiseF, PThen.whenF, PChainedWhen.thenF, pwhen,
                PWhen.thenF]
            | .error e2, hb => simp [Bind.bind, Except.bind] at hb
          | .error e2, hb => simp [Bind.bind, Except.bind] at hb
        | .error e2, hb => simp [Bind.bind, Except.bind] at hb
      | .error e2, hb => simp [Bind.bind, Except.bind] at hb
    | .error e2, hb => simp [Bind.bind, Except.bind] at hb

end Piql

namespace Piql

/-- Evaluation of a literal operand to a backend literal expression. -/
theorem evalToExpr_literal (l : Lit) (ctx : EvalContext) :
    evalToExpr (.literal l) ctx = .ok (scalarToLit (literalToScalar l)) := by
  rw [evalToExpr, eval]

/-- C6: a surface `pl.when(c1).then(v1)[.when(ci).then(vi)]*.otherwise(e)`
chain with one positional argument per call folds into a single
`whenThenOtherwise` core node whose branches are in source order;
evaluation lowers that node to the backend when/then/otherwise chain
(`whenChainE`) preserving branch order; and a recognized chain whose
`otherwise` has no positional argument becomes an `Invalid` node carrying
"otherwise() requires an argument". -/
theorem claim_when_chain :
    (∀ (reg : SugarRegistry) (ctx : SugarContext) (f : SurfaceExpr × SurfaceExpr)
        (rest : List (SurfaceExpr × SurfaceExpr)) (e : SurfaceExpr),
      transformExpr reg ctx (.call (.attr (whenThenChainS f rest) "otherwise")
          [.positional e]) =
        .whenThenOtherwise ((f :: rest).map (fun b =>
          (transformExpr reg ctx b.1, transformExpr reg ctx b.2)))
          (transformExpr reg ctx e)) ∧
    (∀ (branches : List (CoreExpr × CoreExpr)) (otherwise : CoreExpr)
        (ctx : EvalContext) (bs : List (PExpr × PExpr)) (oe : PExpr),
      branches ≠ [] →
      evalBranchesC6 branches ctx = .ok bs →
      evalToExpr otherwise ctx = .ok oe →
      evalWhenThenOtherwise branches otherwise ctx = .ok (.expr (.whenChainE bs oe))) ∧
    (∀ (reg : SugarRegistry) (ctx : SugarContext) (w : SurfaceExpr)
        (chain : List (SurfaceExpr × SurfaceExpr)) (args : List SurfaceArg),
      tryExtractWhenChain w = some chain →
      findPositionalArg args = none →
      transformExpr reg ctx (.call (.attr w "otherwise") args) =
        .invalid "otherwise() requires an argument") :=
  ⟨c6A, c6B, c6C⟩

/-- Witness for C6 at concrete inputs: a two-branch chain over literals. -/
theorem claim_when_chain_witness :
    (transformExpr SugarRegistry.new SugarContext.new
        (.call (.attr (whenThenChainS (.literal (.bool true), .literal (.int 1))
          [(.literal (.bool false), .literal (.int 2))]) "otherwise")
          [.positional (.literal (.int 0))]) =
      .whenThenOtherwise
        ([((.literal (.bool true) : SurfaceExpr), (.literal (.int 1) : SurfaceExpr)),
          (.literal (.bool false), .literal (.int 2))].map (fun b =>
          (transformExpr SugarRegistry.new SugarContext.new b.1,
           transformExpr SugarRegistry.new SugarContext.new b.2)))
        (transformExpr SugarRegistry.new SugarContext.new (.literal (.int 0)))) ∧
    (evalWhenThenOtherwise
        [(.literal (.bool true), .literal (.int 1)),
         (.literal (.bool false), .literal (.int 2))]
        (.literal (.int 0)) EvalContext.new =
      .ok (.expr (.whenChainE
        [(.litE (.bool true), .litE (.int 1)), (.litE (.bool false), .litE (.int 2))]
        (.litE (.int 0))))) ∧
    (transformExpr SugarRegistry.new SugarContext.new
        (.call (.attr (whenThenChainS (.literal (.bool true), .literal (.int 1)) [])
          "otherwise") []) =
      .invalid "otherwise() requires an argument") :=
  ⟨claim_when_chain.1 SugarRegistry.new SugarContext.new
      (.literal (.bool true), .literal (.int 1))
      [(.literal (.bool false), .literal (.int 2))] (.literal (.int 0)),
   claim_when_chain.2.1
      [(.literal (.bool true), .literal (.int 1)),
       (.literal (.bool false), .literal (.int 2))]
      (.literal (.int 0)) EvalContext.new
      [(.litE (.bool true), .litE (.int 1)), (.litE (.bool false), .litE (.int 2))]
      (.litE (.int 0))
      (by simp)
      (by simp [evalBranchesC6, evalToExpr_literal, Bind.bind, Except.bind, Pure.pure,
        Except.pure, literalToScalar, scalarToLit])
      (by simp [evalToExpr_literal, literalToScalar, scalarToLit]),
   claim_when_chain.2.2 SugarRegistry.new SugarContext.new
      (whenThenChainS (.literal (.bool true), .literal (.int 1)) []) 
      [(.literal (.bool true), .literal (.int 1))] []
      (whenThenChainS_extract (.literal (.bool true), .literal (.int 1)) [])
      rfl⟩

end Piql

namespace Piql

/-- `run` on the one-identifier query `t` reduces to identifier
evaluation (parsing and transform leave the identifier untouched). -/
theorem run_t (ctx : EvalContext) :
    run "t" ctx =
      match eval (.ident "t") ctx with
      | .error e => .error (.evalE e)
      | .ok r => .ok r := by
  rw [run]
  have htr : transformWithSugar (.ident "t") ctx.sugar
      (ctx.sugarContext (inferRootDataframeName (.ident "t"))) = .ident "t" := by
    rw [transformWithSugar, transformExpr]
  show (match eval (transformWithSugar (.ident "t") ctx.sugar
      (ctx.sugarContext (inferRootDataframeName (.ident "t")))) ctx with
    | Except.error e => Except.error (PiqlError.evalE e)
    | Except.ok r => Except.ok r) = _
  rw [htr]

/-- `run` on the query `pl` always yields the namespace value. -/
theorem run_pl (ctx : EvalContext) : run "pl" ctx = .ok .plNamespace := by
  rw [run]
  have htr : transformWithSugar (.ident "pl") ctx.sugar
      (ctx.sugarContext (inferRootDataframeName (.ident "pl"))) = .ident "pl" := by
    rw [transformWithSugar, transformExpr]
  have hev : eval (.ident "pl") ctx = .ok .plNamespace := by
    rw [eval]
    rfl
  show (match eval (transformWithSugar (.ident "pl") ctx.sugar
      (ctx.sugarContext (inferRootDataframeName (.ident "pl")))) ctx with
    | Except.error e => Except.error (PiqlError.evalE e)
    | Except.ok r => Except.ok r) = _
  rw [htr, hev]

theorem alookup_ainsert_self {α : Type} (l : List (String × α)) (k : String) (v : α) :
    alookup (ainsert l k v) k = some v := by
  induction l with
  | nil => simp [ainsert, alookup]
  | cons p rest ih =>
    obtain ⟨k2, w⟩ := p
    by_cases h : k2 = k
    · subst h
      simp [ainsert, alookup]
    · simp [ainsert, alookup, h, ih]

theorem alookup_ainsert_ne {α : Type} (l : List (String × α)) (k n : String) (v : α)
    (h : k ≠ n) : alookup (ainsert l k v) n = alookup l n := by
  induction l with
  | nil => simp [ainsert, alookup, h]
  | cons p rest ih =>
    obtain ⟨k2, w⟩ := p
    by_cases h2 : k2 = k
    · subst h2
      simp [ainsert, alookup, h]
    · simp [ainsert, alookup, h2, ih]

end Piql

namespace Piql.QueryEngine

/-- `runViews` does not change the context tick. -/
theorem runViews_tick :
    ∀ (views : List (String × String)) (ctx ctx2 : EvalContext),
      runViews ctx views = .ok ctx2 → ctx2.tick = ctx.tick := by
  intro views
  induction views with
  | nil =>
    intro ctx ctx2 h
    rw [runViews] at h
    cases h
    rfl
  | cons p rest ih =>
    intro ctx ctx2 h
    obtain ⟨name, q⟩ := p
    rw [runViews] at h
    split at h
    · cases h
    · split at h
      · cases h
      · exact (ih _ ctx2 h).trans rfl
    · exact ih _ _ h

/-- Keys of a `runSubs` result all come from the subscription list. -/
theorem runSubs_keys :
    ∀ (subs : List (String × String)) (ctx : EvalContext) (res : List (String × DF)),
      runSubs ctx subs = .ok res →
      ∀ n, alookup subs n = none → alookup res n = none := by
  intro subs
  induction subs with
  | nil =>
    intro ctx res h n _
    rw [runSubs] at h
    cases h
    rfl
  | cons p rest ih =>
    intro ctx res h n hn
    obtain ⟨name, q⟩ := p
    rw [alookup] at hn
    by_cases hne : name = n
    · simp [hne] at hn
    · simp only [hne, if_false] at hn
      rw [runSubs] at h
      split at h
      · cases h
      · split at h
        · cases h
        · split at h
          · cases h
          · rename_i rest2 heq
            cases h
            rw [alookup_ainsert_ne _ _ _ _ hne]
            exact ih ctx rest2 heq n hn
      · exact ih ctx res h n hn

end Piql.QueryEngine

namespace Piql

theorem alookup_eq_none_of_not_mem {α : Type} (l : List (String × α)) (n : String)
    (h : n ∉ l.map Prod.fst) : alookup l n = none := by
  induction l with
  | nil => rfl
  | cons p rest ih =>
    obtain ⟨k, v⟩ := p
    simp only [List.map_cons, List.mem_cons] at h
    push_neg at h
    rw [alookup, if_neg (fun hh => h.1 hh.symm)]
    exact ih h.2

end Piql

namespace Piql.QueryEngine

/-- The result mapping of `runSubs`, entry by entry: a subscription whose
query yields a table maps to its materialization; one whose query yields a
non-table value is absent. -/
theorem runSubs_lookup :
    ∀ (subs : List (String × String)) (ctx : EvalContext) (res : List (String × DF)),
      (subs.map Prod.fst).Nodup →
      runSubs ctx subs = .ok res →
      ∀ n q, alookup subs n = some q →
        (∀ lf lin d, run q ctx = .ok (.dataFrame lf lin) → collectLF lf = .ok d →
          alookup res n = some d) ∧
        (∀ v, run q ctx = .ok v → (∀ lf lin, v ≠ .dataFrame lf lin) →
          alookup res n = none) := by
  intro subs
  induction subs with
  | nil =>
    intro ctx res _ _ n q hq
    rw [alookup] at hq
    cases hq
  | cons p rest ih =>
    intro ctx res hnd h n q hq
    obtain ⟨m, q0⟩ := p
    simp only [List.map_cons, List.nodup_cons] at hnd
    obtain ⟨hm, hnd2⟩ := hnd
    rw [alookup] at hq
    rw [runSubs] at h
    by_cases hmn : m = n
    · subst hmn
      rw [if_pos rfl] at hq
      cases hq
      split at h
      · cases h
      · rename_i lf0 lin0 hrq
        split at h
        · cases h
        · rename_i c0 hc0
          split at h
          · cases h
          · rename_i rest2 hrest
            cases h
            constructor
            · intro lf lin d hr hc
              rw [hrq] at hr
              cases hr
              rw [hc0] at hc
              cases hc
              first
              | exact alookup_ainsert_self rest2 m c0
              | exact alookup_ainsert_self rest2 m _
            · intro v hr hnt
              rw [hrq] at hr
              cases hr
              exact absurd rfl (hnt lf0 lin0)
      · rename_i v0 hne0 hrq
        constructor
        · intro lf lin d hr hc
          rw [hrq] at hr
          cases hr
          exact absurd rfl (hne0 lf lin)
        · intro v hr _
          have hnone : alookup rest m = none :=
            alookup_eq_none_of_not_mem rest m hm
          exact runSubs_keys rest ctx res h m hnone
    · rw [if_neg hmn] at hq
      split at h
      · cases h
      · rename_i lf0 lin0 hrq
        split at h
        · cases h
        · rename_i c0 hc0
          split at h
          · cases h
          · rename_i rest2 hrest
            cases h
            have := ih ctx rest2 hnd2 hrest n q hq
            constructor
            · intro lf lin d hr hc
              rw [alookup_ainsert_ne _ _ _ _ hmn]
              exact this.1 lf lin d hr hc
            · intro v hr hnt
              rw [alookup_ainsert_ne _ _ _ _ hmn]
              exact this.2 v hr hnt
      · rename_i v0 hne0 hrq
        exact ih ctx res hnd2 h n q hq

end Piql.QueryEngine

namespace Piql.QueryEngine

/-- C1 (amended): `on_tick` sets the tick, folds the materialized views in
insertion order through `runViews` — a view whose query yields a table
overwrites its catalog entry before the remaining views run, a view with a
non-table result leaves the catalog unchanged, and a failing query aborts
with its error — then evaluates subscriptions via `runSubs` against the
final catalog: a failing subscription aborts, a table result is recorded
under the subscription name, and a non-table result is silently omitted
from the returned mapping (singly, the mapping holds exactly the
table-valued subscriptions). -/
theorem claim_on_tick :
    (∀ (eng : QueryEngine) (t : Int) (eng2 : QueryEngine) (res : List (String × DF)),
      onTick eng t = .ok (eng2, res) →
      ∃ ctx1, runViews { eng.ctx with tick := some t } eng.materialized = .ok ctx1 ∧
        runSubs ctx1 eng.subscriptions = .ok res ∧
        eng2 = { eng with ctx := ctx1 } ∧ ctx1.tick = some t) ∧
    (∀ (ctx : EvalContext) (n q : String) (rest : List (String × String))
        (lf : LF) (lin : DataFrameLineage) (d : DF),
      run q ctx = .ok (.dataFrame lf lin) → collectLF lf = .ok d →
      runViews ctx ((n, q) :: rest) =
        runViews { ctx with dataframes := ainsert ctx.dataframes n ⟨d, none⟩ } rest) ∧
    (∀ (ctx : EvalContext) (n q : String) (rest : List (String × String)) (v : Value),
      run q ctx = .ok v → (∀ lf lin, v ≠ .dataFrame lf lin) →
      runViews ctx ((n, q) :: rest) = runViews ctx rest) ∧
    (∀ (ctx : EvalContext) (n q : String) (rest : List (String × String)) (e : PiqlError),
      run q ctx = .error e → runViews ctx ((n, q) :: rest) = .error e) ∧
    (∀ (eng : QueryEngine) (t : Int) (e : PiqlError),
      runViews { eng.ctx with tick := some t } eng.materialized = .error e →
      onTick eng t = .error e) ∧
    (∀ (eng : QueryEngine) (t : Int) (ctx1 : EvalContext) (e : PiqlError),
      runViews { eng.ctx with tick := some t } eng.materialized = .ok ctx1 →
      runSubs ctx1 eng.subscriptions = .error e →
      onTick eng t = .error e) ∧
    (∀ (ctx : EvalContext) (n q : String) (rest : List (String × String)) (e : PiqlError),
      run q ctx = .error e → runSubs ctx ((n, q) :: rest) = .error e) ∧
    (∀ (ctx : EvalContext) (n q : String) (rest : List (String × String))
        (lf : LF) (lin : DataFrameLineage) (d : DF) (rest2 : List (String × DF)),
      run q ctx = .ok (.dataFrame lf lin) → collectLF lf = .ok d →
      runSubs ctx rest = .ok rest2 →
      runSubs ctx ((n, q) :: rest) = .ok (ainsert rest2 n d)) ∧
    (∀ (ctx : EvalContext) (n q : String) (rest : List (String × String)) (v : Value),
      run q ctx = .ok v → (∀ lf lin, v ≠ .dataFrame lf lin) →
      runSubs ctx ((n, q) :: rest) = runSubs ctx rest) ∧
    (∀ (subs : List (String × String)) (ctx : EvalContext) (res : List (String × DF)),
      (subs.map Prod.fst).Nodup →
      runSubs ctx subs = .ok res →
      ∀ n q, alookup subs n = some q →
        (∀ lf lin d, run q ctx = .ok (.dataFrame lf lin) → collectLF lf = .ok d →
          alookup res n = some d) ∧
        (∀ v, run q ctx = .ok v → (∀ lf lin, v ≠ .dataFrame lf lin) →
          alookup res n = none)) := by
  refine ⟨?_, ?_, ?_, ?_, ?_, ?_, ?_, ?_, ?_, runSubs_lookup⟩
  · intro eng t eng2 res h
    rw [onTick] at h
    split at h
    · cases h
    · rename_i ctx1 hv
      split at h
      · cases h
      · rename_i results hs
        cases h
        exact ⟨ctx1, hv, hs, rfl, (runViews_tick _ _ _ hv).trans rfl⟩
  · intro ctx n q rest lf lin d hr hc
    rw [runViews, hr]
    show (match collectLF lf with
      | Except.error e => Except.error (PiqlError.evalE e)
      | Except.ok collected =>
        runViews { ctx with dataframes := ainsert ctx.dataframes n ⟨collected, none⟩ }
          rest) = _
    rw [hc]
  · intro ctx n q rest v hr hnt
    match v, hnt with
    | .groupBy gb lin, _ => rw [runViews, hr]
    | .expr e2, _ => rw [runViews, hr]
    | .scalar s, _ => rw [runViews, hr]
    | .plNamespace, _ => rw [runViews, hr]
    | .dataFrame lf lin, hnt => exact absurd rfl (hnt lf lin)
  · intro ctx n q rest e hr
    rw [runViews, hr]
  · intro eng t e hv
    rw [onTick]
    show (match runViews { eng.ctx with tick := some t } eng.materialized with
      | Except.error e => Except.error e
      | Except.ok ctx1 =>
        match runSubs ctx1 eng.subscriptions with
        | Except.error e => Except.error e
        | Except.ok results => Except.ok ({ eng with ctx := ctx1 }, results)) = _
    rw [hv]
  · intro eng t ctx1 e hv hs
    rw [onTick]
    show (match runViews { eng.ctx with tick := some t } eng.materialized with
      | Except.error e => Except.error e
      | Except.ok ctx1 =>
        match runSubs ctx1 eng.subscriptions with
        | Except.error e => Except.error e
        | Except.ok results => Except.ok ({ eng with ctx := ctx1 }, results)) = _
    rw [hv]
    show (match runSubs ctx1 eng.subscriptions with
      | Except.error e => Except.error e
      | Except.ok results => Except.ok ({ eng with ctx := ctx1 }, results)) = _
    rw [hs]
  · intro ctx n q rest e hr
    rw [runSubs, hr]
  · intro ctx n q rest lf lin d rest2 hr hc hrs
    rw [runSubs, hr]
    show (match collectLF lf with
      | Except.error e => Except.error (PiqlError.evalE e)
      | Except.ok collected =>
        match runSubs ctx rest with
        | Except.error e => Except.error e
        | Except.ok rest2 => Except.ok (ainsert rest2 n collected)) = _
    rw [hc, hrs]
  · intro ctx n q rest v hr hnt
    match v, hnt with
    | .groupBy gb lin, _ => rw [runSubs, hr]
    | .expr e2, _ => rw [runSubs, hr]
    | .scalar s, _ => rw [runSubs, hr]
    | .plNamespace, _ => rw [runSubs, hr]
    | .dataFrame lf lin, hnt => exact absurd rfl (hnt lf lin)

end Piql.QueryEngine

namespace Piql

/-- C1 counterexample engine: one subscription whose query is `pl`. -/
def c1ceng : QueryEngine := QueryEngine.new.subscribe "s" "pl"

/-- C1 counterexample: the subscription query `pl` succeeds (with a
non-table value), yet `on_tick` returns an empty mapping — the claimed
"mapping from subscription name to its result" does not contain every
subscription. -/
theorem claim_on_tick_counterexample :
    run "pl" { c1ceng.ctx with tick := some 1 } = .ok .plNamespace ∧
    alookup c1ceng.subscriptions "s" = some "pl" ∧
    c1ceng.onTick 1 =
      .ok ({ c1ceng with ctx := { c1ceng.ctx with tick := some 1 } }, []) ∧
    alookup ([] : List (String × DF)) "s" = none := by
  refine ⟨run_pl _, rfl, ?_, rfl⟩
  have hv : QueryEngine.runViews { c1ceng.ctx with tick := some 1 } c1ceng.materialized =
      .ok { c1ceng.ctx with tick := some 1 } := rfl
  have hs : QueryEngine.runSubs { c1ceng.ctx with tick := some 1 } c1ceng.subscriptions =
      .ok [] := by
    show QueryEngine.runSubs { c1ceng.ctx with tick := some 1 } [("s", "pl")] = .ok []
    rw [QueryEngine.runSubs, run_pl]
    show QueryEngine.runSubs { c1ceng.ctx with tick := some 1 } [] = .ok []
    rfl
  rw [QueryEngine.onTick]
  show (match QueryEngine.runViews { c1ceng.ctx with tick := some 1 } c1ceng.materialized with
    | Except.error e => Except.error e
    | Except.ok ctx1 =>
      match QueryEngine.runSubs ctx1 c1ceng.subscriptions with
      | Except.error e => Except.error e
      | Except.ok results => Except.ok ({ c1ceng with ctx := ctx1 }, results)) = _
  rw [hv]
  show (match QueryEngine.runSubs { c1ceng.ctx with tick := some 1 } c1ceng.subscriptions with
    | Except.error e => Except.error e
    | Except.ok results =>
      Except.ok ({ c1ceng with ctx := { c1ceng.ctx with tick := some 1 } }, results)) = _
  rw [hs]

end Piql

namespace Piql

/-- `run` on the one-identifier query `zz` reduces to identifier
evaluation. -/
theorem run_zz (ctx : EvalContext) :
    run "zz" ctx =
      match eval (.ident "zz") ctx with
      | .error e => .error (.evalE e)
      | .ok r => .ok r := by
  rw [run]
  have htr : transformWithSugar (.ident "zz") ctx.sugar
      (ctx.sugarContext (inferRootDataframeName (.ident "zz"))) = .ident "zz" := by
    rw [transformWithSugar, transformExpr]
  show (match eval (transformWithSugar (.ident "zz") ctx.sugar
      (ctx.sugarContext (inferRootDataframeName (.ident "zz")))) ctx with
    | Except.error e => Except.error (PiqlError.evalE e)
    | Except.ok r => Except.ok r) = _
  rw [htr]

/-- Witness frame for C1. -/
def c1dfT : DF := ⟨[("x", .int64)], [[("x", .int 7)]]⟩

/-- Witness catalog context for C1. -/
def c1wctxW : EvalContext := { EvalContext.new with dataframes := [("t", ⟨c1dfT, none⟩)] }

/-- Witness engine for C1: one view `m` over `t` and one subscription `s`
over `t`. -/
def c1weng : QueryEngine :=
  { ctx := c1wctxW, baseTables := [], materialized := [("m", "t")],
    subscriptions := [("s", "t")] }

/-- The context after the view loop of the C1 witness. -/
def c1ctx1 : EvalContext :=
  { EvalContext.new with
    dataframes := [("t", ⟨c1dfT, none⟩), ("m", ⟨c1dfT, none⟩)], tick := some 1 }

theorem c1w_run0 : run "t" { c1wctxW with tick := some 1 } =
    .ok (.dataFrame (DF.lazy c1dfT) (.table "t")) := by
  have he : eval (.ident "t") { c1wctxW with tick := some 1 } =
      .ok (.dataFrame (DF.lazy c1dfT) (.table "t")) := by
    rw [eval]
    rfl
  rw [run_t, he]

theorem c1w_run1 : run "t" c1ctx1 = .ok (.dataFrame (DF.lazy c1dfT) (.table "t")) := by
  have he : eval (.ident "t") c1ctx1 = .ok (.dataFrame (DF.lazy c1dfT) (.table "t")) := by
    rw [eval]
    rfl
  rw [run_t, he]

theorem c1w_runzz : run "zz" { c1wctxW with tick := some 1 } =
    .error (.evalE (.unknownIdent "zz")) := by
  have he : eval (.ident "zz") { c1wctxW with tick := some 1 } =
      .error (.unknownIdent "zz") := by
    rw [eval]
    rfl
  rw [run_zz, he]

theorem c1w_subs : QueryEngine.runSubs c1ctx1 [("s", "t")] = .ok [("s", c1dfT)] := by
  rw [QueryEngine.runSubs, c1w_run1]
  show (match collectLF (DF.lazy c1dfT) with
    | Except.error e => Except.error (PiqlError.evalE e)
    | Except.ok collected =>
      match QueryEngine.runSubs c1ctx1 [] with
      | Except.error e => Except.error e
      | Except.ok rest2 => Except.ok (ainsert rest2 "s" collected)) = _
  rfl

theorem c1w_onTick :
    c1weng.onTick 1 = .ok ({ c1weng with ctx := c1ctx1 }, [("s", c1dfT)]) := by
  have hv : QueryEngine.runViews { c1weng.ctx with tick := some 1 } c1weng.materialized =
      .ok c1ctx1 := by
    show QueryEngine.runViews { c1wctxW with tick := some 1 } [("m", "t")] = .ok c1ctx1
    rw [QueryEngine.runViews, c1w_run0]
    show (match collectLF (DF.lazy c1dfT) with
      | Except.error e => Except.error (PiqlError.evalE e)
      | Except.ok collected =>
        QueryEngine.runViews { { c1wctxW with tick := some 1 } with
          dataframes := ainsert ({ c1wctxW with tick := some 1 }).dataframes "m"
            ⟨collected, none⟩ } []) = _
    rfl
  rw [QueryEngine.onTick]
  show (match QueryEngine.runViews { c1weng.ctx with tick := some 1 } c1weng.materialized with
    | Except.error e => Except.error e
    | Except.ok ctx1 =>
      match QueryEngine.runSubs ctx1 c1weng.subscriptions with
      | Except.error e => Except.error e
      | Except.ok results => Except.ok ({ c1weng with ctx := ctx1 }, results)) = _
  rw [hv]
  show (match QueryEngine.runSubs c1ctx1 c1weng.subscriptions with
    | Except.error e => Except.error e
    | Except.ok results => Except.ok ({ c1weng with ctx := c1ctx1 }, results)) = _
  have hs : QueryEngine.runSubs c1ctx1 c1weng.subscriptions = .ok [("s", c1dfT)] := c1w_subs
  rw [hs]

/-- Witness engine for the C1 error-abort clauses. -/
def c1wengBad : QueryEngine :=
  { ctx := c1wctxW, baseTables := [], materialized := [("b", "zz")], subscriptions := [] }

/-- Witness engine for the C1 subscription error-abort clause. -/
def c1wengBad2 : QueryEngine :=
  { ctx := c1wctxW, baseTables := [], materialized := [], subscriptions := [("b", "zz")] }

/-- Witness for C1 at concrete inputs. -/
theorem claim_on_tick_witness :
    (∃ ctx1, QueryEngine.runViews { c1weng.ctx with tick := some 1 } c1weng.materialized =
        .ok ctx1 ∧
      QueryEngine.runSubs ctx1 c1weng.subscriptions = .ok [("s", c1dfT)] ∧
      ({ c1weng with ctx := c1ctx1 } : QueryEngine) = { c1weng with ctx := ctx1 } ∧
      ctx1.tick = some 1) ∧
    (QueryEngine.runViews { c1wctxW with tick := some 1 } [("m", "t")] =
      QueryEngine.runViews { { c1wctxW with tick := some 1 } with
        dataframes := ainsert ({ c1wctxW with tick := some 1 }).dataframes "m"
          ⟨c1dfT, none⟩ } []) ∧
    (QueryEngine.runViews { c1wctxW with tick := some 1 } [("z", "pl")] =
      QueryEngine.runViews { c1wctxW with tick := some 1 } []) ∧
    (QueryEngine.runViews { c1wctxW with tick := some 1 } [("b", "zz")] =
      .error (.evalE (.unknownIdent "zz"))) ∧
    (c1wengBad.onTick 1 = .error (.evalE (.unknownIdent "zz"))) ∧
    (c1wengBad2.onTick 1 = .error (.evalE (.unknownIdent "zz"))) ∧
    (QueryEngine.runSubs { c1wctxW with tick := some 1 } [("b", "zz")] =
      .error (.evalE (.unknownIdent "zz"))) ∧
    (QueryEngine.runSubs c1ctx1 [("s", "t")] = .ok (ainsert [] "s" c1dfT)) ∧
    (QueryEngine.runSubs c1ctx1 [("p", "pl")] = QueryEngine.runSubs c1ctx1 []) ∧
    (alookup [("s", c1dfT)] "s" = some c1dfT) := by
  have h1 := QueryEngine.claim_on_tick.1 c1weng 1 { c1weng with ctx := c1ctx1 } [("s", c1dfT)] c1w_onTick
  have h4 := QueryEngine.claim_on_tick.2.2.2.1 { c1wctxW with tick := some 1 } "b" "zz" []
    (.evalE (.unknownIdent "zz")) c1w_runzz
  have h7 := QueryEngine.claim_on_tick.2.2.2.2.2.2.1 { c1wctxW with tick := some 1 } "b" "zz" []
    (.evalE (.unknownIdent "zz")) c1w_runzz
  refine ⟨?_, ?_, ?_, h4, ?_, ?_, h7, ?_, ?_, ?_⟩
  · obtain ⟨ctx1, hv, hs, heq, ht⟩ := h1
    exact ⟨ctx1, hv, hs, heq, ht⟩
  · exact QueryEngine.claim_on_tick.2.1 { c1wctxW with tick := some 1 } "m" "t" []
      (DF.lazy c1dfT) (.table "t") c1dfT c1w_run0 rfl
  · exact QueryEngine.claim_on_tick.2.2.1 { c1wctxW with tick := some 1 } "z" "pl" [] .plNamespace
      (run_pl _) (by intro lf lin h; cases h)
  · exact QueryEngine.claim_on_tick.2.2.2.2.1 c1wengBad 1 (.evalE (.unknownIdent "zz")) h4
  · exact QueryEngine.claim_on_tick.2.2.2.2.2.1 c1wengBad2 1 { c1wctxW with tick := some 1 }
      (.evalE (.unknownIdent "zz")) rfl h7
  · exact QueryEngine.claim_on_tick.2.2.2.2.2.2.2.1 c1ctx1 "s" "t" [] (DF.lazy c1dfT) (.table "t")
      c1dfT [] c1w_run1 rfl rfl
  · exact QueryEngine.claim_on_tick.2.2.2.2.2.2.2.2.1 c1ctx1 "p" "pl" [] .plNamespace (run_pl _)
      (by intro lf lin h; cases h)
  · exact (QueryEngine.claim_on_tick.2.2.2.2.2.2.2.2.2 [("s", "t")] c1ctx1 [("s", c1dfT)]
      (by simp) c1w_subs "s" "t" rfl).1 (DF.lazy c1dfT) (.table "t") c1dfT c1w_run1 rfl

end Piql

namespace Piql.QueryEngine

/-- C2 (amended): `append_tick` on an unregistered name fails with
`UnknownIdent`; a successful first append sets both the engine-level and
context-level base entries to `now = all = rows` and refreshes the catalog
entry with the materialization of `all`; a successful later append keeps
`now = rows` and extends `all` by a backend concat plan; after any
successful append (with the name registered in the context) the catalog
entry holds exactly the materialization of the base-table `all` plan; and
collecting the concat plan appends the new batch rows after the existing
rows, order-preserving. -/
theorem claim_append_tick :
    (∀ (eng : QueryEngine) (name : String) (rows : LF),
      alookup eng.baseTables name = none →
      appendTick eng name rows = .error (.evalE (.unknownIdent name))) ∧
    (∀ (eng : QueryEngine) (name : String) (rows : LF) (st : BaseTableState)
        (entry0 : BaseTableEntry) (d : DF),
      alookup eng.baseTables name = some st →
      st.all = none →
      alookup eng.ctx.baseTables name = some entry0 →
      collectLF rows = .ok d →
      appendTick eng name rows = .ok { eng with
        baseTables := ainsert eng.baseTables name ⟨some rows, some rows⟩,
        ctx := { eng.ctx with
          baseTables := ainsert eng.ctx.baseTables name
            ⟨some rows, some rows, entry0.config⟩,
          dataframes := ainsert eng.ctx.dataframes name ⟨d, some entry0.config⟩ } }) ∧
    (∀ (eng : QueryEngine) (name : String) (rows allPrev : LF) (st : BaseTableState)
        (entry0 : BaseTableEntry) (d : DF),
      alookup eng.baseTables name = some st →
      st.all = some allPrev →
      alookup eng.ctx.baseTables name = some entry0 →
      collectLF (.concatL [allPrev, rows]) = .ok d →
      appendTick eng name rows = .ok { eng with
        baseTables := ainsert eng.baseTables name
          ⟨some (.concatL [allPrev, rows]), some rows⟩,
        ctx := { eng.ctx with
          baseTables := ainsert eng.ctx.baseTables name
            ⟨some (.concatL [allPrev, rows]), some rows, entry0.config⟩,
          dataframes := ainsert eng.ctx.dataframes name ⟨d, some entry0.config⟩ } }) ∧
    (∀ (eng : QueryEngine) (name : String) (rows : LF) (eng2 : QueryEngine)
        (entry0 : BaseTableEntry),
      appendTick eng name rows = .ok eng2 →
      alookup eng.ctx.baseTables name = some entry0 →
      ∃ allLF d, alookup eng2.baseTables name = some ⟨some allLF, some rows⟩ ∧
        alookup eng2.ctx.baseTables name = some ⟨some allLF, some rows, entry0.config⟩ ∧
        collectLF allLF = .ok d ∧
        alookup eng2.ctx.dataframes name = some ⟨d, some entry0.config⟩) ∧
    (∀ (a b : LF) (da db : DF),
      collectLF a = .ok da → collectLF b = .ok db → db.schema = da.schema →
      collectLF (.concatL [a, b]) = .ok ⟨da.schema, da.rows ++ db.rows⟩) := by
  refine ⟨?_, ?_, ?_, ?_, ?_⟩
  · intro eng name rows h
    rw [appendTick, h]
  · intro eng name rows st entry0 d h1 h2 h3 h4
    rw [appendTick, h1]
    show (match (match st.all with
        | some existing => concatP [existing, rows]
        | none => .ok rows) with
      | Except.error e => Except.error (PiqlError.evalE e)
      | Except.ok newAll =>
        match EvalContext.updateBaseTablePtrs eng.ctx name newAll rows with
        | Except.error e => Except.error (PiqlError.evalE e)
        | Except.ok ctx2 =>
          Except.ok { eng with
            baseTables := ainsert eng.baseTables name ⟨some newAll, some rows⟩,
            ctx := ctx2 }) = _
    rw [h2]
    show (match EvalContext.updateBaseTablePtrs eng.ctx name rows rows with
      | Except.error e => Except.error (PiqlError.evalE e)
      | Except.ok ctx2 =>
        Except.ok { eng with
          baseTables := ainsert eng.baseTables name ⟨some rows, some rows⟩,
          ctx := ctx2 }) = _
    rw [EvalContext.updateBaseTablePtrs, h3]
    show (match (match collectLF rows with
        | Except.error e => Except.error e
        | Except.ok collected =>
          Except.ok { eng.ctx with
            baseTables := ainsert eng.ctx.baseTables name
              ⟨some rows, some rows, entry0.config⟩,
            dataframes := ainsert eng.ctx.dataframes name
              ⟨collected, some entry0.config⟩ }) with
      | Except.error e => Except.error (PiqlError.evalE e)
      | Except.ok ctx2 =>
        Except.ok { eng with
          baseTables := ainsert eng.baseTables name ⟨some rows, some rows⟩,
          ctx := ctx2 }) = _
    rw [h4]
  · intro eng name rows allPrev st entry0 d h1 h2 h3 h4
    rw [appendTick, h1]
    show (match (match st.all with
        | some existing => concatP [existing, rows]
        | none => .ok rows) with
      | Except.error e => Except.error (PiqlError.evalE e)
      | Except.ok newAll =>
        match EvalContext.updateBaseTablePtrs eng.ctx name newAll rows with
        | Except.error e => Except.error (PiqlError.evalE e)
        | Except.ok ctx2 =>
          Except.ok { eng with
            baseTables := ainsert eng.baseTables name ⟨some newAll, some rows⟩,
            ctx := ctx2 }) = _
    rw [h2]
    show (match EvalContext.updateBaseTablePtrs eng.ctx name (.concatL [allPrev, rows]) rows with
      | Except.error e => Except.error (PiqlError.evalE e)
      | Except.ok ctx2 =>
        Except.ok { eng with
          baseTables := ainsert eng.baseTables name
            ⟨some (.concatL [allPrev, rows]), some rows⟩,
          ctx := ctx2 }) = _
    rw [EvalContext.updateBaseTablePtrs, h3]
    show (match (match collectLF (.concatL [allPrev, rows]) with
        | Except.error e => Except.error e
        | Except.ok collected =>
          Except.ok { eng.ctx with
            baseTables := ainsert eng.ctx.baseTables name
              ⟨some (.concatL [allPrev, rows]), some rows, entry0.config⟩,
            dataframes := ainsert eng.ctx.dataframes name
              ⟨collected, some entry0.config⟩ }) with
      | Except.error e => Except.error (PiqlError.evalE e)
      | Except.ok ctx2 =>
        Except.ok { eng with
          baseTables := ainsert eng.baseTables name
            ⟨some (.concatL [allPrev, rows]), some rows⟩,
          ctx := ctx2 }) = _
    rw [h4]
  · intro eng name rows eng2 entry0 h h3
    rw [appendTick] at h
    split at h
    · cases h
    · rename_i st heq
      split at h
      · cases h
      · rename_i newAll heqA
        rw [EvalContext.updateBaseTablePtrs, h3] at h
        have h6 : (match (match collectLF newAll with
            | Except.error e => Except.error e
            | Except.ok collected =>
              Except.ok { eng.ctx with
                baseTables := ainsert eng.ctx.baseTables name
                  ⟨some newAll, some rows, entry0.config⟩,
                dataframes := ainsert eng.ctx.dataframes name
                  ⟨collected, some entry0.config⟩ }) with
          | Except.error e => Except.error (PiqlError.evalE e)
          | Except.ok ctx2 =>
            Except.ok { eng with
              baseTables := ainsert eng.baseTables name ⟨some newAll, some rows⟩,
              ctx := ctx2 }) = Except.ok eng2 := h
        split at h6
        · cases h6
        · rename_i ctx2 heqC
          cases h6
          split at heqC
          · cases heqC
          · rename_i collected heqc
            cases heqC
            exact ⟨newAll, collected,
              alookup_ainsert_self _ _ _,
              alookup_ainsert_self _ _ _,
              heqc,
              alookup_ainsert_self _ _ _⟩
  · intro a b da db ha hb hs
    simp [collectLF, collectList, ha, hb, hs, Bind.bind, Except.bind, Pure.pure, Except.pure]

end Piql.QueryEngine

namespace Piql

/-- Witness/counterexample data for C2. -/
def c2cfg : TimeSeriesConfig := ⟨"tick", "eid"⟩

def c2batch : LF := .source ⟨[("x", .int64)], [[("x", .int 1)]]⟩

def c2dBatch : DF := ⟨[("x", .int64)], [[("x", .int 1)]]⟩

def c2batch2 : LF := .source ⟨[("x", .int64)], [[("x", .int 2)]]⟩

def c2dBatch2 : DF := ⟨[("x", .int64)], [[("x", .int 2)]]⟩

def c2other : LF := .source ⟨[("x", .int64)], [[("x", .int 99)]]⟩

def c2dOther : DF := ⟨[("x", .int64)], [[("x", .int 99)]]⟩

/-- C2 counterexample engine: a registered base table `t`. -/
def c2eng0 : QueryEngine := QueryEngine.new.registerBase "t" c2cfg

/-- The engine after the first `append_tick` in the C2 scenario. -/
def c2eng1 : QueryEngine :=
  { ctx := { EvalContext.new with
      baseTables := [("t", ⟨some c2batch, some c2batch, c2cfg⟩)],
      dataframes := [("t", ⟨c2dBatch, some c2cfg⟩)] },
    baseTables := [("t", ⟨some c2batch, some c2batch⟩)],
    materialized := [], subscriptions := [] }

/-- The engine after `add_base_df` overwrites the catalog entry. -/
def c2eng2 : QueryEngine :=
  { c2eng1 with ctx := { c2eng1.ctx with
      dataframes := [("t", ⟨c2dOther, none⟩)] } }

/-- C2 counterexample: after a successful `append_tick`, `add_base_df` on
the same name overwrites the catalog entry while leaving the base-table
`all` plan untouched — the claimed catalog/base agreement after *every*
engine operation fails. -/
theorem claim_append_tick_counterexample :
    c2eng0.appendTick "t" c2batch = .ok c2eng1 ∧
    c2eng1.addBaseDf "t" c2other = .ok c2eng2 ∧
    EvalContext.getBaseAll c2eng2.ctx "t" = some c2batch ∧
    collectLF c2batch = .ok c2dBatch ∧
    alookup c2eng2.ctx.dataframes "t" = some ⟨c2dOther, none⟩ ∧
    c2dOther ≠ c2dBatch :=
  ⟨rfl, rfl, rfl, rfl, rfl, by decide⟩

/-- Witness for C2 at concrete inputs. -/
theorem claim_append_tick_witness :
    (QueryEngine.new.appendTick "t" c2batch = .error (.evalE (.unknownIdent "t"))) ∧
    (c2eng0.appendTick "t" c2batch = .ok { c2eng0 with
      baseTables := ainsert c2eng0.baseTables "t" ⟨some c2batch, some c2batch⟩,
      ctx := { c2eng0.ctx with
        baseTables := ainsert c2eng0.ctx.baseTables "t"
          ⟨some c2batch, some c2batch, c2cfg⟩,
        dataframes := ainsert c2eng0.ctx.dataframes "t" ⟨c2dBatch, some c2cfg⟩ } }) ∧
    (c2eng1.appendTick "t" c2batch2 = .ok { c2eng1 with
      baseTables := ainsert c2eng1.baseTables "t"
        ⟨some (.concatL [c2batch, c2batch2]), some c2batch2⟩,
      ctx := { c2eng1.ctx with
        baseTables := ainsert c2eng1.ctx.baseTables "t"
          ⟨some (.concatL [c2batch, c2batch2]), some c2batch2, c2cfg⟩,
        dataframes := ainsert c2eng1.ctx.dataframes "t"
          ⟨⟨[("x", .int64)], [[("x", .int 1)], [("x", .int 2)]]⟩, some c2cfg⟩ } }) ∧
    (∃ allLF d, alookup c2eng1.baseTables "t" = some ⟨some allLF, some c2batch⟩ ∧
      alookup c2eng1.ctx.baseTables "t" = some ⟨some allLF, some c2batch, c2cfg⟩ ∧
      collectLF allLF = .ok d ∧
      alookup c2eng1.ctx.dataframes "t" = some ⟨d, some c2cfg⟩) ∧
    (collectLF (.concatL [c2batch, c2batch2]) =
      .ok ⟨[("x", .int64)], [[("x", .int 1)], [("x", .int 2)]]⟩) := by
  have h1 := QueryEngine.claim_append_tick.1 QueryEngine.new "t" c2batch rfl
  have h2 := QueryEngine.claim_append_tick.2.1 c2eng0 "t" c2batch ⟨none, none⟩
    ⟨none, none, c2cfg⟩ c2dBatch rfl rfl rfl rfl
  have h3 := QueryEngine.claim_append_tick.2.2.1 c2eng1 "t" c2batch2 c2batch
    ⟨some c2batch, some c2batch⟩ ⟨some c2batch, some c2batch, c2cfg⟩
    ⟨[("x", .int64)], [[("x", .int 1)], [("x", .int 2)]]⟩ rfl rfl rfl rfl
  have h4 := QueryEngine.claim_append_tick.2.2.2.1 c2eng0 "t" c2batch c2eng1
    ⟨none, none, c2cfg⟩ rfl rfl
  have h5 := QueryEngine.claim_append_tick.2.2.2.2 c2batch c2batch2 c2dBatch c2dBatch2
    rfl rfl rfl
  exact ⟨h1, h2, h3, h4, h5⟩

end Piql
